import Mathlib

/-!
# libshardcache: the cache core (`src/arc_ops.c`) and the client (`src/shardcache_client.c`)

A shallow embedding of the ARC operations of libshardcache: the per-entry
record `cached_object_t`, the listener notification handlers, eviction, the
asynchronous peer-fetch callback, the peer fetch driver and `arc_ops_fetch`;
and of the client functions `select_node`, `shc_split_buckets` and
`shc_multi_context_create`.

Conventions of the embedding

* Byte strings (keys, values, chunks) are lists of naturals.
* The C pair `(data, dlen)` of an entry is one optional byte list: `none` is the
  NULL pointer, `some d` a buffer holding `d`, and `dlen` is its length.
* Calls into collaborators (Arc, the connection pool, the multiplexer, the
  expirer, listener callbacks, locks) are recorded, in program order, in a
  trace of `Event`s; what the collaborators answer is supplied by the caller.
* Counters are plain naturals inside `shardcache_t`.
-/

namespace Shardcache

/-! ## Flags -/

/-- Modelled from the spec: the constants `COBJ_FLAG_*` and the macros
`COBJ_CHECK_FLAGS`, `COBJ_SET_FLAG`, `COBJ_UNSET_FLAG` are declared in
`shardcache_internal.h`, which is not under `src/`. The spec gives the flags
word as a bitset over ASYNC, FETCHING, COMPLETE, EVICT, EVICTED and DROP; a
flags word (and a mask) is represented by these six bits. -/
structure cobj_flags where
  complete : Bool
  drop : Bool
  evict : Bool
  async : Bool
  evicted : Bool
  fetching : Bool
deriving DecidableEq, Repr

/-- The all-zero flags word. -/
def cobj_flags.zero : cobj_flags := ⟨false, false, false, false, false, false⟩

def COBJ_FLAG_COMPLETE : cobj_flags := { cobj_flags.zero with complete := true }
def COBJ_FLAG_DROP : cobj_flags := { cobj_flags.zero with drop := true }
def COBJ_FLAG_EVICT : cobj_flags := { cobj_flags.zero with evict := true }
def COBJ_FLAG_ASYNC : cobj_flags := { cobj_flags.zero with async := true }
def COBJ_FLAG_EVICTED : cobj_flags := { cobj_flags.zero with evicted := true }
def COBJ_FLAG_FETCHING : cobj_flags := { cobj_flags.zero with fetching := true }

/-- Bitwise or of two flag words (`a | b`). -/
def cobj_flags.lor (a b : cobj_flags) : cobj_flags :=
  ⟨a.complete || b.complete, a.drop || b.drop, a.evict || b.evict,
   a.async || b.async, a.evicted || b.evicted, a.fetching || b.fetching⟩

/-- Bitwise and of two flag words (`a & b`). -/
def cobj_flags.land (a b : cobj_flags) : cobj_flags :=
  ⟨a.complete && b.complete, a.drop && b.drop, a.evict && b.evict,
   a.async && b.async, a.evicted && b.evicted, a.fetching && b.fetching⟩

/-- Bitwise complement of a flag word (`~a`). -/
def cobj_flags.lnot (a : cobj_flags) : cobj_flags :=
  ⟨!a.complete, !a.drop, !a.evict, !a.async, !a.evicted, !a.fetching⟩

/-! ## Events and listeners -/

/-- Arguments of one invocation of a listener callback
`cb(key, klen, data, len, total_size, timestamp, priv)`. -/
structure cb_args where
  key : List Nat
  data : Option (List Nat)
  len : Nat
  total_size : Nat
  timestamp : Option Nat
deriving DecidableEq, Repr

/-- Calls into collaborators, in program order. -/
inductive Event where
  | mutex_lock
  | mutex_unlock
  | arc_retain_resource
  | arc_release_resource
  | listener_cb (id : Nat) (args : cb_args)
  | test_ownership
  | test_migration_ownership
  | node_select
  | get_connection (fd : Int)
  | fetch_from_peer (fd : Int) (rc : Int)
  | fetch_from_peer_async (fd : Int) (rc : Int)
  | queue_push_right
  | release_connection (fd : Int)
  | iomux_remove (fd : Int)
  | close (fd : Int)
  | ht_get_deep_copy
  | storage_fetch
  | arc_update_size (key : List Nat) (n : Int)
  | arc_remove (key : List Nat)
  | schedule_expiration (key : List Nat) (expire : Int)
  | unschedule_expiration (key : List Nat)
deriving DecidableEq, Repr

/-- A registered waiter (`shardcache_get_listener_t`): the callback with its
private pointer. `id` stands for the identity of the listener record, `priv`
for the state behind `listener->priv`; `cb` returns the callback's return code
and the private state it leaves. -/
structure shardcache_get_listener_t where
  id : Nat
  priv : Nat
  cb : Nat → cb_args → Int × Nat

/-- Result of one handler call inside `list_foreach_value`. -/
structure handler_result where
  rc : Int
  item : shardcache_get_listener_t
  trace : List Event

/-- Modelled from the spec: `list_foreach_value` belongs to the linked-list
library (libhl), which is not under `src/`. Its contract: the handler is called
on every item in list order; a return of `-1` removes the item and goes on,
`-2` removes it and stops, `0` stops, anything else keeps the item and goes on
(the spec: a listener returning failure is removed but does not abort the
notification of other listeners). -/
def list_foreach_value (handler : shardcache_get_listener_t → handler_result) :
    List shardcache_get_listener_t → List shardcache_get_listener_t × List Event
  | [] => ([], [])
  | l :: ls =>
    let r := handler l
    if r.rc = 0 then (r.item :: ls, r.trace)
    else if r.rc = -2 then (ls, r.trace)
    else
      let rest := list_foreach_value handler ls
      if r.rc = -1 then (rest.1, r.trace ++ rest.2)
      else (r.item :: rest.1, r.trace ++ rest.2)

/-- The iteration over `obj->listeners`, which may be the NULL pointer; a NULL
list has no items. -/
def foreach_listeners (handler : shardcache_get_listener_t → handler_result) :
    Option (List shardcache_get_listener_t) →
      Option (List shardcache_get_listener_t) × List Event
  | none => (none, [])
  | some ls => (some (list_foreach_value handler ls).1, (list_foreach_value handler ls).2)

/-- The function `list_count`; a NULL list counts as empty. -/
def list_count : Option (List shardcache_get_listener_t) → Nat
  | none => 0
  | some ls => ls.length

/-- The function `list_clear`. -/
def list_clear : Option (List shardcache_get_listener_t) →
    Option (List shardcache_get_listener_t)
  | none => none
  | some _ => some []

/-! ## The entry and the cache -/

/-- The per-key record `cached_object_t`. The pair `(data, dlen)` is the
optional byte list `data`; `res` tells whether `obj->res` is non-NULL;
`listeners` is `none` for the NULL pointer. -/
structure cached_object_t where
  key : List Nat
  data : Option (List Nat)
  flags : cobj_flags
  listeners : Option (List shardcache_get_listener_t)
  ts : Nat
  res : Bool

/-- The field `obj->dlen`. -/
def cached_object_t.dlen (obj : cached_object_t) : Nat :=
  match obj.data with
  | none => 0
  | some d => d.length

/-- The macro `COBJ_CHECK_FLAGS(obj, f)`: every bit of `f` is set. -/
def COBJ_CHECK_FLAGS (obj : cached_object_t) (f : cobj_flags) : Bool :=
  decide (obj.flags.land f = f)

/-- The macro `COBJ_SET_FLAG(obj, f)`. -/
def COBJ_SET_FLAG (obj : cached_object_t) (f : cobj_flags) : cached_object_t :=
  { obj with flags := obj.flags.lor f }

/-- The macro `COBJ_UNSET_FLAG(obj, f)`. -/
def COBJ_UNSET_FLAG (obj : cached_object_t) (f : cobj_flags) : cached_object_t :=
  { obj with flags := obj.flags.land f.lnot }

/-- The counters `cache->cnt[...]` touched by the ARC operations. -/
structure counters where
  cache_misses : Nat
  fetch_local : Nat
  fetch_remote : Nat
  not_found : Nat
  errors : Nat
  evicts : Nat
deriving DecidableEq, Repr

/-- The fields of `shardcache_t` read or written by the ARC operations.
`storage_fetch` tells whether the callback `cache->storage.fetch` is set. -/
structure shardcache_t where
  cnt : counters
  force_caching : Bool
  expire_time : Int
  lazy_expiration : Bool
  use_persistent_storage : Bool
  storage_fetch : Bool
  storage_global : Bool
deriving DecidableEq, Repr

/-! ## Listener notification handlers -/

/-- Handler `arc_ops_fetch_from_peer_notify_listener`: deliver one chunk. -/
def arc_ops_fetch_from_peer_notify_listener (obj : cached_object_t)
    (data : List Nat) (len : Nat) (listener : shardcache_get_listener_t) : handler_result :=
  let args : cb_args :=
    { key := obj.key, data := some data, len := len, total_size := 0, timestamp := none }
  let r := listener.cb listener.priv args
  let rc : Bool := decide (r.1 = 0)
  if !rc then
    { rc := -1, item := { listener with priv := r.2 }, trace := [Event.listener_cb listener.id args] }
  else
    { rc := 1, item := { listener with priv := r.2 }, trace := [Event.listener_cb listener.id args] }

/-- Handler `arc_ops_fetch_from_peer_notify_listener_complete`. -/
def arc_ops_fetch_from_peer_notify_listener_complete (obj : cached_object_t)
    (listener : shardcache_get_listener_t) : handler_result :=
  let args : cb_args :=
    { key := obj.key, data := none, len := 0, total_size := obj.dlen, timestamp := some obj.ts }
  let r := listener.cb listener.priv args
  { rc := -1, item := { listener with priv := r.2 }, trace := [Event.listener_cb listener.id args] }

/-- Handler `arc_ops_fetch_from_peer_notify_listener_error`. -/
def arc_ops_fetch_from_peer_notify_listener_error (obj : cached_object_t)
    (listener : shardcache_get_listener_t) : handler_result :=
  let args : cb_args :=
    { key := obj.key, data := none, len := 0, total_size := 0, timestamp := none }
  let r := listener.cb listener.priv args
  { rc := -1, item := { listener with priv := r.2 }, trace := [Event.listener_cb listener.id args] }

/-! ## Eviction -/

/-- The function `arc_ops_evict_object`. -/
def arc_ops_evict_object (cache : shardcache_t) (obj : cached_object_t) :
    shardcache_t × cached_object_t :=
  if list_count obj.listeners ≠ 0 then
    (cache, COBJ_SET_FLAG obj COBJ_FLAG_EVICT)
  else
    let cache1 : shardcache_t :=
      if obj.data.isSome then
        { cache with cnt := { cache.cnt with evicts := cache.cnt.evicts + 1 } }
      else cache
    (cache1, { obj with data := none, flags := COBJ_FLAG_EVICTED,
                        listeners := list_clear obj.listeners })

/-- The function `arc_ops_evict`. -/
def arc_ops_evict (cache : shardcache_t) (obj : cached_object_t) :
    shardcache_t × cached_object_t × List Event :=
  let ev := arc_ops_evict_object cache obj
  (ev.1, ev.2,
    [Event.mutex_lock] ++
    (if !cache.lazy_expiration then [Event.unschedule_expiration obj.key] else []) ++
    [Event.mutex_unlock])

/-! ## The asynchronous peer-fetch callback -/

/-- The conversion of a `size_t` to `int` (`int total_len = obj->dlen`). -/
def size_to_int (n : Nat) : Int :=
  ((n + 2 ^ 31) % 2 ^ 32 : Nat) - 2 ^ 31

/-- What `arc_ops_fetch_from_peer_async_cb` returns and leaves behind. -/
structure cb_result where
  rc : Int
  obj : cached_object_t
  cache : shardcache_t
  trace : List Event

/-- The block `if (complete) { ... }` at the end of
`arc_ops_fetch_from_peer_async_cb`: the size update with the arming of the
expirer, or the removal from Arc. -/
def async_cb_complete (cache : shardcache_t) (obj : cached_object_t) (key : List Nat)
    (error : Int) (total_len : Int) (drop : Bool) : List Event :=
  if total_len ≠ 0 ∧ drop = false then
    let evicted : Bool :=
      COBJ_CHECK_FLAGS obj COBJ_FLAG_EVICT || COBJ_CHECK_FLAGS obj COBJ_FLAG_EVICTED
    [Event.arc_update_size key total_len] ++
    (if cache.expire_time > 0 ∧ evicted = false ∧ cache.lazy_expiration = false then
       [Event.schedule_expiration key cache.expire_time]
     else [])
  else if error ≠ 0 ∨ drop = true then [Event.arc_remove key]
  else []

/-- The branch `if (error)` of the callback followed by the eviction test:
the cache and the entry it leaves (`drop` is set but `complete` stays 0). -/
def async_cb_evict (cache : shardcache_t) (obj1 : cached_object_t) :
    shardcache_t × cached_object_t :=
  if COBJ_CHECK_FLAGS obj1 COBJ_FLAG_EVICT then arc_ops_evict_object cache obj1
  else (cache, obj1)

/-- The function `arc_ops_fetch_from_peer_async_cb`. The context `priv` carries
the entry, the cache and `fd`; `data` is the chunk (`len` is its length) and
`error` the error indication. -/
def arc_ops_fetch_from_peer_async_cb (cache : shardcache_t) (obj : cached_object_t)
    (fd : Int) (key : List Nat) (data : List Nat) (error : Int) : cb_result :=
  let len := data.length
  if !obj.res then
    let n := foreach_listeners (arc_ops_fetch_from_peer_notify_listener_error obj) obj.listeners
    { rc := -1
      obj := COBJ_UNSET_FLAG { obj with listeners := n.1 } COBJ_FLAG_FETCHING
      cache := cache
      trace := [Event.mutex_lock] ++ n.2 ++ [Event.mutex_unlock] }
  else if obj.listeners.isNone then
    let n := foreach_listeners (arc_ops_fetch_from_peer_notify_listener_error obj) obj.listeners
    { rc := -1
      obj := COBJ_UNSET_FLAG { obj with listeners := n.1 } COBJ_FLAG_FETCHING
      cache := cache
      trace := [Event.mutex_lock, Event.arc_retain_resource] ++ n.2 ++
               [Event.mutex_unlock, Event.arc_release_resource] }
  else if error ≠ 0 then
    let n := foreach_listeners (arc_ops_fetch_from_peer_notify_listener_error obj) obj.listeners
    let obj1 := COBJ_UNSET_FLAG { obj with listeners := n.1 } COBJ_FLAG_FETCHING
    let ev := async_cb_evict cache obj1
    -- complete = 0: the block guarded by `if (complete)` is skipped
    { rc := -1
      obj := ev.2
      cache := ev.1
      trace := [Event.mutex_lock, Event.arc_retain_resource] ++ n.2 ++ [Event.close fd] ++
               [Event.mutex_unlock, Event.arc_release_resource] }
  else if len ≠ 0 then
    let obj1 : cached_object_t := { obj with data := some (obj.data.getD [] ++ data) }
    let n := foreach_listeners (arc_ops_fetch_from_peer_notify_listener obj1 data len) obj1.listeners
    { rc := 0
      obj := { obj1 with listeners := n.1 }
      cache := cache
      trace := [Event.mutex_lock, Event.arc_retain_resource] ++ n.2 ++
               [Event.mutex_unlock, Event.arc_release_resource] }
  else
    let n := foreach_listeners (arc_ops_fetch_from_peer_notify_listener_complete obj) obj.listeners
    let obj1 := COBJ_UNSET_FLAG (COBJ_SET_FLAG { obj with listeners := n.1 } COBJ_FLAG_COMPLETE)
                  COBJ_FLAG_FETCHING
    let total_len : Int := size_to_int obj1.dlen
    let fdev : List Event :=
      (if fd > 0 then [Event.iomux_remove fd] else []) ++ [Event.release_connection fd]
    let ev := async_cb_evict cache obj1
    let drop : Bool :=
      if COBJ_CHECK_FLAGS obj1 COBJ_FLAG_EVICT then false
      else COBJ_CHECK_FLAGS obj1 COBJ_FLAG_DROP
    { rc := 0
      obj := ev.2
      cache := ev.1
      trace := [Event.mutex_lock, Event.arc_retain_resource] ++ n.2 ++ fdev ++
               async_cb_complete cache ev.2 key error total_len drop ++
               [Event.mutex_unlock, Event.arc_release_resource] }

/-! ## The peer fetch driver -/

/-- What the peer answers to one `arc_ops_fetch_from_peer`: the connection
handed out by the pool, the return code of `fetch_from_peer` (or
`fetch_from_peer_async`), the value read in synchronous mode and the number
drawn from `rand()`. -/
structure peer_reply where
  fd : Int
  rc : Int
  value : List Nat
  rnd : Nat
deriving DecidableEq, Repr

/-- The admission step shared by both modes:
`if (!cache->force_caching && rand() % 10 != 0) SET DROP else UNSET DROP`. -/
def admission (cache : shardcache_t) (rnd : Nat) (obj : cached_object_t) : cached_object_t :=
  if cache.force_caching = false ∧ rnd % 10 ≠ 0 then COBJ_SET_FLAG obj COBJ_FLAG_DROP
  else COBJ_UNSET_FLAG obj COBJ_FLAG_DROP

/-- The function `arc_ops_fetch_from_peer`: return code, entry and trace. -/
def arc_ops_fetch_from_peer (cache : shardcache_t) (obj : cached_object_t)
    (peer : Option (List Nat)) (reply : peer_reply) : Int × cached_object_t × List Event :=
  if peer.isNone then (-1, obj, [Event.node_select])
  else
    let fd := reply.fd
    if COBJ_CHECK_FLAGS obj COBJ_FLAG_ASYNC then
      let obj1 := COBJ_SET_FLAG obj COBJ_FLAG_FETCHING
      let rc := reply.rc
      if rc = 0 then
        (rc, admission cache reply.rnd obj1,
          [Event.node_select, Event.get_connection fd, Event.fetch_from_peer_async fd rc,
           Event.queue_push_right])
      else
        let n := foreach_listeners (arc_ops_fetch_from_peer_notify_listener_error obj1) obj1.listeners
        let obj2 : cached_object_t :=
          if obj1.listeners.isSome then { obj1 with listeners := list_clear n.1 } else obj1
        let obj3 := COBJ_SET_FLAG (COBJ_UNSET_FLAG obj2 COBJ_FLAG_FETCHING) COBJ_FLAG_EVICTED
        (rc, obj3,
          [Event.node_select, Event.get_connection fd, Event.fetch_from_peer_async fd rc] ++
          n.2 ++ [Event.release_connection fd])
    else
      let obj1 := COBJ_SET_FLAG obj COBJ_FLAG_FETCHING
      let rc := reply.rc
      let obj2 := COBJ_UNSET_FLAG obj1 COBJ_FLAG_FETCHING
      let obj3 : cached_object_t :=
        if rc = 0 ∧ reply.value.length ≠ 0 then
          admission cache reply.rnd
            (COBJ_SET_FLAG { obj2 with data := some reply.value } COBJ_FLAG_COMPLETE)
        else obj2
      (rc, obj3,
        [Event.node_select, Event.get_connection fd, Event.fetch_from_peer fd rc,
         Event.release_connection fd])

/-! ## Creation and fetch -/

/-- The function `arc_ops_create`: a zeroed record with the key copied, no
data, the resource stored and, for an asynchronous entry, the ASYNC flag and an
empty listener list. -/
def arc_ops_create (key : List Nat) (async : Bool) (res : Bool) : cached_object_t :=
  let obj : cached_object_t :=
    { key := key, data := none, flags := cobj_flags.zero, listeners := none, ts := 0, res := false }
  let obj1 := COBJ_UNSET_FLAG { obj with data := none } COBJ_FLAG_COMPLETE
  let obj2 : cached_object_t := { obj1 with res := res }
  if async then { COBJ_SET_FLAG obj2 COBJ_FLAG_ASYNC with listeners := some [] } else obj2

/-- What the collaborators answer during one call of `arc_ops_fetch`:
`owner` is the result of `shardcache_test_ownership`, `peer1` and `peer2` the
answers to the first and the second `arc_ops_fetch_from_peer`, `check` the
result of `shardcache_test_migration_ownership`, `vobj` the copy found in the
volatile store (its `data` pointer may be NULL), `storage_rc` and
`storage_data` what `cache->storage.fetch` returns and stores in
`(obj->data, obj->dlen)`, `now` the clock. -/
structure fetch_env where
  owner : Int
  peer1 : peer_reply
  check : Int
  peer2 : peer_reply
  vobj : Option (Option (List Nat))
  storage_rc : Int
  storage_data : Option (List Nat)
  now : Nat
deriving DecidableEq, Repr

/-- What `arc_ops_fetch` returns and leaves behind; `size` is `none` when
`*size` was not written. -/
structure fetch_result where
  rc : Int
  size : Option Nat
  obj : cached_object_t
  cache : shardcache_t
  trace : List Event

def inc_cache_misses (cache : shardcache_t) : shardcache_t :=
  { cache with cnt := { cache.cnt with cache_misses := cache.cnt.cache_misses + 1 } }

def inc_fetch_local (cache : shardcache_t) : shardcache_t :=
  { cache with cnt := { cache.cnt with fetch_local := cache.cnt.fetch_local + 1 } }

def inc_fetch_remote (cache : shardcache_t) : shardcache_t :=
  { cache with cnt := { cache.cnt with fetch_remote := cache.cnt.fetch_remote + 1 } }

def inc_not_found (cache : shardcache_t) : shardcache_t :=
  { cache with cnt := { cache.cnt with not_found := cache.cnt.not_found + 1 } }

def inc_errors (cache : shardcache_t) : shardcache_t :=
  { cache with cnt := { cache.cnt with errors := cache.cnt.errors + 1 } }

/-- The end of `arc_ops_fetch`, from `gettimeofday(&obj->ts, NULL)` on the local
path to the return; `tr` is the trace so far. -/
def arc_ops_fetch_finish (env : fetch_env) (cache1 : shardcache_t) (obj1 : cached_object_t)
    (tr : List Event) : fetch_result :=
  let obj2 : cached_object_t := { obj1 with ts := env.now }
  let obj3 := COBJ_UNSET_FLAG (COBJ_SET_FLAG obj2 COBJ_FLAG_COMPLETE) COBJ_FLAG_FETCHING
  if obj3.data.isNone then
    let n : Option (List shardcache_get_listener_t) × List Event :=
      if COBJ_CHECK_FLAGS obj3 COBJ_FLAG_ASYNC ∧ obj3.listeners.isSome then
        foreach_listeners (arc_ops_fetch_from_peer_notify_listener_complete obj3) obj3.listeners
      else (obj3.listeners, [])
    { rc := 1, size := none, obj := { obj3 with listeners := n.1 }
      cache := inc_not_found cache1
      trace := tr ++ n.2 ++ [Event.mutex_unlock] }
  else
    let n1 : Option (List shardcache_get_listener_t) × List Event :=
      if COBJ_CHECK_FLAGS obj3 COBJ_FLAG_ASYNC then
        foreach_listeners
          (arc_ops_fetch_from_peer_notify_listener obj3 (obj3.data.getD []) obj3.dlen)
          obj3.listeners
      else (obj3.listeners, [])
    let n2 : Option (List shardcache_get_listener_t) × List Event :=
      if COBJ_CHECK_FLAGS obj3 COBJ_FLAG_ASYNC then
        foreach_listeners (arc_ops_fetch_from_peer_notify_listener_complete obj3) n1.1
      else (n1.1, [])
    let obj4 : cached_object_t := { obj3 with listeners := n2.1 }
    let ev : shardcache_t × cached_object_t :=
      if COBJ_CHECK_FLAGS obj4 COBJ_FLAG_ASYNC ∧ COBJ_CHECK_FLAGS obj4 COBJ_FLAG_EVICT then
        arc_ops_evict_object cache1 obj4
      else (cache1, obj4)
    let obj5 := ev.2
    let evicted : Bool :=
      COBJ_CHECK_FLAGS obj5 COBJ_FLAG_EVICT || COBJ_CHECK_FLAGS obj5 COBJ_FLAG_EVICTED
    { rc := 0, size := some obj5.dlen, obj := obj5, cache := ev.1
      trace := tr ++ n1.2 ++ n2.2 ++
        (if cache1.expire_time > 0 ∧ evicted = false ∧ cache1.lazy_expiration = false then
           [Event.schedule_expiration obj5.key cache1.expire_time]
         else []) ++ [Event.mutex_unlock] }

/-- The local path of `arc_ops_fetch` (from the increment of `fetch_local` to
the end of the function); `pre` is the trace so far. -/
def arc_ops_fetch_local (env : fetch_env) (cache0 : shardcache_t) (obj0 : cached_object_t)
    (pre : List Event) : fetch_result :=
  let cache1 := inc_fetch_local cache0
  match env.vobj with
  | some v =>
    arc_ops_fetch_finish env cache1 { obj0 with data := v } (pre ++ [Event.ht_get_deep_copy])
  | none =>
    if cache0.use_persistent_storage ∧ cache0.storage_fetch then
      let obj1 : cached_object_t := { obj0 with data := env.storage_data }
      if env.storage_rc = -1 then
        { rc := -1, size := none, obj := obj1, cache := inc_errors cache1
          trace := pre ++ [Event.ht_get_deep_copy, Event.storage_fetch, Event.mutex_unlock] }
      else
        arc_ops_fetch_finish env cache1 obj1
          (pre ++ [Event.ht_get_deep_copy, Event.storage_fetch])
    else arc_ops_fetch_finish env cache1 obj0 (pre ++ [Event.ht_get_deep_copy])

/-- State of `arc_ops_fetch` after the block entered when the key is owned by a
peer: the variables `ret` and `done`, the entry and the trace of the block. -/
structure remote_result where
  ret : Int
  done : Bool
  obj : cached_object_t
  trace : List Event

/-- The block of `arc_ops_fetch` entered when `shardcache_test_ownership`
answers 0, up to the test `if (done)`. The owner name written by the ownership
test is never NULL (`node_name` is a local array). -/
def arc_ops_fetch_remote (env : fetch_env) (cache0 : shardcache_t) (obj0 : cached_object_t) :
    remote_result :=
  let node_name : Option (List Nat) := some []
  let r1 := arc_ops_fetch_from_peer cache0 obj0 node_name env.peer1
  if r1.1 = -1 then
    let check := env.check
    let r2 : Int × cached_object_t × List Event :=
      if check = 0 then arc_ops_fetch_from_peer cache0 r1.2.1 node_name env.peer2
      else (r1.1, r1.2.1, [])
    let tr2 := r1.2.2 ++ [Event.test_migration_ownership] ++ r2.2.2
    if check = 1 ∨ (r2.1 = -1 ∧ cache0.storage_global) then
      { ret := r2.1, done := false, obj := COBJ_UNSET_FLAG r2.2.1 COBJ_FLAG_EVICTED, trace := tr2 }
    else { ret := r2.1, done := true, obj := r2.2.1, trace := tr2 }
  else { ret := r1.1, done := true, obj := r1.2.1, trace := r1.2.2 }

/-- The function `arc_ops_fetch`. -/
def arc_ops_fetch (env : fetch_env) (cache : shardcache_t) (obj : cached_object_t) :
    fetch_result :=
  let cache0 := inc_cache_misses cache
  if obj.data.isSome ∨ COBJ_CHECK_FLAGS obj (COBJ_FLAG_ASYNC.lor COBJ_FLAG_FETCHING) then
    { rc := 0, size := some obj.dlen, obj := obj, cache := cache0
      trace := [Event.mutex_lock, Event.mutex_unlock] }
  else
    let obj0 := COBJ_UNSET_FLAG obj COBJ_FLAG_EVICTED
    if env.owner = 0 then
      let s := arc_ops_fetch_remote env cache0 obj0
      let tr := [Event.mutex_lock, Event.test_ownership] ++ s.trace
      if s.done then
        let cache1 := inc_fetch_remote cache0
        if s.ret = 0 then
          let obj1 : cached_object_t := { s.obj with ts := env.now }
          { rc := if COBJ_CHECK_FLAGS obj1 (COBJ_FLAG_DROP.lor COBJ_FLAG_COMPLETE) then 1 else 0
            size := some obj1.dlen, obj := obj1, cache := cache1
            trace := tr ++ [Event.mutex_unlock] }
        else
          { rc := -1, size := none, obj := s.obj, cache := inc_errors cache1
            trace := tr ++ [Event.mutex_unlock] }
      else arc_ops_fetch_local env cache0 s.obj tr
    else arc_ops_fetch_local env cache0 obj0 [Event.mutex_lock, Event.test_ownership]

/-! ## Sequences of operations on one entry -/

/-- Modelled from the spec: listener registration is done by the caller of
Arc (`shardcache.c`), which is not under `src/`. The spec: under the lock,
append the callback to `listeners` iff EVICTED is unset. An entry without a
listener list registers nothing. -/
def register_listener (obj : cached_object_t) (l : shardcache_get_listener_t) :
    cached_object_t :=
  if COBJ_CHECK_FLAGS obj COBJ_FLAG_EVICTED then obj
  else
    match obj.listeners with
    | none => obj
    | some ls => { obj with listeners := some (ls ++ [l]) }

/-- Number of invocations of `arc_ops_fetch_from_peer` recorded in a trace
(each invocation starts with `shardcache_node_select`). -/
def peer_fetches (tr : List Event) : Nat :=
  tr.countP (fun e => decide (e = Event.node_select))

/-- Number of asynchronous peer requests issued successfully in a trace
(`fetch_from_peer_async` returned 0). -/
def async_issued (tr : List Event) : Nat :=
  tr.countP (fun e => match e with
    | Event.fetch_from_peer_async _ rc => decide (rc = 0)
    | _ => false)

/-- The listener callbacks of a trace, in order. -/
def listener_calls (tr : List Event) : List (Nat × cb_args) :=
  tr.filterMap (fun e => match e with
    | Event.listener_cb i a => some (i, a)
    | _ => none)

/-- The arguments of the callbacks received by the listener `id`, in order. -/
def received (id : Nat) (tr : List Event) : List cb_args :=
  tr.filterMap (fun e => match e with
    | Event.listener_cb i a => if i = id then some a else none
    | _ => none)

/-- The sizes reported to Arc in a trace, in order. -/
def size_updates (tr : List Event) : List (List Nat × Int) :=
  tr.filterMap (fun e => match e with
    | Event.arc_update_size k n => some (k, n)
    | _ => none)

/-- One entry with its cache, and the number of asynchronous peer fetches that
were issued and have not yet received their end-of-stream or error callback. -/
structure sys where
  cache : shardcache_t
  obj : cached_object_t
  inflight : Nat

/-- The operations applied to an entry. A callback carries the descriptor, the
chunk and the error indication; it is invoked with the key of the request. -/
inductive action where
  | fetch (env : fetch_env)
  | evict
  | callback (fd : Int) (data : List Nat) (error : Int)
  | register (l : shardcache_get_listener_t)

/-- A callback is a data chunk: no error and a non-empty payload. -/
def is_chunk (data : List Nat) (error : Int) : Bool :=
  decide (error = 0) && !data.isEmpty

/-- The effect of one operation. -/
def step (s : sys) : action → sys
  | action.fetch env =>
    let r := arc_ops_fetch env s.cache s.obj
    { cache := r.cache, obj := r.obj, inflight := s.inflight + async_issued r.trace }
  | action.evict =>
    let r := arc_ops_evict s.cache s.obj
    { cache := r.1, obj := r.2.1, inflight := s.inflight }
  | action.callback fd data error =>
    let r := arc_ops_fetch_from_peer_async_cb s.cache s.obj fd s.obj.key data error
    { cache := r.cache, obj := r.obj
      inflight := if is_chunk data error then s.inflight else s.inflight - 1 }
  | action.register l =>
    { cache := s.cache, obj := register_listener s.obj l, inflight := s.inflight }

/-- Runs a sequence of operations, each of which must be allowed by `ok` in the
state it is applied to. -/
def run (ok : sys → action → Bool) : sys → List action → Option sys
  | s, [] => some s
  | s, a :: as => if ok s a then run ok (step s a) as else none

/-- Callbacks belong to a peer fetch in flight; the other operations may be
applied at any time. -/
def enabled (s : sys) : action → Bool
  | action.callback _ _ _ => decide (0 < s.inflight)
  | _ => true

/-- As `enabled`, and `arc_ops_evict` is not applied to an entry whose listener
list is empty while a peer fetch is in flight. -/
def enabled_deferred (s : sys) : action → Bool
  | action.callback _ _ _ => decide (0 < s.inflight)
  | action.evict => decide (s.inflight = 0 ∨ list_count s.obj.listeners ≠ 0)
  | _ => true

/-- Every operation is allowed at any time, except the delivery of a data
chunk to an entry on which EVICTED is set. -/
def enabled_live (s : sys) : action → Bool
  | action.callback _ data error => !(is_chunk data error && s.obj.flags.evicted)
  | _ => true

/-- The entry as created by `arc_ops_create`. -/
def sys_create (cache : shardcache_t) (key : List Nat) (async : Bool) (res : Bool) : sys :=
  { cache := cache, obj := arc_ops_create key async res, inflight := 0 }

/-- A run of the callback over a list of invocations `(data, error)`, the
traces concatenated. -/
def cb_run (fd : Int) (key : List Nat) :
    shardcache_t → cached_object_t → List (List Nat × Int) →
      shardcache_t × cached_object_t × List Event
  | cache, obj, [] => (cache, obj, [])
  | cache, obj, (data, error) :: rest =>
    let r := arc_ops_fetch_from_peer_async_cb cache obj fd key data error
    let t := cb_run fd key r.cache r.obj rest
    (t.1, t.2.1, r.trace ++ t.2.2)

/-- The invocations delivering the chunks `cs`. -/
def chunk_calls (cs : List (List Nat)) : List (List Nat × Int) :=
  cs.map (fun c => (c, (0 : Int)))

/-- The data callback of the listener reports success whatever it is given. -/
def always_ok (l : shardcache_get_listener_t) : Prop :=
  ∀ (p : Nat) (a : cb_args), (l.cb p a).1 = 0

/-- The arguments of a data callback for the chunk `c`. -/
def chunk_args (key : List Nat) (c : List Nat) : cb_args :=
  { key := key, data := some c, len := c.length, total_size := 0, timestamp := none }

/-- The arguments of a completion callback. -/
def complete_args (key : List Nat) (total : Nat) (ts : Nat) : cb_args :=
  { key := key, data := none, len := 0, total_size := total, timestamp := some ts }

/-- The arguments of an error callback. -/
def error_args (key : List Nat) : cb_args :=
  { key := key, data := none, len := 0, total_size := 0, timestamp := none }

/-- Flag invariant 1: FETCHING and COMPLETE are not both set. -/
def inv_fetching_complete (obj : cached_object_t) : Prop :=
  ¬ (obj.flags.fetching = true ∧ obj.flags.complete = true)

/-- Flag invariant 3: EVICTED implies no data and no listeners. -/
def inv_evicted (obj : cached_object_t) : Prop :=
  obj.flags.evicted = true → obj.data = none ∧ list_count obj.listeners = 0

/-- What a listener becomes after a data callback with arguments `a`: kept, with
the private state the callback left, when it reported success; dropped
otherwise. -/
def after_chunk (a : cb_args) (l : shardcache_get_listener_t) :
    Option shardcache_get_listener_t :=
  if (l.cb l.priv a).1 = 0 then some { l with priv := (l.cb l.priv a).2 } else none

/-- The test at the head of `arc_ops_fetch`: the value is already loaded or
being downloaded. -/
def piggybacks (obj : cached_object_t) : Prop :=
  obj.data.isSome = true ∨ (obj.flags.async = true ∧ obj.flags.fetching = true)

/-- What no operation changes: the key, the resource, whether the listener list
exists; and no operation sets ASYNC. -/
def frame (o r : cached_object_t) : Prop :=
  r.key = o.key ∧ r.res = o.res ∧ r.listeners.isSome = o.listeners.isSome ∧
  (r.flags.async = true → o.flags.async = true)

/-- An entry about to be handed to the peer fetch driver: it has no data, and
EVICTED is set only on an asynchronous entry whose listener list is empty. -/
def fetchable (o : cached_object_t) : Prop :=
  o.data = none ∧ (o.flags.evicted = true → o.flags.async = true ∧ list_count o.listeners = 0)

/-- The invariant behind single-flight: at most one peer fetch is in flight, the
entry holds its resource, an asynchronous entry has a listener list, and while a
fetch is in flight ASYNC and FETCHING are set. -/
def single_flight (s : sys) : Prop :=
  s.inflight ≤ 1 ∧ s.obj.res = true ∧
  (s.obj.flags.async = true → s.obj.listeners.isSome = true) ∧
  (s.inflight = 1 → s.obj.flags.async = true ∧ s.obj.flags.fetching = true)

/-- Total length of a list of chunks. -/
def chunks_len (cs : List (List Nat)) : Nat :=
  (cs.map List.length).sum

/-- The listeners left after the chunks `cs` were delivered, one after the
other, to the listeners `ls`. -/
def survivors (key : List Nat) : List (List Nat) → List shardcache_get_listener_t →
    List shardcache_get_listener_t
  | [], ls => ls
  | c :: cs, ls => survivors key cs (ls.filterMap (after_chunk (chunk_args key c)))

/-! ## Concrete scenarios -/

/-- A cache with its counters at zero, no expiration, no persistent storage
and the admission filter switched off. -/
def cache_plain : shardcache_t :=
  { cnt := ⟨0, 0, 0, 0, 0, 0⟩, force_caching := true, expire_time := 0,
    lazy_expiration := false, use_persistent_storage := false, storage_fetch := false,
    storage_global := false }

/-- A peer reached on descriptor 5 that accepts the request and answers `value`. -/
def reply_ok (value : List Nat) : peer_reply :=
  { fd := 5, rc := 0, value := value, rnd := 0 }

/-- A peer that cannot be reached. -/
def reply_fail : peer_reply :=
  { fd := 5, rc := -1, value := [], rnd := 0 }

/-- The key is owned by a peer, which answers `value`; no migration. -/
def env_remote (value : List Nat) : fetch_env :=
  { owner := 0, peer1 := reply_ok value, check := -1, peer2 := reply_ok value, vobj := none,
    storage_rc := 0, storage_data := none, now := 7 }

/-- The key is owned locally and found in neither store. -/
def env_local_missing : fetch_env :=
  { owner := 1, peer1 := reply_fail, check := -1, peer2 := reply_fail, vobj := none,
    storage_rc := 0, storage_data := none, now := 7 }

/-- A listener that accepts whatever it is given and counts its calls. -/
def listener_ok (id : Nat) : shardcache_get_listener_t :=
  { id := id, priv := 0, cb := fun p _ => (0, p + 1) }

/-- A listener that refuses every data chunk. -/
def listener_bad (id : Nat) : shardcache_get_listener_t :=
  { id := id, priv := 0, cb := fun p a => (if a.data.isSome then -1 else 0, p + 1) }

/-- The condition under which the local path fails: the key is not in the
volatile table, a fetching storage is configured and answers -1. -/
def storage_fails (env : fetch_env) (cache : shardcache_t) : Prop :=
  env.vobj = none ∧ (cache.use_persistent_storage = true ∧ cache.storage_fetch = true) ∧
    env.storage_rc = -1

instance (env : fetch_env) (cache : shardcache_t) : Decidable (storage_fails env cache) :=
  inferInstanceAs (Decidable (env.vobj = none ∧
    (cache.use_persistent_storage = true ∧ cache.storage_fetch = true) ∧ env.storage_rc = -1))

instance (obj : cached_object_t) : Decidable (piggybacks obj) :=
  inferInstanceAs (Decidable (obj.data.isSome = true ∨
    (obj.flags.async = true ∧ obj.flags.fetching = true)))

/-- The events produced by the block of `arc_ops_fetch` that asks a peer:
those of `arc_ops_fetch_from_peer` and the migration ownership test. -/
def peer_event : Event → Bool
  | Event.node_select => true
  | Event.get_connection _ => true
  | Event.fetch_from_peer _ _ => true
  | Event.fetch_from_peer_async _ _ => true
  | Event.queue_push_right => true
  | Event.listener_cb _ _ => true
  | Event.release_connection _ => true
  | Event.test_migration_ownership => true
  | _ => false

/-- The calls of `shardcache_schedule_expiration` in a trace, in order: the key
and the delay. -/
def expirations (tr : List Event) : List (List Nat × Int) :=
  tr.filterMap (fun e => match e with
    | Event.schedule_expiration k t => some (k, t)
    | _ => none)

/-- Successive calls of `arc_ops_fetch` on one entry, with the same answers
from the collaborators and nothing in between; the traces are concatenated. -/
def fetch_times (env : fetch_env) :
    Nat → shardcache_t × cached_object_t × List Event →
      shardcache_t × cached_object_t × List Event
  | 0, s => s
  | n + 1, s =>
    fetch_times env n
      ((arc_ops_fetch env s.1 s.2.1).cache, (arc_ops_fetch env s.1 s.2.1).obj,
        s.2.2 ++ (arc_ops_fetch env s.1 s.2.1).trace)

/-- The data of an entry after the chunks `cs` were appended one after the
other (`realloc` and `memcpy` in the callback). -/
def append_chunks : Option (List Nat) → List (List Nat) → Option (List Nat)
  | d, [] => d
  | d, c :: cs => append_chunks (some (d.getD [] ++ c)) cs

/-- The trace of the callback invocations that deliver the chunks `cs` to an
entry with key `key` whose listeners are `ls`: each invocation locks, retains
the resource, calls every listener still registered, unlocks and releases. -/
def chunks_trace (key : List Nat) : List (List Nat) → List shardcache_get_listener_t →
    List Event
  | [], _ => []
  | c :: cs, ls =>
    [Event.mutex_lock, Event.arc_retain_resource] ++
      ls.map (fun l => Event.listener_cb l.id (chunk_args key c)) ++
      [Event.mutex_unlock, Event.arc_release_resource] ++
      chunks_trace key cs (ls.filterMap (after_chunk (chunk_args key c)))


/-! ## The client: choice of the node -/

/-- A node of the cluster as the client sees it (`shardcache_node_t`): its
label and its address, as lists of character codes without the terminator. -/
structure shardcache_node_t where
  label : List Nat
  address : List Nat
deriving DecidableEq

/-- The fields of `shardcache_client_t` read or written by `select_node`. A
node pointer is the index of the node in `shards` (each entry of `shards` is a
copy of its own), `none` the NULL pointer; `num_shards` is the length of
`shards`. -/
structure shardcache_client_t where
  shards : List shardcache_node_t
  use_random_node : Bool
  current_node : Option Nat

/-- The C library function `strncmp` on two strings given by their characters
(the terminator is the code 0 read past the end): the difference at the first
position, among the first `n`, where the strings differ, 0 if there is none. -/
def strncmp : List Nat → List Nat → Nat → Int
  | _, _, 0 => 0
  | a, b, n + 1 =>
    if a.headD 0 ≠ b.headD 0 then (a.headD 0 : Int) - (b.headD 0 : Int)
    else if a.headD 0 = 0 then 0
    else strncmp a.tail b.tail n

/-- The C library function `strcmp`: as `strncmp` without a bound. -/
def strcmp (a b : List Nat) : Int :=
  strncmp a b (a.length + 1)

/-- The loop of `select_node` over the shards, from index `i` on: the first
node whose label makes `strncmp(node_name, label, name_len)` return 0. -/
def select_node_scan (node_name : List Nat) (name_len : Nat) :
    List shardcache_node_t → Nat → Option Nat
  | [], _ => none
  | s :: ss, i =>
    if strncmp node_name s.label name_len = 0 then some i
    else select_node_scan node_name name_len ss (i + 1)

/-- The loop of `shardcache_get_node` over the shards, from index `i` on: the
first node whose label makes `strcmp(node_name, label)` return 0. -/
def shardcache_get_node_scan (node_name : List Nat) :
    List shardcache_node_t → Nat → Option Nat
  | [], _ => none
  | s :: ss, i =>
    if strcmp node_name s.label = 0 then some i
    else shardcache_get_node_scan node_name ss (i + 1)

/-- The function `shardcache_get_node`: the node whose label is `node_name`. -/
def shardcache_get_node (c : shardcache_client_t) (node_name : List Nat) : Option Nat :=
  shardcache_get_node_scan node_name c.shards 0

/-- The address of a node pointer (`shardcache_node_get_address`), `none` for
the NULL pointer (`addr` keeps its initial value NULL). -/
def node_address (c : shardcache_client_t) (node : Option Nat) : Option (List Nat) :=
  node.bind (fun i => (c.shards.get? i).map (fun s => s.address))

/-- The loop `do { node = c->shards[random()%c->num_shards]; } while (node ==
prev)`: the draws of `random()` are taken from a list; the result is the node
chosen and the draws left, `none` when the draws run out before a node other
than `prev` comes up. -/
def pick_other (n : Nat) (prev : Option Nat) : List Nat → Option (Nat × List Nat)
  | [] => none
  | r :: rs => if some (r % n) = prev then pick_other n prev rs else some (r % n, rs)

/-- What `select_node` returns and leaves behind: the address returned, the
descriptor stored through `fd`, the field `current_node`, the connection
attempts made (node and result of `connections_pool_get`) in order, the nodes
written to `current_node` by the retry loop in order, and the draws left. -/
structure select_result where
  addr : Option (List Nat)
  fd : Option Int
  current_node : Option Nat
  attempts : List (Option Nat × Int)
  chosen : List Nat
  rest : List Nat

/-- The loop `do { ... } while (*fd < 0 && retries--)` of `select_node`.
`conn k addr` is what `connections_pool_get` answers to the attempt number `k`
on `addr`; `retries` is the value of the variable at the entry of the body. -/
def select_node_connect (c : shardcache_client_t) (conn : Nat → Option (List Nat) → Int) :
    Nat → Nat → Option Nat → Option Nat → List Nat → Option select_result
  | 0, k, node, cur, rs =>
    if conn k (node_address c node) < 0 ∧ c.use_random_node = true ∧ c.shards.length > 1 then
      match pick_other c.shards.length node rs with
      | none => none
      | some p =>
        some { addr := node_address c (some p.1), fd := some (conn k (node_address c node)),
               current_node := some p.1, attempts := [(node, conn k (node_address c node))],
               chosen := [p.1], rest := p.2 }
    else
      some { addr := node_address c node, fd := some (conn k (node_address c node)),
             current_node := cur, attempts := [(node, conn k (node_address c node))],
             chosen := [], rest := rs }
  | retries + 1, k, node, cur, rs =>
    if conn k (node_address c node) < 0 then
      if c.use_random_node = true ∧ c.shards.length > 1 then
        match pick_other c.shards.length node rs with
        | none => none
        | some p =>
          (select_node_connect c conn retries (k + 1) (some p.1) (some p.1) p.2).map
            (fun r => { r with
              attempts := (node, conn k (node_address c node)) :: r.attempts
              chosen := p.1 :: r.chosen })
      else
        (select_node_connect c conn retries (k + 1) node cur rs).map
          (fun r => { r with attempts := (node, conn k (node_address c node)) :: r.attempts })
    else
      some { addr := node_address c node, fd := some (conn k (node_address c node)),
             current_node := cur, attempts := [(node, conn k (node_address c node))],
             chosen := [], rest := rs }

/-- The function `select_node`. `node_name` is the owner label written by
`chash_lookup` for the key and `name_len` its length; `want_fd` tells whether
the argument `fd` is not NULL; `rs` are the draws of `random()`. The result is
`none` when the draws run out. -/
def select_node (c : shardcache_client_t) (node_name : List Nat) (name_len : Nat)
    (want_fd : Bool) (conn : Nat → Option (List Nat) → Int) (rs : List Nat) :
    Option select_result :=
  let first : Option (Option Nat × Option Nat × List Nat) :=
    if c.shards.length = 1 then some (some 0, c.current_node, rs)
    else if c.use_random_node = true then
      match c.current_node with
      | some i => some (some i, some i, rs)
      | none =>
        match rs with
        | [] => none
        | r :: rs1 => some (some (r % c.shards.length), some (r % c.shards.length), rs1)
    else some (select_node_scan node_name name_len c.shards 0, c.current_node, rs)
  match first with
  | none => none
  | some (node, cur, rs1) =>
    if want_fd then select_node_connect c conn 3 0 node cur rs1
    else
      some { addr := node_address c node, fd := none, current_node := cur, attempts := [],
             chosen := [], rest := rs1 }

/-! ## The client: requests on several keys -/

/-- An item of a request on several keys (`shc_multi_item_t`): `idx` stands for
the identity of the record. -/
structure shc_multi_item_t where
  idx : Nat
  key : List Nat
  data : List Nat
deriving DecidableEq

/-- Modelled from the spec: the tagged lists belong to the linked-list library
(libhl), which is not under `src/`. The step of `shc_split_buckets` for one
item: `list_get_tagged_value` returns the first value whose tag is the name,
`list_push_tagged_value` appends a new tagged sublist at the end of the pools
and `list_push_value` appends the item at the end of the sublist (the spec:
group items by owner node, per-item results in request order). -/
def push_item (name : List Nat) (item : shc_multi_item_t) :
    List (List Nat × List shc_multi_item_t) → List (List Nat × List shc_multi_item_t)
  | [] => [(name, [item])]
  | (t, xs) :: rest =>
    if t = name then (t, xs ++ [item]) :: rest else (t, xs) :: push_item name item rest

/-- The array `name_string` of `shc_split_buckets`, filled by
`snprintf(name_string, name_len+1, "%s", node_name)`: the characters of
`node_name` up to its terminator, at most `name_len` of them. -/
def name_string (node_name : List Nat) (name_len : Nat) : List Nat :=
  (node_name.takeWhile (fun ch => decide (ch ≠ 0))).take name_len

/-- The loop of `shc_split_buckets` over the items, started with the pools
`pools`. `chash_lookup key` is the owner label with its length, as the ring
lookup writes them. -/
def shc_split_buckets_loop (chash_lookup : List Nat → List Nat × Nat) :
    List shc_multi_item_t → List (List Nat × List shc_multi_item_t) →
      List (List Nat × List shc_multi_item_t)
  | [], pools => pools
  | item :: items, pools =>
    shc_split_buckets_loop chash_lookup items
      (push_item (name_string (chash_lookup item.key).1 (chash_lookup item.key).2) item pools)

/-- The function `shc_split_buckets`. -/
def shc_split_buckets (chash_lookup : List Nat → List Nat × Nat)
    (items : List shc_multi_item_t) : List (List Nat × List shc_multi_item_t) :=
  shc_split_buckets_loop chash_lookup items []

/-- The fields of `shc_multi_ctx_t` that `shc_multi_context_create` leaves: the
pointer `peer` (`none` is NULL), the commands written to the buffer, the array
`items` (NULL where not set), `response_index` and `num_requests`. -/
structure shc_multi_ctx_t where
  peer : Option (List Nat)
  commands : List (List Nat)
  items : List (Option shc_multi_item_t)
  response_index : Nat
  num_requests : Nat

/-- The loop of `shc_multi_context_create` from index `n` on; `fuel` is the
number of rounds left (`num_requests - n`). `build_message item` is the framed
command, `none` when the message cannot be built. -/
def shc_multi_context_fill (build_message : shc_multi_item_t → Option (List Nat))
    (items : List shc_multi_item_t) :
    Nat → Nat → shc_multi_ctx_t → Option shc_multi_ctx_t
  | 0, _, ctx => some ctx
  | fuel + 1, n, ctx =>
    let item := items.get? n
    let ctx1 : shc_multi_ctx_t := { ctx with items := ctx.items.set n item }
    match item.bind build_message with
    | none => none
    | some m =>
      shc_multi_context_fill build_message items fuel (n + 1)
        { ctx1 with commands := ctx1.commands ++ [m] }

/-- The function `shc_multi_context_create`. The context comes zeroed from
`calloc` and the argument `peer` is not stored: `ctx->peer` stays NULL. -/
def shc_multi_context_create (build_message : shc_multi_item_t → Option (List Nat))
    (peer : List Nat) (items : List shc_multi_item_t) : Option shc_multi_ctx_t :=
  shc_multi_context_fill build_message items items.length 0
    { peer := none, commands := [], items := List.replicate items.length none,
      response_index := 0, num_requests := items.length }

/-- The item to which `shc_multi_collect_data` attributes the response being
read: `ctx->items[ctx->response_index]`. -/
def shc_multi_collect_data (ctx : shc_multi_ctx_t) : Option shc_multi_item_t :=
  (ctx.items.get? ctx.response_index).join

/-- A client with two shards, the label of the first of which extends the
label of the second, and the sharded routing on. -/
def client_two : shardcache_client_t :=
  { shards := [{ label := [1, 2], address := [10] }, { label := [1], address := [11] }],
    use_random_node := false, current_node := none }

/-- A connection pool that refuses every attempt. -/
def conn_refused : Nat → Option (List Nat) → Int :=
  fun _ _ => -1

/-- The client `client_two` with the pinned-random routing on and no node
chosen yet. -/
def client_random : shardcache_client_t :=
  { client_two with use_random_node := true }


/-! ## The outcome of a fetch in terms of the answers of the collaborators -/

/-- The answer to the peer fetch made last by `arc_ops_fetch`: the second one
when the first returned -1 and the migration ownership test answered 0. -/
def final_reply (env : fetch_env) : peer_reply :=
  if env.peer1.rc = -1 ∧ env.check = 0 then env.peer2 else env.peer1

/-- The condition on which the block asking the peer clears `done` and falls
through to the local path: the first fetch returned -1, and the migration test
answered 1 or the last fetch returned -1 while the storage is global. -/
def falls_through (env : fetch_env) (cache : shardcache_t) : Prop :=
  env.peer1.rc = -1 ∧
    (env.check = 1 ∨ ((final_reply env).rc = -1 ∧ cache.storage_global = true))

instance (env : fetch_env) (cache : shardcache_t) : Decidable (falls_through env cache) :=
  inferInstanceAs (Decidable (env.peer1.rc = -1 ∧
    (env.check = 1 ∨ ((final_reply env).rc = -1 ∧ cache.storage_global = true))))

/-- The data the local path leaves in an entry that had none: the copy of the
volatile store, else what the storage wrote when one is consulted. -/
def local_data (env : fetch_env) (cache : shardcache_t) : Option (List Nat) :=
  match env.vobj with
  | some v => v
  | none =>
    if cache.use_persistent_storage = true ∧ cache.storage_fetch = true then env.storage_data
    else none

/-- The call of `arc_ops_fetch` goes through the local path: it does not
piggyback, and the key is owned locally or the peer block falls through. -/
def takes_local (env : fetch_env) (cache : shardcache_t) (obj : cached_object_t) : Prop :=
  ¬ piggybacks obj ∧ (env.owner ≠ 0 ∨ falls_through env cache)

/-- The call of `arc_ops_fetch` returns from the block that asks the peer. -/
def returns_from_peer (env : fetch_env) (cache : shardcache_t) (obj : cached_object_t) :
    Prop :=
  ¬ piggybacks obj ∧ env.owner = 0 ∧ ¬ falls_through env cache

instance (env : fetch_env) (cache : shardcache_t) (obj : cached_object_t) :
    Decidable (takes_local env cache obj) :=
  inferInstanceAs (Decidable (¬ piggybacks obj ∧ (env.owner ≠ 0 ∨ falls_through env cache)))

instance (env : fetch_env) (cache : shardcache_t) (obj : cached_object_t) :
    Decidable (returns_from_peer env cache obj) :=
  inferInstanceAs (Decidable (¬ piggybacks obj ∧ env.owner = 0 ∧ ¬ falls_through env cache))


/-! # Theorems -/

/-! ## Flags: the macros on single bits -/

theorem check_complete (obj : cached_object_t) :
    COBJ_CHECK_FLAGS obj COBJ_FLAG_COMPLETE = obj.flags.complete := by
  rcases obj with ⟨k, d, ⟨a, b, c, e, f, g⟩, l, t, r⟩
  cases a <;> simp [COBJ_CHECK_FLAGS, COBJ_FLAG_COMPLETE, cobj_flags.land, cobj_flags.zero]

theorem check_drop (obj : cached_object_t) :
    COBJ_CHECK_FLAGS obj COBJ_FLAG_DROP = obj.flags.drop := by
  rcases obj with ⟨k, d, ⟨a, b, c, e, f, g⟩, l, t, r⟩
  cases b <;> simp [COBJ_CHECK_FLAGS, COBJ_FLAG_DROP, cobj_flags.land, cobj_flags.zero]

theorem check_evict (obj : cached_object_t) :
    COBJ_CHECK_FLAGS obj COBJ_FLAG_EVICT = obj.flags.evict := by
  rcases obj with ⟨k, d, ⟨a, b, c, e, f, g⟩, l, t, r⟩
  cases c <;> simp [COBJ_CHECK_FLAGS, COBJ_FLAG_EVICT, cobj_flags.land, cobj_flags.zero]

theorem check_async (obj : cached_object_t) :
    COBJ_CHECK_FLAGS obj COBJ_FLAG_ASYNC = obj.flags.async := by
  rcases obj with ⟨k, d, ⟨a, b, c, e, f, g⟩, l, t, r⟩
  cases e <;> simp [COBJ_CHECK_FLAGS, COBJ_FLAG_ASYNC, cobj_flags.land, cobj_flags.zero]

theorem check_evicted (obj : cached_object_t) :
    COBJ_CHECK_FLAGS obj COBJ_FLAG_EVICTED = obj.flags.evicted := by
  rcases obj with ⟨k, d, ⟨a, b, c, e, f, g⟩, l, t, r⟩
  cases f <;> simp [COBJ_CHECK_FLAGS, COBJ_FLAG_EVICTED, cobj_flags.land, cobj_flags.zero]

theorem check_async_fetching (obj : cached_object_t) :
    COBJ_CHECK_FLAGS obj (COBJ_FLAG_ASYNC.lor COBJ_FLAG_FETCHING) =
      (obj.flags.async && obj.flags.fetching) := by
  rcases obj with ⟨k, d, ⟨a, b, c, e, f, g⟩, l, t, r⟩
  cases e <;> cases g <;>
    simp [COBJ_CHECK_FLAGS, COBJ_FLAG_ASYNC, COBJ_FLAG_FETCHING, cobj_flags.land,
      cobj_flags.lor, cobj_flags.zero]

theorem check_drop_complete (obj : cached_object_t) :
    COBJ_CHECK_FLAGS obj (COBJ_FLAG_DROP.lor COBJ_FLAG_COMPLETE) =
      (obj.flags.drop && obj.flags.complete) := by
  rcases obj with ⟨k, d, ⟨a, b, c, e, f, g⟩, l, t, r⟩
  cases a <;> cases b <;>
    simp [COBJ_CHECK_FLAGS, COBJ_FLAG_DROP, COBJ_FLAG_COMPLETE, cobj_flags.land,
      cobj_flags.lor, cobj_flags.zero]

theorem set_complete (obj : cached_object_t) :
    COBJ_SET_FLAG obj COBJ_FLAG_COMPLETE = { obj with flags := { obj.flags with complete := true } } := by
  simp [COBJ_SET_FLAG, COBJ_FLAG_COMPLETE, cobj_flags.lor, cobj_flags.zero]

theorem set_drop (obj : cached_object_t) :
    COBJ_SET_FLAG obj COBJ_FLAG_DROP = { obj with flags := { obj.flags with drop := true } } := by
  simp [COBJ_SET_FLAG, COBJ_FLAG_DROP, cobj_flags.lor, cobj_flags.zero]

theorem set_evict (obj : cached_object_t) :
    COBJ_SET_FLAG obj COBJ_FLAG_EVICT = { obj with flags := { obj.flags with evict := true } } := by
  simp [COBJ_SET_FLAG, COBJ_FLAG_EVICT, cobj_flags.lor, cobj_flags.zero]

theorem set_async (obj : cached_object_t) :
    COBJ_SET_FLAG obj COBJ_FLAG_ASYNC = { obj with flags := { obj.flags with async := true } } := by
  simp [COBJ_SET_FLAG, COBJ_FLAG_ASYNC, cobj_flags.lor, cobj_flags.zero]

theorem set_evicted (obj : cached_object_t) :
    COBJ_SET_FLAG obj COBJ_FLAG_EVICTED = { obj with flags := { obj.flags with evicted := true } } := by
  simp [COBJ_SET_FLAG, COBJ_FLAG_EVICTED, cobj_flags.lor, cobj_flags.zero]

theorem set_fetching (obj : cached_object_t) :
    COBJ_SET_FLAG obj COBJ_FLAG_FETCHING = { obj with flags := { obj.flags with fetching := true } } := by
  simp [COBJ_SET_FLAG, COBJ_FLAG_FETCHING, cobj_flags.lor, cobj_flags.zero]

theorem unset_complete (obj : cached_object_t) :
    COBJ_UNSET_FLAG obj COBJ_FLAG_COMPLETE = { obj with flags := { obj.flags with complete := false } } := by
  simp [COBJ_UNSET_FLAG, COBJ_FLAG_COMPLETE, cobj_flags.land, cobj_flags.lnot, cobj_flags.zero]

theorem unset_drop (obj : cached_object_t) :
    COBJ_UNSET_FLAG obj COBJ_FLAG_DROP = { obj with flags := { obj.flags with drop := false } } := by
  simp [COBJ_UNSET_FLAG, COBJ_FLAG_DROP, cobj_flags.land, cobj_flags.lnot, cobj_flags.zero]

theorem unset_evicted (obj : cached_object_t) :
    COBJ_UNSET_FLAG obj COBJ_FLAG_EVICTED = { obj with flags := { obj.flags with evicted := false } } := by
  simp [COBJ_UNSET_FLAG, COBJ_FLAG_EVICTED, cobj_flags.land, cobj_flags.lnot, cobj_flags.zero]

theorem unset_fetching (obj : cached_object_t) :
    COBJ_UNSET_FLAG obj COBJ_FLAG_FETCHING = { obj with flags := { obj.flags with fetching := false } } := by
  simp [COBJ_UNSET_FLAG, COBJ_FLAG_FETCHING, cobj_flags.land, cobj_flags.lnot, cobj_flags.zero]

/-! ## The listener iteration in closed form -/

theorem foreach_complete (obj : cached_object_t) (ls : List shardcache_get_listener_t) :
    list_foreach_value (arc_ops_fetch_from_peer_notify_listener_complete obj) ls =
      ([], ls.map (fun l => Event.listener_cb l.id (complete_args obj.key obj.dlen obj.ts))) := by
  induction ls with
  | nil => rfl
  | cons l ls ih =>
    simp [list_foreach_value, ih, arc_ops_fetch_from_peer_notify_listener_complete, complete_args]

theorem foreach_error (obj : cached_object_t) (ls : List shardcache_get_listener_t) :
    list_foreach_value (arc_ops_fetch_from_peer_notify_listener_error obj) ls =
      ([], ls.map (fun l => Event.listener_cb l.id (error_args obj.key))) := by
  induction ls with
  | nil => rfl
  | cons l ls ih =>
    simp [list_foreach_value, ih, arc_ops_fetch_from_peer_notify_listener_error, error_args]

theorem foreach_chunk (obj : cached_object_t) (c : List Nat) (n : Nat)
    (ls : List shardcache_get_listener_t) :
    list_foreach_value (arc_ops_fetch_from_peer_notify_listener obj c n) ls =
      (ls.filterMap (after_chunk ⟨obj.key, some c, n, 0, none⟩),
       ls.map (fun l => Event.listener_cb l.id ⟨obj.key, some c, n, 0, none⟩)) := by
  induction ls with
  | nil => rfl
  | cons l ls ih =>
    by_cases h : (l.cb l.priv ⟨obj.key, some c, n, 0, none⟩).1 = 0
    · simp [list_foreach_value, ih, arc_ops_fetch_from_peer_notify_listener, after_chunk, h]
    · simp [list_foreach_value, ih, arc_ops_fetch_from_peer_notify_listener, after_chunk, h]

theorem foreach_listeners_complete (obj : cached_object_t)
    (ls : Option (List shardcache_get_listener_t)) :
    foreach_listeners (arc_ops_fetch_from_peer_notify_listener_complete obj) ls =
      (ls.map (fun _ => []),
       (ls.getD []).map (fun l => Event.listener_cb l.id (complete_args obj.key obj.dlen obj.ts))) := by
  cases ls <;> simp [foreach_listeners, foreach_complete]

theorem foreach_listeners_error (obj : cached_object_t)
    (ls : Option (List shardcache_get_listener_t)) :
    foreach_listeners (arc_ops_fetch_from_peer_notify_listener_error obj) ls =
      (ls.map (fun _ => []),
       (ls.getD []).map (fun l => Event.listener_cb l.id (error_args obj.key))) := by
  cases ls <;> simp [foreach_listeners, foreach_error]

theorem foreach_listeners_chunk (obj : cached_object_t) (c : List Nat) (n : Nat)
    (ls : Option (List shardcache_get_listener_t)) :
    foreach_listeners (arc_ops_fetch_from_peer_notify_listener obj c n) ls =
      (ls.map (fun xs => xs.filterMap (after_chunk ⟨obj.key, some c, n, 0, none⟩)),
       (ls.getD []).map (fun l => Event.listener_cb l.id ⟨obj.key, some c, n, 0, none⟩)) := by
  cases ls <;> simp [foreach_listeners, foreach_chunk]

/-! ## Reading traces -/

theorem listener_calls_append (a b : List Event) :
    listener_calls (a ++ b) = listener_calls a ++ listener_calls b := by
  simp [listener_calls]

theorem listener_calls_map (ls : List shardcache_get_listener_t) (a : cb_args) :
    listener_calls (ls.map (fun l => Event.listener_cb l.id a)) = ls.map (fun l => (l.id, a)) := by
  induction ls with
  | nil => rfl
  | cons l ls ih => simp_all [listener_calls]

theorem size_updates_append (a b : List Event) :
    size_updates (a ++ b) = size_updates a ++ size_updates b := by
  simp [size_updates]

theorem size_updates_map (ls : List shardcache_get_listener_t) (a : cb_args) :
    size_updates (ls.map (fun l => Event.listener_cb l.id a)) = [] := by
  induction ls with
  | nil => rfl
  | cons l ls ih => simp_all [size_updates]

theorem async_issued_append (a b : List Event) :
    async_issued (a ++ b) = async_issued a + async_issued b := by
  simp [async_issued]

theorem async_issued_map (ls : List shardcache_get_listener_t) (a : cb_args) :
    async_issued (ls.map (fun l => Event.listener_cb l.id a)) = 0 := by
  induction ls with
  | nil => rfl
  | cons l ls ih => simp_all [async_issued]

theorem peer_fetches_append (a b : List Event) :
    peer_fetches (a ++ b) = peer_fetches a + peer_fetches b := by
  simp [peer_fetches]

theorem peer_fetches_map (ls : List shardcache_get_listener_t) (a : cb_args) :
    peer_fetches (ls.map (fun l => Event.listener_cb l.id a)) = 0 := by
  induction ls with
  | nil => rfl
  | cons l ls ih => simp_all [peer_fetches]

theorem listener_calls_cons (e : Event) (tr : List Event) :
    listener_calls (e :: tr) =
      (match e with
        | Event.listener_cb i a => [(i, a)]
        | _ => []) ++ listener_calls tr := by
  cases e <;> rfl

theorem size_updates_cons (e : Event) (tr : List Event) :
    size_updates (e :: tr) =
      (match e with
        | Event.arc_update_size k n => [(k, n)]
        | _ => []) ++ size_updates tr := by
  cases e <;> rfl

theorem peer_fetches_cons (e : Event) (tr : List Event) :
    peer_fetches (e :: tr) =
      peer_fetches tr +
        (match e with
          | Event.node_select => 1
          | _ => 0) := by
  cases e <;> simp [peer_fetches, List.countP_cons]

theorem async_issued_cons (e : Event) (tr : List Event) :
    async_issued (e :: tr) =
      async_issued tr +
        (match e with
          | Event.fetch_from_peer_async _ rc => if rc = 0 then 1 else 0
          | _ => 0) := by
  cases e <;> simp [async_issued, List.countP_cons]

theorem listener_calls_nil : listener_calls [] = [] := rfl

theorem size_updates_nil : size_updates [] = [] := rfl

theorem peer_fetches_nil : peer_fetches [] = 0 := rfl

theorem async_issued_nil : async_issued [] = 0 := rfl


/-! ## The peer fetch driver in closed form -/

theorem fetch_from_peer_sync (cache : shardcache_t) (obj : cached_object_t) (p : List Nat)
    (reply : peer_reply) (h : obj.flags.async = false) :
    arc_ops_fetch_from_peer cache obj (some p) reply =
      (reply.rc,
       (if reply.rc = 0 ∧ reply.value.length ≠ 0 then
          { obj with
            data := some reply.value
            flags := { obj.flags with
              fetching := false, complete := true
              drop := decide (cache.force_caching = false ∧ reply.rnd % 10 ≠ 0) } }
        else { obj with flags := { obj.flags with fetching := false } }),
       [Event.node_select, Event.get_connection reply.fd,
        Event.fetch_from_peer reply.fd reply.rc, Event.release_connection reply.fd]) := by
  unfold arc_ops_fetch_from_peer
  simp only [Option.isNone_some, check_async, h, admission, set_fetching, unset_fetching,
    set_complete, set_drop, unset_drop]
  split_ifs <;> simp_all

theorem fetch_from_peer_async_ok (cache : shardcache_t) (obj : cached_object_t) (p : List Nat)
    (reply : peer_reply) (h : obj.flags.async = true) (hrc : reply.rc = 0) :
    arc_ops_fetch_from_peer cache obj (some p) reply =
      (0,
       { obj with flags := { obj.flags with
           fetching := true
           drop := decide (cache.force_caching = false ∧ reply.rnd % 10 ≠ 0) } },
       [Event.node_select, Event.get_connection reply.fd,
        Event.fetch_from_peer_async reply.fd 0, Event.queue_push_right]) := by
  unfold arc_ops_fetch_from_peer
  simp only [Option.isNone_some, check_async, h, hrc, admission, set_fetching, unset_fetching,
    set_drop, unset_drop]
  split_ifs <;> simp_all

theorem fetch_from_peer_async_fail (cache : shardcache_t) (obj : cached_object_t) (p : List Nat)
    (reply : peer_reply) (h : obj.flags.async = true) (hrc : reply.rc ≠ 0) :
    arc_ops_fetch_from_peer cache obj (some p) reply =
      (reply.rc,
       { obj with
         listeners := list_clear obj.listeners
         flags := { obj.flags with fetching := false, evicted := true } },
       [Event.node_select, Event.get_connection reply.fd,
        Event.fetch_from_peer_async reply.fd reply.rc] ++
       (obj.listeners.getD []).map (fun l => Event.listener_cb l.id (error_args obj.key)) ++
       [Event.release_connection reply.fd]) := by
  unfold arc_ops_fetch_from_peer
  simp only [Option.isNone_some, check_async, h, hrc, set_fetching, unset_fetching,
    set_evicted, foreach_listeners_error]
  cases hl : obj.listeners <;> simp [list_clear]

/-! ## Frame properties -/

theorem frame_refl (o : cached_object_t) : frame o o := ⟨rfl, rfl, rfl, id⟩

theorem frame_trans {a b c : cached_object_t} (h1 : frame a b) (h2 : frame b c) : frame a c :=
  ⟨h2.1.trans h1.1, h2.2.1.trans h1.2.1, h2.2.2.1.trans h1.2.2.1, fun h => h1.2.2.2 (h2.2.2.2 h)⟩

theorem list_clear_isSome (ls : Option (List shardcache_get_listener_t)) :
    (list_clear ls).isSome = ls.isSome := by
  cases ls <;> rfl

theorem list_count_clear (ls : Option (List shardcache_get_listener_t)) :
    list_count (list_clear ls) = 0 := by
  cases ls <;> rfl

theorem list_count_map_nil (ls : Option (List shardcache_get_listener_t)) :
    list_count (ls.map (fun _ => [])) = 0 := by
  cases ls <;> rfl

theorem evict_object_frame (cache : shardcache_t) (obj : cached_object_t) :
    frame obj (arc_ops_evict_object cache obj).2 := by
  unfold arc_ops_evict_object frame
  split_ifs <;> simp [set_evict, list_clear_isSome, COBJ_FLAG_EVICTED, cobj_flags.zero]

theorem fetch_from_peer_frame (cache : shardcache_t) (obj : cached_object_t) (p : List Nat)
    (reply : peer_reply) :
    frame obj (arc_ops_fetch_from_peer cache obj (some p) reply).2.1 := by
  cases h : obj.flags.async
  · rw [fetch_from_peer_sync cache obj p reply h]
    unfold frame
    split_ifs <;> simp [h]
  · by_cases hrc : reply.rc = 0
    · rw [fetch_from_peer_async_ok cache obj p reply h hrc]
      simp [frame]
    · rw [fetch_from_peer_async_fail cache obj p reply h hrc]
      simp [frame, list_clear_isSome]

theorem finish_frame (env : fetch_env) (cache : shardcache_t) (obj : cached_object_t)
    (tr : List Event) : frame obj (arc_ops_fetch_finish env cache obj tr).obj := by
  unfold arc_ops_fetch_finish
  simp only [set_complete, unset_fetching, check_async, check_evict, check_evicted,
    foreach_listeners_complete, foreach_listeners_chunk]
  split
  · dsimp only
    split_ifs <;> simp [frame]
  · dsimp only
    split_ifs <;>
      first
      | exact frame_trans (by simp [frame]) (evict_object_frame _ _)
      | simp_all [frame]

theorem local_frame (env : fetch_env) (cache : shardcache_t) (obj : cached_object_t)
    (pre : List Event) : frame obj (arc_ops_fetch_local env cache obj pre).obj := by
  unfold arc_ops_fetch_local
  split
  · exact frame_trans (by simp [frame]) (finish_frame _ _ _ _)
  · split_ifs
    · simp [frame]
    · exact frame_trans (by simp [frame]) (finish_frame _ _ _ _)
    · exact finish_frame _ _ _ _

theorem unset_evicted_frame (o : cached_object_t) :
    frame o (COBJ_UNSET_FLAG o COBJ_FLAG_EVICTED) := by
  simp [frame, unset_evicted]

theorem ts_frame (o : cached_object_t) (n : Nat) : frame o { o with ts := n } := by
  simp [frame]

theorem remote_frame (env : fetch_env) (cache : shardcache_t) (obj : cached_object_t) :
    frame obj (arc_ops_fetch_remote env cache obj).obj := by
  unfold arc_ops_fetch_remote
  have h1 := fetch_from_peer_frame cache obj [] env.peer1
  have h2 := fetch_from_peer_frame cache
    (arc_ops_fetch_from_peer cache obj (some []) env.peer1).2.1 [] env.peer2
  dsimp only
  split_ifs <;>
    first
    | exact h1
    | exact frame_trans h1 h2
    | exact frame_trans h1 (unset_evicted_frame _)
    | exact frame_trans (frame_trans h1 h2) (unset_evicted_frame _)

theorem fetch_frame (env : fetch_env) (cache : shardcache_t) (obj : cached_object_t) :
    frame obj (arc_ops_fetch env cache obj).obj := by
  unfold arc_ops_fetch
  have h0 := unset_evicted_frame obj
  have h1 := remote_frame env (inc_cache_misses cache) (COBJ_UNSET_FLAG obj COBJ_FLAG_EVICTED)
  dsimp only
  split_ifs <;>
    first
    | exact frame_refl _
    | exact frame_trans h0 (local_frame _ _ _ _)
    | exact frame_trans h0 (frame_trans h1 (local_frame _ _ _ _))
    | exact frame_trans h0 h1

theorem evict_frame (cache : shardcache_t) (obj : cached_object_t) :
    frame obj (arc_ops_evict cache obj).2.1 := evict_object_frame cache obj

theorem register_frame (obj : cached_object_t) (l : shardcache_get_listener_t) :
    frame obj (register_listener obj l) := by
  unfold register_listener
  split_ifs
  · exact frame_refl _
  · split <;> simp_all [frame]

/-! ## Equations of `arc_ops_evict_object` and `arc_ops_fetch` -/

theorem evict_object_deferred (cache : shardcache_t) (obj : cached_object_t)
    (h : list_count obj.listeners ≠ 0) :
    arc_ops_evict_object cache obj =
      (cache, { obj with flags := { obj.flags with evict := true } }) := by
  simp only [arc_ops_evict_object, if_pos h, set_evict]

theorem evict_object_now (cache : shardcache_t) (obj : cached_object_t)
    (h : list_count obj.listeners = 0) :
    arc_ops_evict_object cache obj =
      ((if obj.data.isSome then
          { cache with cnt := { cache.cnt with evicts := cache.cnt.evicts + 1 } }
        else cache),
       { obj with data := none, flags := COBJ_FLAG_EVICTED,
                  listeners := list_clear obj.listeners }) := by
  have h' : ¬ list_count obj.listeners ≠ 0 := by simp [h]
  simp only [arc_ops_evict_object, if_neg h']

theorem piggybacks_iff (obj : cached_object_t) :
    (obj.data.isSome = true ∨
      COBJ_CHECK_FLAGS obj (COBJ_FLAG_ASYNC.lor COBJ_FLAG_FETCHING) = true) ↔ piggybacks obj := by
  rw [check_async_fetching]
  simp [piggybacks]

theorem not_piggybacks_data {obj : cached_object_t} (h : ¬ piggybacks obj) : obj.data = none := by
  cases hx : obj.data
  · rfl
  · exact absurd (Or.inl (by simp [hx])) h

theorem fetch_piggy (env : fetch_env) (cache : shardcache_t) (obj : cached_object_t)
    (hg : piggybacks obj) :
    arc_ops_fetch env cache obj =
      { rc := 0, size := some obj.dlen, obj := obj, cache := inc_cache_misses cache
        trace := [Event.mutex_lock, Event.mutex_unlock] } := by
  have hg' := (piggybacks_iff obj).2 hg
  simp only [arc_ops_fetch, if_pos hg']

theorem fetch_owner (env : fetch_env) (cache : shardcache_t) (obj : cached_object_t)
    (hg : ¬ piggybacks obj) (ho : env.owner ≠ 0) :
    arc_ops_fetch env cache obj =
      arc_ops_fetch_local env (inc_cache_misses cache) (COBJ_UNSET_FLAG obj COBJ_FLAG_EVICTED)
        [Event.mutex_lock, Event.test_ownership] := by
  have hg' := mt (piggybacks_iff obj).1 hg
  simp only [arc_ops_fetch, if_neg hg', if_neg ho]

theorem fetch_remote_local (env : fetch_env) (cache : shardcache_t) (obj : cached_object_t)
    (hg : ¬ piggybacks obj) (ho : env.owner = 0)
    (hd : (arc_ops_fetch_remote env (inc_cache_misses cache)
      (COBJ_UNSET_FLAG obj COBJ_FLAG_EVICTED)).done = false) :
    arc_ops_fetch env cache obj =
      arc_ops_fetch_local env (inc_cache_misses cache)
        (arc_ops_fetch_remote env (inc_cache_misses cache)
          (COBJ_UNSET_FLAG obj COBJ_FLAG_EVICTED)).obj
        ([Event.mutex_lock, Event.test_ownership] ++
          (arc_ops_fetch_remote env (inc_cache_misses cache)
            (COBJ_UNSET_FLAG obj COBJ_FLAG_EVICTED)).trace) := by
  have hg' := mt (piggybacks_iff obj).1 hg
  simp only [arc_ops_fetch, if_neg hg', if_pos ho, hd, Bool.false_eq_true, if_false]

theorem fetch_remote_ok (env : fetch_env) (cache : shardcache_t) (obj : cached_object_t)
    (hg : ¬ piggybacks obj) (ho : env.owner = 0)
    (hd : (arc_ops_fetch_remote env (inc_cache_misses cache)
      (COBJ_UNSET_FLAG obj COBJ_FLAG_EVICTED)).done = true)
    (hr : (arc_ops_fetch_remote env (inc_cache_misses cache)
      (COBJ_UNSET_FLAG obj COBJ_FLAG_EVICTED)).ret = 0) :
    arc_ops_fetch env cache obj =
      { rc := if (arc_ops_fetch_remote env (inc_cache_misses cache)
                  (COBJ_UNSET_FLAG obj COBJ_FLAG_EVICTED)).obj.flags.drop = true ∧
                (arc_ops_fetch_remote env (inc_cache_misses cache)
                  (COBJ_UNSET_FLAG obj COBJ_FLAG_EVICTED)).obj.flags.complete = true
              then 1 else 0
        size := some (arc_ops_fetch_remote env (inc_cache_misses cache)
          (COBJ_UNSET_FLAG obj COBJ_FLAG_EVICTED)).obj.dlen
        obj := { (arc_ops_fetch_remote env (inc_cache_misses cache)
          (COBJ_UNSET_FLAG obj COBJ_FLAG_EVICTED)).obj with ts := env.now }
        cache := inc_fetch_remote (inc_cache_misses cache)
        trace := [Event.mutex_lock, Event.test_ownership] ++
          (arc_ops_fetch_remote env (inc_cache_misses cache)
            (COBJ_UNSET_FLAG obj COBJ_FLAG_EVICTED)).trace ++ [Event.mutex_unlock] } := by
  have hg' := mt (piggybacks_iff obj).1 hg
  simp only [arc_ops_fetch, if_neg hg', if_pos ho, hd, hr, if_true, check_drop_complete,
    cached_object_t.dlen, Bool.and_eq_true]

theorem fetch_remote_err (env : fetch_env) (cache : shardcache_t) (obj : cached_object_t)
    (hg : ¬ piggybacks obj) (ho : env.owner = 0)
    (hd : (arc_ops_fetch_remote env (inc_cache_misses cache)
      (COBJ_UNSET_FLAG obj COBJ_FLAG_EVICTED)).done = true)
    (hr : (arc_ops_fetch_remote env (inc_cache_misses cache)
      (COBJ_UNSET_FLAG obj COBJ_FLAG_EVICTED)).ret ≠ 0) :
    arc_ops_fetch env cache obj =
      { rc := -1, size := none
        obj := (arc_ops_fetch_remote env (inc_cache_misses cache)
          (COBJ_UNSET_FLAG obj COBJ_FLAG_EVICTED)).obj
        cache := inc_errors (inc_fetch_remote (inc_cache_misses cache))
        trace := [Event.mutex_lock, Event.test_ownership] ++
          (arc_ops_fetch_remote env (inc_cache_misses cache)
            (COBJ_UNSET_FLAG obj COBJ_FLAG_EVICTED)).trace ++ [Event.mutex_unlock] } := by
  have hg' := mt (piggybacks_iff obj).1 hg
  simp only [arc_ops_fetch, if_neg hg', if_pos ho, hd, if_neg hr, if_true]

/-! ## Equations of the asynchronous callback -/

theorem async_cb_evict_empty (cache : shardcache_t) (obj : cached_object_t)
    (h : list_count obj.listeners = 0) :
    async_cb_evict cache obj =
      (if obj.flags.evict = true then
        ((if obj.data.isSome then
            { cache with cnt := { cache.cnt with evicts := cache.cnt.evicts + 1 } }
          else cache),
         { obj with data := none, flags := COBJ_FLAG_EVICTED,
                    listeners := list_clear obj.listeners })
       else (cache, obj)) := by
  unfold async_cb_evict
  rw [check_evict]
  by_cases he : obj.flags.evict = true
  · rw [if_pos he, if_pos he]
    exact evict_object_now cache obj h
  · rw [if_neg he, if_neg he]

theorem cb_no_res (cache : shardcache_t) (obj : cached_object_t) (fd : Int)
    (key data : List Nat) (error : Int) (hres : obj.res = false) :
    arc_ops_fetch_from_peer_async_cb cache obj fd key data error =
      { rc := -1
        obj := { obj with listeners := obj.listeners.map (fun _ => [])
                          flags := { obj.flags with fetching := false } }
        cache := cache
        trace := [Event.mutex_lock] ++
          (obj.listeners.getD []).map (fun l => Event.listener_cb l.id (error_args obj.key)) ++
          [Event.mutex_unlock] } := by
  simp [arc_ops_fetch_from_peer_async_cb, hres, foreach_listeners_error, unset_fetching]

theorem cb_no_listeners (cache : shardcache_t) (obj : cached_object_t) (fd : Int)
    (key data : List Nat) (error : Int) (hres : obj.res = true) (hl : obj.listeners = none) :
    arc_ops_fetch_from_peer_async_cb cache obj fd key data error =
      { rc := -1
        obj := { obj with flags := { obj.flags with fetching := false } }
        cache := cache
        trace := [Event.mutex_lock, Event.arc_retain_resource, Event.mutex_unlock,
                  Event.arc_release_resource] } := by
  simp [arc_ops_fetch_from_peer_async_cb, hres, hl, foreach_listeners_error, unset_fetching]

theorem cb_error (cache : shardcache_t) (obj : cached_object_t) (fd : Int)
    (key data : List Nat) (error : Int) (ls : List shardcache_get_listener_t)
    (hres : obj.res = true) (hl : obj.listeners = some ls) (he : error ≠ 0) :
    arc_ops_fetch_from_peer_async_cb cache obj fd key data error =
      { rc := -1
        obj := (async_cb_evict cache
          { obj with listeners := some [], flags := { obj.flags with fetching := false } }).2
        cache := (async_cb_evict cache
          { obj with listeners := some [], flags := { obj.flags with fetching := false } }).1
        trace := [Event.mutex_lock, Event.arc_retain_resource] ++
          ls.map (fun l => Event.listener_cb l.id (error_args obj.key)) ++
          [Event.close fd, Event.mutex_unlock, Event.arc_release_resource] } := by
  simp [arc_ops_fetch_from_peer_async_cb, hres, hl, foreach_listeners_error, unset_fetching, he]

theorem cb_chunk (cache : shardcache_t) (obj : cached_object_t) (fd : Int)
    (key data : List Nat) (ls : List shardcache_get_listener_t)
    (hres : obj.res = true) (hl : obj.listeners = some ls) (hd : data ≠ []) :
    arc_ops_fetch_from_peer_async_cb cache obj fd key data 0 =
      { rc := 0
        obj := { obj with
          data := some (obj.data.getD [] ++ data)
          listeners := some (ls.filterMap (after_chunk (chunk_args obj.key data))) }
        cache := cache
        trace := [Event.mutex_lock, Event.arc_retain_resource] ++
          ls.map (fun l => Event.listener_cb l.id (chunk_args obj.key data)) ++
          [Event.mutex_unlock, Event.arc_release_resource] } := by
  simp [arc_ops_fetch_from_peer_async_cb, hres, hl, foreach_listeners_chunk, hd, chunk_args]

theorem cb_eos (cache : shardcache_t) (obj : cached_object_t) (fd : Int)
    (key : List Nat) (ls : List shardcache_get_listener_t)
    (hres : obj.res = true) (hl : obj.listeners = some ls) :
    arc_ops_fetch_from_peer_async_cb cache obj fd key [] 0 =
      { rc := 0
        obj := (async_cb_evict cache
          { obj with listeners := some []
                     flags := { obj.flags with complete := true, fetching := false } }).2
        cache := (async_cb_evict cache
          { obj with listeners := some []
                     flags := { obj.flags with complete := true, fetching := false } }).1
        trace := [Event.mutex_lock, Event.arc_retain_resource] ++
          ls.map (fun l => Event.listener_cb l.id (complete_args obj.key obj.dlen obj.ts)) ++
          ((if fd > 0 then [Event.iomux_remove fd] else []) ++ [Event.release_connection fd]) ++
          async_cb_complete cache
            (async_cb_evict cache
              { obj with listeners := some []
                         flags := { obj.flags with complete := true, fetching := false } }).2
            key 0 (size_to_int obj.dlen) (!obj.flags.evict && obj.flags.drop) ++
          [Event.mutex_unlock, Event.arc_release_resource] } := by
  have h1 : ¬ ((!obj.res) = true) := by simp [hres]
  have h2 : ¬ (obj.listeners.isNone = true) := by simp [hl]
  have h3 : ¬ ((0 : Int) ≠ 0) := by simp
  have h4 : ¬ (([] : List Nat).length ≠ 0) := by simp
  have hn : foreach_listeners (arc_ops_fetch_from_peer_notify_listener_complete obj)
      obj.listeners =
        (some [], ls.map (fun l => Event.listener_cb l.id
          (complete_args obj.key obj.dlen obj.ts))) := by
    rw [hl, foreach_listeners_complete]
    rfl
  have hd : (if obj.flags.evict = true then false else obj.flags.drop) =
      (!obj.flags.evict && obj.flags.drop) := by
    cases obj.flags.evict <;> simp
  unfold arc_ops_fetch_from_peer_async_cb
  simp only [if_neg h1, if_neg h2, if_neg h3, if_neg h4, hn, set_complete, unset_fetching,
    check_evict, check_drop, hd, cached_object_t.dlen]

/-- The entry left by the end-of-stream and error branches once the listeners
were notified. -/
theorem async_cb_evict_obj (cache : shardcache_t) (obj : cached_object_t)
    (h : obj.listeners = some []) :
    (async_cb_evict cache obj).2 =
      (if obj.flags.evict = true then
         { obj with data := none, flags := COBJ_FLAG_EVICTED, listeners := some [] }
       else obj) := by
  rw [async_cb_evict_empty cache obj (by rw [h]; rfl)]
  by_cases he : obj.flags.evict = true
  · rw [if_pos he, if_pos he]
    simp [h, list_clear]
  · rw [if_neg he, if_neg he]


theorem async_cb_evict_frame (cache : shardcache_t) (obj : cached_object_t) :
    frame obj (async_cb_evict cache obj).2 := by
  unfold async_cb_evict
  split_ifs
  · exact evict_object_frame _ _
  · exact frame_refl _

theorem cb_frame (cache : shardcache_t) (obj : cached_object_t) (fd : Int) (key data : List Nat)
    (error : Int) :
    frame obj (arc_ops_fetch_from_peer_async_cb cache obj fd key data error).obj := by
  cases hres : obj.res
  · rw [cb_no_res cache obj fd key data error hres]
    simp [frame, hres]
  · cases hl : obj.listeners with
    | none =>
      rw [cb_no_listeners cache obj fd key data error hres hl]
      simp [frame, hres, hl]
    | some ls =>
      by_cases herr : error = 0
      · subst herr
        by_cases hd : data = []
        · subst hd
          rw [cb_eos cache obj fd key ls hres hl]
          exact frame_trans (by simp [frame, hl]) (async_cb_evict_frame _ _)
        · rw [cb_chunk cache obj fd key data ls hres hl hd]
          simp [frame, hl]
      · rw [cb_error cache obj fd key data error ls hres hl herr]
        exact frame_trans (by simp [frame, hl]) (async_cb_evict_frame _ _)

/-! ## Flag invariant 3 along the operations -/

theorem evict_object_inv (cache : shardcache_t) (obj : cached_object_t)
    (h : inv_evicted obj) : inv_evicted (arc_ops_evict_object cache obj).2 := by
  by_cases hc : list_count obj.listeners = 0
  · rw [evict_object_now cache obj hc]
    simp [inv_evicted, list_count_clear]
  · rw [evict_object_deferred cache obj hc]
    simpa [inv_evicted] using h

theorem evict_object_inv_of_empty (cache : shardcache_t) (obj : cached_object_t)
    (h : list_count obj.listeners = 0) : inv_evicted (arc_ops_evict_object cache obj).2 := by
  rw [evict_object_now cache obj h]
  simp [inv_evicted, list_count_clear]

theorem finish_inv (env : fetch_env) (cache : shardcache_t) (obj : cached_object_t)
    (tr : List Event) (h : obj.flags.evicted = false) :
    inv_evicted (arc_ops_fetch_finish env cache obj tr).obj := by
  unfold arc_ops_fetch_finish
  simp only [set_complete, unset_fetching, check_async, check_evict, check_evicted,
    foreach_listeners_complete, foreach_listeners_chunk]
  split
  · dsimp only
    split_ifs <;> simp [inv_evicted, h]
  · dsimp only
    split_ifs <;>
      first
      | (exfalso; simp_all; done)
      | (refine evict_object_inv_of_empty _ _ ?_
         cases obj.listeners <;> rfl)
      | simp_all [inv_evicted]

theorem local_inv (env : fetch_env) (cache : shardcache_t) (obj : cached_object_t)
    (pre : List Event) (h : obj.flags.evicted = false) :
    inv_evicted (arc_ops_fetch_local env cache obj pre).obj := by
  unfold arc_ops_fetch_local
  split
  · exact finish_inv _ _ _ _ h
  · split_ifs
    · simp [inv_evicted, h]
    · exact finish_inv _ _ _ _ h
    · exact finish_inv _ _ _ _ h

theorem fetch_from_peer_inv (cache : shardcache_t) (obj : cached_object_t) (p : List Nat)
    (reply : peer_reply) (h : fetchable obj) :
    inv_evicted (arc_ops_fetch_from_peer cache obj (some p) reply).2.1 ∧
    ((arc_ops_fetch_from_peer cache obj (some p) reply).1 ≠ 0 →
      fetchable (arc_ops_fetch_from_peer cache obj (some p) reply).2.1) := by
  obtain ⟨hd, he⟩ := h
  cases ha : obj.flags.async
  · have hev : obj.flags.evicted = false := by
      cases hx : obj.flags.evicted
      · rfl
      · have := (he hx).1
        simp [ha] at this
    rw [fetch_from_peer_sync cache obj p reply ha]
    constructor
    · split_ifs <;> simp [inv_evicted, hev]
    · intro hrc
      have hrc' : ¬ (reply.rc = 0 ∧ reply.value.length ≠ 0) := fun hh => hrc hh.1
      simp only [if_neg hrc']
      simp [fetchable, hd, hev]
  · by_cases hrc : reply.rc = 0
    · rw [fetch_from_peer_async_ok cache obj p reply ha hrc]
      constructor
      · intro hx
        exact ⟨hd, (he hx).2⟩
      · intro hne
        exact absurd rfl hne
    · rw [fetch_from_peer_async_fail cache obj p reply ha hrc]
      constructor
      · simp [inv_evicted, hd, list_count_clear]
      · intro _
        simp [fetchable, hd, ha, list_count_clear]

theorem unset_evicted_fetchable (obj : cached_object_t) (h : obj.data = none) :
    fetchable (COBJ_UNSET_FLAG obj COBJ_FLAG_EVICTED) := by
  simp [fetchable, unset_evicted, h]

theorem remote_inv (env : fetch_env) (cache : shardcache_t) (obj : cached_object_t)
    (h : fetchable obj) :
    ((arc_ops_fetch_remote env cache obj).done = true →
      inv_evicted (arc_ops_fetch_remote env cache obj).obj) ∧
    ((arc_ops_fetch_remote env cache obj).done = false →
      (arc_ops_fetch_remote env cache obj).obj.flags.evicted = false) := by
  have h1 := fetch_from_peer_inv cache obj [] env.peer1 h
  unfold arc_ops_fetch_remote
  dsimp only
  split_ifs with hr1 hc hg hg
  · simp [unset_evicted]
  · have h2 := fetch_from_peer_inv cache _ [] env.peer2 (h1.2 (by rw [hr1]; decide))
    simp [h2.1]
  · simp [unset_evicted]
  · simp [h1.1]
  · simp [h1.1]

theorem fetch_inv (env : fetch_env) (cache : shardcache_t) (obj : cached_object_t)
    (h : inv_evicted obj) : inv_evicted (arc_ops_fetch env cache obj).obj := by
  by_cases hg : piggybacks obj
  · rw [fetch_piggy env cache obj hg]
    exact h
  · have hr := remote_inv env (inc_cache_misses cache) _
      (unset_evicted_fetchable obj (not_piggybacks_data hg))
    by_cases ho : env.owner = 0
    · cases hd : (arc_ops_fetch_remote env (inc_cache_misses cache)
          (COBJ_UNSET_FLAG obj COBJ_FLAG_EVICTED)).done
      · rw [fetch_remote_local env cache obj hg ho hd]
        exact local_inv _ _ _ _ (hr.2 hd)
      · by_cases hret : (arc_ops_fetch_remote env (inc_cache_misses cache)
            (COBJ_UNSET_FLAG obj COBJ_FLAG_EVICTED)).ret = 0
        · rw [fetch_remote_ok env cache obj hg ho hd hret]
          exact hr.1 hd
        · rw [fetch_remote_err env cache obj hg ho hd hret]
          exact hr.1 hd
    · rw [fetch_owner env cache obj hg ho]
      exact local_inv _ _ _ _ (by simp [unset_evicted])

theorem evict_inv (cache : shardcache_t) (obj : cached_object_t) (h : inv_evicted obj) :
    inv_evicted (arc_ops_evict cache obj).2.1 := evict_object_inv cache obj h

theorem register_inv (obj : cached_object_t) (l : shardcache_get_listener_t)
    (h : inv_evicted obj) : inv_evicted (register_listener obj l) := by
  unfold register_listener
  rw [check_evicted]
  cases he : obj.flags.evicted
  · simp only [Bool.false_eq_true, if_false]
    split
    · exact h
    · simp [inv_evicted, he]
  · simpa using h

theorem async_cb_evict_inv (cache : shardcache_t) (obj : cached_object_t)
    (h : inv_evicted obj) : inv_evicted (async_cb_evict cache obj).2 := by
  unfold async_cb_evict
  split_ifs
  · exact evict_object_inv _ _ h
  · exact h

theorem cb_inv (cache : shardcache_t) (obj : cached_object_t) (fd : Int) (key data : List Nat)
    (error : Int) (h : inv_evicted obj)
    (hlive : ¬ (is_chunk data error = true ∧ obj.flags.evicted = true)) :
    inv_evicted (arc_ops_fetch_from_peer_async_cb cache obj fd key data error).obj := by
  cases hres : obj.res
  · rw [cb_no_res cache obj fd key data error hres]
    intro he
    exact ⟨(h he).1, list_count_map_nil _⟩
  · cases hl : obj.listeners with
    | none =>
      rw [cb_no_listeners cache obj fd key data error hres hl]
      intro he
      have := h he
      simpa [hl] using this
    | some ls =>
      by_cases herr : error = 0
      · subst herr
        by_cases hd : data = []
        · subst hd
          rw [cb_eos cache obj fd key ls hres hl]
          refine async_cb_evict_inv _ _ ?_
          intro he
          exact ⟨(h he).1, rfl⟩
        · rw [cb_chunk cache obj fd key data ls hres hl hd]
          intro he
          exfalso
          apply hlive
          refine ⟨?_, he⟩
          cases data with
          | nil => exact absurd rfl hd
          | cons x xs => rfl
      · rw [cb_error cache obj fd key data error ls hres hl herr]
        refine async_cb_evict_inv _ _ ?_
        intro he
        exact ⟨(h he).1, rfl⟩

/-! ## Single-flight along the operations -/

theorem fetch_from_peer_issued (cache : shardcache_t) (obj : cached_object_t) (p : List Nat)
    (reply : peer_reply) :
    async_issued (arc_ops_fetch_from_peer cache obj (some p) reply).2.2 ≤ 1 ∧
    (async_issued (arc_ops_fetch_from_peer cache obj (some p) reply).2.2 = 1 →
      (arc_ops_fetch_from_peer cache obj (some p) reply).1 = 0 ∧
      (arc_ops_fetch_from_peer cache obj (some p) reply).2.1.flags.async = true ∧
      (arc_ops_fetch_from_peer cache obj (some p) reply).2.1.flags.fetching = true) ∧
    ((arc_ops_fetch_from_peer cache obj (some p) reply).1 ≠ 0 →
      async_issued (arc_ops_fetch_from_peer cache obj (some p) reply).2.2 = 0) := by
  cases ha : obj.flags.async
  · rw [fetch_from_peer_sync cache obj p reply ha]
    simp [async_issued_cons, async_issued_nil]
  · by_cases hrc : reply.rc = 0
    · rw [fetch_from_peer_async_ok cache obj p reply ha hrc]
      simp [async_issued_cons, async_issued_nil, ha]
    · rw [fetch_from_peer_async_fail cache obj p reply ha hrc]
      simp [async_issued_cons, async_issued_nil, async_issued_append, async_issued_map, hrc]

theorem remote_issued (env : fetch_env) (cache : shardcache_t) (obj : cached_object_t) :
    async_issued (arc_ops_fetch_remote env cache obj).trace ≤ 1 ∧
    (async_issued (arc_ops_fetch_remote env cache obj).trace = 1 →
      (arc_ops_fetch_remote env cache obj).done = true ∧
      (arc_ops_fetch_remote env cache obj).obj.flags.async = true ∧
      (arc_ops_fetch_remote env cache obj).obj.flags.fetching = true) ∧
    ((arc_ops_fetch_remote env cache obj).done = false →
      async_issued (arc_ops_fetch_remote env cache obj).trace = 0) := by
  have h1 := fetch_from_peer_issued cache obj [] env.peer1
  have h2 := fetch_from_peer_issued cache
    (arc_ops_fetch_from_peer cache obj (some []) env.peer1).2.1 [] env.peer2
  unfold arc_ops_fetch_remote
  dsimp only
  by_cases hr1 : (arc_ops_fetch_from_peer cache obj (some []) env.peer1).1 = -1
  · have h10 : async_issued (arc_ops_fetch_from_peer cache obj (some []) env.peer1).2.2 = 0 :=
      h1.2.2 (by rw [hr1]; decide)
    rw [if_pos hr1]
    by_cases hc : env.check = 0
    · have hc1 : ¬ env.check = 1 := by rw [hc]; decide
      rw [if_pos hc]
      by_cases hg : env.check = 1 ∨
          ((arc_ops_fetch_from_peer cache
            (arc_ops_fetch_from_peer cache obj (some []) env.peer1).2.1 (some []) env.peer2).1 = -1 ∧
            cache.storage_global = true)
      · have hg2 := hg.resolve_left hc1
        have h20 := h2.2.2 (by rw [hg2.1]; decide)
        rw [if_pos hg]
        simp [async_issued_append, async_issued_cons, async_issued_nil, h10, h20]
      · rw [if_neg hg]
        simp only [async_issued_append, async_issued_cons, async_issued_nil, h10,
          Nat.zero_add, Nat.add_zero]
        refine ⟨h2.1, fun h => ⟨trivial, (h2.2.1 h).2⟩, fun h => ?_⟩
        exact absurd h (by decide)
    · rw [if_neg hc]
      by_cases hg : env.check = 1 ∨
          ((arc_ops_fetch_from_peer cache obj (some []) env.peer1).1 = -1 ∧
            cache.storage_global = true)
      · rw [if_pos hg]
        simp [async_issued_append, async_issued_cons, async_issued_nil, h10]
      · rw [if_neg hg]
        simp [async_issued_append, async_issued_cons, async_issued_nil, h10]
  · rw [if_neg hr1]
    refine ⟨h1.1, fun h => ⟨rfl, (h1.2.1 h).2⟩, fun h => ?_⟩
    exact absurd h (by simp)

theorem finish_issued (env : fetch_env) (cache : shardcache_t) (obj : cached_object_t)
    (tr : List Event) :
    async_issued (arc_ops_fetch_finish env cache obj tr).trace = async_issued tr := by
  unfold arc_ops_fetch_finish
  simp only [set_complete, unset_fetching, check_async, check_evict, check_evicted,
    foreach_listeners_complete, foreach_listeners_chunk]
  split
  · dsimp only
    split_ifs <;>
      simp [async_issued_append, async_issued_cons, async_issued_nil, async_issued_map]
  · dsimp only
    split_ifs <;>
      simp [async_issued_append, async_issued_cons, async_issued_nil, async_issued_map]

theorem local_issued (env : fetch_env) (cache : shardcache_t) (obj : cached_object_t)
    (pre : List Event) :
    async_issued (arc_ops_fetch_local env cache obj pre).trace = async_issued pre := by
  unfold arc_ops_fetch_local
  split
  · rw [finish_issued]
    simp [async_issued_append, async_issued_cons, async_issued_nil]
  · split_ifs
    · simp [async_issued_append, async_issued_cons, async_issued_nil]
    · rw [finish_issued]
      simp [async_issued_append, async_issued_cons, async_issued_nil]
    · rw [finish_issued]
      simp [async_issued_append, async_issued_cons, async_issued_nil]

theorem fetch_issued (env : fetch_env) (cache : shardcache_t) (obj : cached_object_t) :
    async_issued (arc_ops_fetch env cache obj).trace ≤ 1 ∧
    (async_issued (arc_ops_fetch env cache obj).trace = 1 →
      (arc_ops_fetch env cache obj).obj.flags.async = true ∧
      (arc_ops_fetch env cache obj).obj.flags.fetching = true) ∧
    (piggybacks obj → async_issued (arc_ops_fetch env cache obj).trace = 0 ∧
      peer_fetches (arc_ops_fetch env cache obj).trace = 0 ∧
      (arc_ops_fetch env cache obj).obj = obj) := by
  by_cases hg : piggybacks obj
  · rw [fetch_piggy env cache obj hg]
    simp [async_issued_cons, async_issued_nil, peer_fetches_cons, peer_fetches_nil]
  · simp only [hg, false_implies, and_true]
    have hr := remote_issued env (inc_cache_misses cache) (COBJ_UNSET_FLAG obj COBJ_FLAG_EVICTED)
    by_cases ho : env.owner = 0
    · cases hd : (arc_ops_fetch_remote env (inc_cache_misses cache)
          (COBJ_UNSET_FLAG obj COBJ_FLAG_EVICTED)).done
      · rw [fetch_remote_local env cache obj hg ho hd, local_issued]
        simp [async_issued_append, async_issued_cons, async_issued_nil, hr.2.2 hd]
      · by_cases hret : (arc_ops_fetch_remote env (inc_cache_misses cache)
            (COBJ_UNSET_FLAG obj COBJ_FLAG_EVICTED)).ret = 0
        · rw [fetch_remote_ok env cache obj hg ho hd hret]
          simp only [async_issued_append, async_issued_cons, async_issued_nil,
            Nat.zero_add, Nat.add_zero]
          exact ⟨hr.1, fun h => (hr.2.1 h).2⟩
        · rw [fetch_remote_err env cache obj hg ho hd hret]
          simp only [async_issued_append, async_issued_cons, async_issued_nil,
            Nat.zero_add, Nat.add_zero]
          exact ⟨hr.1, fun h => (hr.2.1 h).2⟩
    · rw [fetch_owner env cache obj hg ho, local_issued]
      simp [async_issued_cons, async_issued_nil]

theorem single_flight_step (s : sys) (a : action) (h : single_flight s)
    (ha : enabled_deferred s a = true) : single_flight (step s a) := by
  obtain ⟨h1, h2, h3, h4⟩ := h
  cases a with
  | fetch env =>
    have hf := fetch_frame env s.cache s.obj
    have hi := fetch_issued env s.cache s.obj
    by_cases hg : piggybacks s.obj
    · obtain ⟨e1, _, e3⟩ := hi.2.2 hg
      simp only [step, single_flight, e1, e3, Nat.add_zero]
      exact ⟨h1, h2, h3, h4⟩
    · have h0 : s.inflight = 0 := by
        rcases Nat.lt_or_ge s.inflight 1 with hlt | hge
        · omega
        · exact absurd (Or.inr (h4 (by omega))) hg
      simp only [step, single_flight, h0, Nat.zero_add]
      refine ⟨hi.1, hf.2.1.trans h2, fun hx => ?_, hi.2.1⟩
      rw [hf.2.2.1]
      exact h3 (hf.2.2.2 hx)
  | evict =>
    have hf := evict_frame s.cache s.obj
    simp only [enabled_deferred, decide_eq_true_eq] at ha
    simp only [step, single_flight]
    refine ⟨h1, hf.2.1.trans h2, fun hx => ?_, fun hx => ?_⟩
    · rw [hf.2.2.1]
      exact h3 (hf.2.2.2 hx)
    · have hc : list_count s.obj.listeners ≠ 0 := by
        rcases ha with ha | ha
        · omega
        · exact ha
      have := h4 hx
      simp only [arc_ops_evict]
      rw [evict_object_deferred s.cache s.obj hc]
      exact this
  | callback fd data error =>
    have hf := cb_frame s.cache s.obj fd s.obj.key data error
    simp only [enabled_deferred, decide_eq_true_eq] at ha
    have hin : s.inflight = 1 := by omega
    obtain ⟨ha1, ha2⟩ := h4 hin
    have hls := h3 ha1
    obtain ⟨ls, hl⟩ := Option.isSome_iff_exists.1 hls
    simp only [step, single_flight]
    cases hch : is_chunk data error
    · simp only [Bool.false_eq_true, if_false, hin]
      refine ⟨by omega, hf.2.1.trans h2, fun hx => ?_, fun hx => by omega⟩
      rw [hf.2.2.1]
      exact hls
    · simp only [if_true]
      have he : error = 0 := by
        simp only [is_chunk, Bool.and_eq_true, decide_eq_true_eq] at hch
        exact hch.1
      have hd : data ≠ [] := by
        simp only [is_chunk, Bool.and_eq_true, decide_eq_true_eq] at hch
        intro hx
        rw [hx] at hch
        simp at hch
      subst he
      rw [cb_chunk s.cache s.obj fd s.obj.key data ls h2 hl hd]
      exact ⟨h1, h2, fun _ => rfl, fun _ => ⟨ha1, ha2⟩⟩
  | register l =>
    have hf := register_frame s.obj l
    simp only [step, single_flight]
    refine ⟨h1, hf.2.1.trans h2, fun hx => ?_, fun hx => ?_⟩
    · rw [hf.2.2.1]
      exact h3 (hf.2.2.2 hx)
    · have := h4 hx
      unfold register_listener
      split_ifs
      · exact this
      · split
        · exact this
        · exact this

theorem single_flight_run (acts : List action) (s0 s : sys) (h0 : single_flight s0)
    (h : run enabled_deferred s0 acts = some s) : single_flight s := by
  induction acts generalizing s0 with
  | nil =>
    simp only [run, Option.some.injEq] at h
    rw [← h]
    exact h0
  | cons a as ih =>
    simp only [run] at h
    split_ifs at h with hen
    exact ih (step s0 a) (single_flight_step s0 a h0 hen) h

theorem single_flight_create (cache : shardcache_t) (key : List Nat) (async : Bool) :
    single_flight (sys_create cache key async true) := by
  cases async <;>
    simp [single_flight, sys_create, arc_ops_create, unset_complete, set_async, cobj_flags.zero]

theorem inv_evicted_step (s : sys) (a : action) (h : inv_evicted s.obj)
    (ha : enabled_live s a = true) : inv_evicted (step s a).obj := by
  cases a with
  | fetch env => exact fetch_inv env s.cache s.obj h
  | evict => exact evict_inv s.cache s.obj h
  | callback fd data error =>
    refine cb_inv s.cache s.obj fd s.obj.key data error h ?_
    intro hx
    simp [enabled_live, hx.1, hx.2] at ha
  | register l => exact register_inv s.obj l h

theorem inv_evicted_run (acts : List action) (s0 s : sys) (h0 : inv_evicted s0.obj)
    (h : run enabled_live s0 acts = some s) : inv_evicted s.obj := by
  induction acts generalizing s0 with
  | nil =>
    simp only [run, Option.some.injEq] at h
    rw [← h]
    exact h0
  | cons a as ih =>
    simp only [run] at h
    split_ifs at h with hen
    exact ih (step s0 a) (inv_evicted_step s0 a h0 hen) h

theorem inv_evicted_create (key : List Nat) (async : Bool) (res : Bool) :
    inv_evicted (arc_ops_create key async res) := by
  cases async <;>
    simp [inv_evicted, arc_ops_create, unset_complete, set_async, cobj_flags.zero]

/-! ## Runs of the callback -/

theorem received_append (i : Nat) (a b : List Event) :
    received i (a ++ b) = received i a ++ received i b := by
  simp [received]

theorem received_cons (i : Nat) (e : Event) (tr : List Event) :
    received i (e :: tr) =
      (match e with
        | Event.listener_cb j a => if j = i then [a] else []
        | _ => []) ++ received i tr := by
  cases e <;> simp [received, List.filterMap_cons]
  split_ifs <;> simp

theorem received_nil (i : Nat) : received i [] = [] := rfl

theorem received_map_not_mem (i : Nat) (ls : List shardcache_get_listener_t) (a : cb_args)
    (h : i ∉ ls.map (fun l => l.id)) :
    received i (ls.map (fun l => Event.listener_cb l.id a)) = [] := by
  induction ls with
  | nil => rfl
  | cons x xs ih =>
    simp only [List.map_cons, List.mem_cons, not_or] at h
    simp only [List.map_cons, received_cons]
    rw [ih h.2, if_neg (fun hx => h.1 hx.symm)]
    rfl

theorem received_map (l : shardcache_get_listener_t) (ls : List shardcache_get_listener_t)
    (a : cb_args) (hnd : (ls.map (fun x => x.id)).Nodup) (hmem : l ∈ ls) :
    received l.id (ls.map (fun x => Event.listener_cb x.id a)) = [a] := by
  induction ls with
  | nil => cases hmem
  | cons x xs ih =>
    simp only [List.map_cons, List.nodup_cons] at hnd
    simp only [List.map_cons, received_cons]
    rcases List.mem_cons.1 hmem with rfl | hin
    · rw [if_pos rfl, received_map_not_mem _ _ _ hnd.1]
      rfl
    · have hne : ¬ x.id = l.id := by
        intro hx
        apply hnd.1
        rw [hx]
        exact List.mem_map.2 ⟨l, hin, rfl⟩
      rw [if_neg hne, ih hnd.2 hin]
      rfl

theorem after_chunk_id (a : cb_args) (l l1 : shardcache_get_listener_t)
    (h : after_chunk a l = some l1) : l1.id = l.id ∧ l1.cb = l.cb := by
  unfold after_chunk at h
  split_ifs at h
  simp only [Option.some.injEq] at h
  rw [← h]
  exact ⟨rfl, rfl⟩

theorem filterMap_after_chunk_ids (a : cb_args) (ls : List shardcache_get_listener_t) :
    ((ls.filterMap (after_chunk a)).map (fun x => x.id)).Sublist (ls.map (fun x => x.id)) := by
  induction ls with
  | nil => exact List.Sublist.refl _
  | cons x xs ih =>
    rw [List.filterMap_cons]
    cases hx : after_chunk a x with
    | none => exact List.Sublist.cons _ ih
    | some y =>
      simp only [List.map_cons]
      rw [(after_chunk_id a x y hx).1]
      exact List.Sublist.cons₂ _ ih

theorem filterMap_after_chunk_mem (a : cb_args) (ls : List shardcache_get_listener_t)
    (l : shardcache_get_listener_t) (hmem : l ∈ ls) (hok : always_ok l) :
    ∃ l1, l1 ∈ ls.filterMap (after_chunk a) ∧ l1.id = l.id ∧ always_ok l1 := by
  refine ⟨{ l with priv := (l.cb l.priv a).2 }, ?_, rfl, hok⟩
  rw [List.mem_filterMap]
  exact ⟨l, hmem, by simp [after_chunk, hok l.priv a]⟩

theorem filterMap_after_chunk_all_ok (a : cb_args) (ls : List shardcache_get_listener_t)
    (hok : ∀ l ∈ ls, always_ok l) :
    (ls.filterMap (after_chunk a)).map (fun x => x.id) = ls.map (fun x => x.id) ∧
    ∀ l ∈ ls.filterMap (after_chunk a), always_ok l := by
  induction ls with
  | nil => exact ⟨rfl, fun l hl => by cases hl⟩
  | cons x xs ih =>
    have hx := hok x (List.mem_cons_self _ _)
    have ih' := ih (fun l hl => hok l (List.mem_cons_of_mem _ hl))
    have e : after_chunk a x = some { x with priv := (x.cb x.priv a).2 } := by
      simp [after_chunk, hx x.priv a]
    rw [List.filterMap_cons, e]
    refine ⟨by simp [ih'.1], fun l hl => ?_⟩
    rcases List.mem_cons.1 hl with rfl | hin
    · exact hx
    · exact ih'.2 l hin

/-! ## The local path: results and counters -/

theorem finish_none (env : fetch_env) (cache : shardcache_t) (obj : cached_object_t)
    (tr : List Event) (h : obj.data = none) :
    arc_ops_fetch_finish env cache obj tr =
      { rc := 1, size := none
        obj := { obj with
          ts := env.now
          flags := { obj.flags with complete := true, fetching := false }
          listeners := if obj.flags.async = true then obj.listeners.map (fun _ => [])
                       else obj.listeners }
        cache := inc_not_found cache
        trace := tr ++
          (if obj.flags.async = true then
             (obj.listeners.getD []).map
               (fun l => Event.listener_cb l.id (complete_args obj.key 0 env.now))
           else []) ++ [Event.mutex_unlock] } := by
  unfold arc_ops_fetch_finish
  simp only [set_complete, unset_fetching, check_async, h, Option.isNone_none, if_true,
    foreach_listeners_complete, cached_object_t.dlen]
  cases ha : obj.flags.async <;> cases hl : obj.listeners <;> simp

theorem finish_some_sync (env : fetch_env) (cache : shardcache_t) (obj : cached_object_t)
    (tr : List Event) (d : List Nat) (h : obj.data = some d) (ha : obj.flags.async = false) :
    arc_ops_fetch_finish env cache obj tr =
      { rc := 0, size := some d.length
        obj := { obj with
          ts := env.now
          flags := { obj.flags with complete := true, fetching := false } }
        cache := cache
        trace := tr ++
          (if cache.expire_time > 0 ∧ obj.flags.evict = false ∧ obj.flags.evicted = false ∧
              cache.lazy_expiration = false then
             [Event.schedule_expiration obj.key cache.expire_time]
           else []) ++ [Event.mutex_unlock] } := by
  unfold arc_ops_fetch_finish
  simp only [set_complete, unset_fetching, check_async, check_evict, check_evicted, h, ha,
    Option.isNone_some, Bool.false_eq_true, if_false, false_and, cached_object_t.dlen]
  cases obj.flags.evict <;> cases obj.flags.evicted <;> simp

theorem finish_counters (env : fetch_env) (cache : shardcache_t) (obj : cached_object_t)
    (tr : List Event) :
    (arc_ops_fetch_finish env cache obj tr).cache.cnt.cache_misses = cache.cnt.cache_misses ∧
    (arc_ops_fetch_finish env cache obj tr).cache.cnt.fetch_local = cache.cnt.fetch_local ∧
    (arc_ops_fetch_finish env cache obj tr).cache.cnt.fetch_remote = cache.cnt.fetch_remote ∧
    (arc_ops_fetch_finish env cache obj tr).cache.cnt.errors = cache.cnt.errors ∧
    (arc_ops_fetch_finish env cache obj tr).rc ≠ -1 := by
  unfold arc_ops_fetch_finish
  simp only [set_complete, unset_fetching, check_async, check_evict, check_evicted,
    foreach_listeners_complete, foreach_listeners_chunk]
  split
  · dsimp only
    simp [inc_not_found]
  · dsimp only
    unfold arc_ops_evict_object
    split_ifs <;> simp

theorem finish_peer_fetches (env : fetch_env) (cache : shardcache_t) (obj : cached_object_t)
    (tr : List Event) :
    peer_fetches (arc_ops_fetch_finish env cache obj tr).trace = peer_fetches tr := by
  unfold arc_ops_fetch_finish
  simp only [set_complete, unset_fetching, check_async, check_evict, check_evicted,
    foreach_listeners_complete, foreach_listeners_chunk]
  split
  · dsimp only
    split_ifs <;>
      simp [peer_fetches_append, peer_fetches_cons, peer_fetches_nil, peer_fetches_map]
  · dsimp only
    split_ifs <;>
      simp [peer_fetches_append, peer_fetches_cons, peer_fetches_nil, peer_fetches_map]

theorem local_vobj (env : fetch_env) (cache : shardcache_t) (obj : cached_object_t)
    (pre : List Event) (v : Option (List Nat)) (h : env.vobj = some v) :
    arc_ops_fetch_local env cache obj pre =
      arc_ops_fetch_finish env (inc_fetch_local cache) { obj with data := v }
        (pre ++ [Event.ht_get_deep_copy]) := by
  unfold arc_ops_fetch_local
  simp only [h]

theorem local_storage_fail (env : fetch_env) (cache : shardcache_t) (obj : cached_object_t)
    (pre : List Event) (h : env.vobj = none)
    (hs : cache.use_persistent_storage = true ∧ cache.storage_fetch = true)
    (hr : env.storage_rc = -1) :
    arc_ops_fetch_local env cache obj pre =
      { rc := -1, size := none, obj := { obj with data := env.storage_data }
        cache := inc_errors (inc_fetch_local cache)
        trace := pre ++ [Event.ht_get_deep_copy, Event.storage_fetch, Event.mutex_unlock] } := by
  unfold arc_ops_fetch_local
  simp only [h]
  rw [if_pos hs, if_pos hr]

theorem local_storage_ok (env : fetch_env) (cache : shardcache_t) (obj : cached_object_t)
    (pre : List Event) (h : env.vobj = none)
    (hs : cache.use_persistent_storage = true ∧ cache.storage_fetch = true)
    (hr : env.storage_rc ≠ -1) :
    arc_ops_fetch_local env cache obj pre =
      arc_ops_fetch_finish env (inc_fetch_local cache) { obj with data := env.storage_data }
        (pre ++ [Event.ht_get_deep_copy, Event.storage_fetch]) := by
  unfold arc_ops_fetch_local
  simp only [h]
  rw [if_pos hs, if_neg hr]

theorem local_no_storage (env : fetch_env) (cache : shardcache_t) (obj : cached_object_t)
    (pre : List Event) (h : env.vobj = none)
    (hs : ¬(cache.use_persistent_storage = true ∧ cache.storage_fetch = true)) :
    arc_ops_fetch_local env cache obj pre =
      arc_ops_fetch_finish env (inc_fetch_local cache) obj
        (pre ++ [Event.ht_get_deep_copy]) := by
  unfold arc_ops_fetch_local
  simp only [h]
  rw [if_neg hs]

theorem local_counters (env : fetch_env) (cache : shardcache_t) (obj : cached_object_t)
    (pre : List Event) :
    (arc_ops_fetch_local env cache obj pre).cache.cnt.cache_misses = cache.cnt.cache_misses ∧
    (arc_ops_fetch_local env cache obj pre).cache.cnt.fetch_local = cache.cnt.fetch_local + 1 ∧
    (arc_ops_fetch_local env cache obj pre).cache.cnt.fetch_remote = cache.cnt.fetch_remote ∧
    ((arc_ops_fetch_local env cache obj pre).rc = -1 ↔ storage_fails env cache) ∧
    (arc_ops_fetch_local env cache obj pre).cache.cnt.errors =
      cache.cnt.errors + (if storage_fails env cache then 1 else 0) := by
  cases hv : env.vobj with
  | some v =>
    have hf : ¬ storage_fails env cache := by simp [storage_fails, hv]
    rw [local_vobj env cache obj pre v hv, if_neg hf]
    have h := finish_counters env (inc_fetch_local cache) { obj with data := v }
      (pre ++ [Event.ht_get_deep_copy])
    refine ⟨h.1, h.2.1, h.2.2.1, ?_, h.2.2.2.1⟩
    exact ⟨fun hc => absurd hc h.2.2.2.2, fun hc => absurd hc hf⟩
  | none =>
    by_cases hs : cache.use_persistent_storage = true ∧ cache.storage_fetch = true
    · by_cases hr : env.storage_rc = -1
      · have hf : storage_fails env cache := ⟨hv, hs, hr⟩
        rw [local_storage_fail env cache obj pre hv hs hr]
        have hf2 : env.vobj = none ∧ (cache.use_persistent_storage = true ∧
            cache.storage_fetch = true) ∧ env.storage_rc = -1 := hf
        simp [inc_errors, inc_fetch_local, storage_fails, hv, hs, hr]
      · have hf : ¬ storage_fails env cache := fun hc => hr hc.2.2
        rw [local_storage_ok env cache obj pre hv hs hr]
        have h := finish_counters env (inc_fetch_local cache)
          { obj with data := env.storage_data }
          (pre ++ [Event.ht_get_deep_copy, Event.storage_fetch])
        refine ⟨h.1, h.2.1, h.2.2.1, ?_, ?_⟩
        · exact ⟨fun hc => absurd hc h.2.2.2.2, fun hc => absurd hc hf⟩
        · rw [h.2.2.2.1]; simp [storage_fails, hr, inc_fetch_local]
    · have hf : ¬ storage_fails env cache := fun hc => hs hc.2.1
      rw [local_no_storage env cache obj pre hv hs]
      have h := finish_counters env (inc_fetch_local cache) obj
        (pre ++ [Event.ht_get_deep_copy])
      refine ⟨h.1, h.2.1, h.2.2.1, ?_, ?_⟩
      · exact ⟨fun hc => absurd hc h.2.2.2.2, fun hc => absurd hc hf⟩
      · rw [h.2.2.2.1]; simp [storage_fails, hs, inc_fetch_local]

theorem local_peer_fetches (env : fetch_env) (cache : shardcache_t) (obj : cached_object_t)
    (pre : List Event) :
    peer_fetches (arc_ops_fetch_local env cache obj pre).trace = peer_fetches pre := by
  unfold arc_ops_fetch_local
  split
  · rw [finish_peer_fetches]
    simp [peer_fetches_append, peer_fetches_cons, peer_fetches_nil]
  · split_ifs
    · simp [peer_fetches_append, peer_fetches_cons, peer_fetches_nil]
    · rw [finish_peer_fetches]
      simp [peer_fetches_append, peer_fetches_cons, peer_fetches_nil]
    · rw [finish_peer_fetches]
      simp [peer_fetches_append, peer_fetches_cons, peer_fetches_nil]

/-! ## The peer branch: events and outcomes -/

theorem fetch_from_peer_events (cache : shardcache_t) (obj : cached_object_t) (p : List Nat)
    (reply : peer_reply) :
    ∀ e ∈ (arc_ops_fetch_from_peer cache obj (some p) reply).2.2, peer_event e = true := by
  cases ha : obj.flags.async
  · rw [fetch_from_peer_sync cache obj p reply ha]
    simp [peer_event]
  · by_cases hrc : reply.rc = 0
    · rw [fetch_from_peer_async_ok cache obj p reply ha hrc]
      simp [peer_event]
    · rw [fetch_from_peer_async_fail cache obj p reply ha hrc]
      intro e he
      simp only [List.mem_append, List.mem_cons, List.mem_map, List.mem_singleton,
        List.not_mem_nil, or_false] at he
      rcases he with ((rfl | rfl | rfl) | ⟨l, -, rfl⟩) | rfl <;> rfl

theorem remote_first_ok (env : fetch_env) (cache : shardcache_t) (obj : cached_object_t)
    (h : (arc_ops_fetch_from_peer cache obj (some []) env.peer1).1 ≠ -1) :
    arc_ops_fetch_remote env cache obj =
      { ret := (arc_ops_fetch_from_peer cache obj (some []) env.peer1).1, done := true
        obj := (arc_ops_fetch_from_peer cache obj (some []) env.peer1).2.1
        trace := (arc_ops_fetch_from_peer cache obj (some []) env.peer1).2.2 } := by
  unfold arc_ops_fetch_remote
  dsimp only
  rw [if_neg h]

theorem remote_migrated (env : fetch_env) (cache : shardcache_t) (obj : cached_object_t)
    (h : (arc_ops_fetch_from_peer cache obj (some []) env.peer1).1 = -1)
    (hc : env.check = 1) :
    arc_ops_fetch_remote env cache obj =
      { ret := -1, done := false
        obj := COBJ_UNSET_FLAG (arc_ops_fetch_from_peer cache obj (some []) env.peer1).2.1
          COBJ_FLAG_EVICTED
        trace := (arc_ops_fetch_from_peer cache obj (some []) env.peer1).2.2 ++
          [Event.test_migration_ownership] } := by
  have hc0 : ¬ env.check = 0 := by rw [hc]; decide
  unfold arc_ops_fetch_remote
  dsimp only
  rw [if_pos h, if_neg hc0, if_pos (Or.inl hc), h]
  simp

theorem remote_events (env : fetch_env) (cache : shardcache_t) (obj : cached_object_t) :
    ∀ e ∈ (arc_ops_fetch_remote env cache obj).trace, peer_event e = true := by
  have h1 := fetch_from_peer_events cache obj [] env.peer1
  have h2 := fetch_from_peer_events cache
    (arc_ops_fetch_from_peer cache obj (some []) env.peer1).2.1 [] env.peer2
  unfold arc_ops_fetch_remote
  dsimp only
  intro e he
  split_ifs at he <;>
    simp only [List.mem_append, List.mem_singleton, List.not_mem_nil, or_false] at he <;>
    first
    | exact h1 e he
    | (rcases he with (he | he) | he
       · exact h1 e he
       · subst he; rfl
       · exact h2 e he)
    | (rcases he with he | he
       · exact h1 e he
       · subst he; rfl)

theorem remote_peer_fetches (env : fetch_env) (cache : shardcache_t) (obj : cached_object_t) :
    1 ≤ peer_fetches (arc_ops_fetch_remote env cache obj).trace ∧
    (env.check ≠ 0 → peer_fetches (arc_ops_fetch_remote env cache obj).trace = 1) := by
  have hp : ∀ (o : cached_object_t) (r : peer_reply),
      peer_fetches (arc_ops_fetch_from_peer cache o (some []) r).2.2 = 1 := by
    intro o r
    cases ha : o.flags.async
    · rw [fetch_from_peer_sync cache o [] r ha]
      simp [peer_fetches_cons, peer_fetches_nil]
    · by_cases hrc : r.rc = 0
      · rw [fetch_from_peer_async_ok cache o [] r ha hrc]
        simp [peer_fetches_cons, peer_fetches_nil]
      · rw [fetch_from_peer_async_fail cache o [] r ha hrc]
        simp [peer_fetches_cons, peer_fetches_nil, peer_fetches_append, peer_fetches_map]
  unfold arc_ops_fetch_remote
  dsimp only
  split_ifs <;>
    simp_all [peer_fetches_cons, peer_fetches_nil, peer_fetches_append]

/-! ## Empty results on a synchronous entry -/

theorem finish_sync_empty (env : fetch_env) (cache : shardcache_t) (obj : cached_object_t)
    (tr : List Event) (ha : obj.flags.async = false)
    (hd : (arc_ops_fetch_finish env cache obj tr).obj.data = none) :
    (arc_ops_fetch_finish env cache obj tr).rc = 1 ∧
    (arc_ops_fetch_finish env cache obj tr).cache.cnt.not_found = cache.cnt.not_found + 1 := by
  cases hx : obj.data with
  | none =>
    rw [finish_none env cache obj tr hx]
    exact ⟨rfl, rfl⟩
  | some d =>
    rw [finish_some_sync env cache obj tr d hx ha] at hd
    simp [hx] at hd

theorem local_sync_empty (env : fetch_env) (cache : shardcache_t) (obj : cached_object_t)
    (pre : List Event) (ha : obj.flags.async = false)
    (hrc : (arc_ops_fetch_local env cache obj pre).rc ≠ -1)
    (hd : (arc_ops_fetch_local env cache obj pre).obj.data = none) :
    (arc_ops_fetch_local env cache obj pre).rc = 1 ∧
    (arc_ops_fetch_local env cache obj pre).cache.cnt.not_found = cache.cnt.not_found + 1 := by
  cases hv : env.vobj with
  | some v =>
    rw [local_vobj env cache obj pre v hv] at hd ⊢
    exact finish_sync_empty env _ _ _ ha hd
  | none =>
    by_cases hs : cache.use_persistent_storage = true ∧ cache.storage_fetch = true
    · by_cases hr : env.storage_rc = -1
      · rw [local_storage_fail env cache obj pre hv hs hr] at hrc
        exact absurd rfl hrc
      · rw [local_storage_ok env cache obj pre hv hs hr] at hd ⊢
        exact finish_sync_empty env _ _ _ ha hd
    · rw [local_no_storage env cache obj pre hv hs] at hd ⊢
      exact finish_sync_empty env _ _ _ ha hd

theorem finish_sync_found (env : fetch_env) (cache : shardcache_t) (obj : cached_object_t)
    (tr : List Event) (ha : obj.flags.async = false)
    (hd : (arc_ops_fetch_finish env cache obj tr).obj.data ≠ none) :
    (arc_ops_fetch_finish env cache obj tr).rc = 0 ∧
    (arc_ops_fetch_finish env cache obj tr).cache.cnt.not_found = cache.cnt.not_found := by
  cases hx : obj.data with
  | none =>
    rw [finish_none env cache obj tr hx] at hd
    exact absurd hx hd
  | some d =>
    rw [finish_some_sync env cache obj tr d hx ha]
    exact ⟨rfl, rfl⟩

theorem local_sync_found (env : fetch_env) (cache : shardcache_t) (obj : cached_object_t)
    (pre : List Event) (ha : obj.flags.async = false)
    (hrc : (arc_ops_fetch_local env cache obj pre).rc ≠ -1)
    (hd : (arc_ops_fetch_local env cache obj pre).obj.data ≠ none) :
    (arc_ops_fetch_local env cache obj pre).rc = 0 ∧
    (arc_ops_fetch_local env cache obj pre).cache.cnt.not_found = cache.cnt.not_found := by
  cases hv : env.vobj with
  | some v =>
    rw [local_vobj env cache obj pre v hv] at hd ⊢
    exact finish_sync_found env _ _ _ ha hd
  | none =>
    by_cases hs : cache.use_persistent_storage = true ∧ cache.storage_fetch = true
    · by_cases hr : env.storage_rc = -1
      · rw [local_storage_fail env cache obj pre hv hs hr] at hrc
        exact absurd rfl hrc
      · rw [local_storage_ok env cache obj pre hv hs hr] at hd ⊢
        exact finish_sync_found env _ _ _ ha hd
    · rw [local_no_storage env cache obj pre hv hs] at hd ⊢
      exact finish_sync_found env _ _ _ ha hd

/-! ## Which path a fetch took -/

theorem finish_trace (env : fetch_env) (cache : shardcache_t) (obj : cached_object_t)
    (tr : List Event) :
    ∃ post, (arc_ops_fetch_finish env cache obj tr).trace = tr ++ post := by
  unfold arc_ops_fetch_finish
  dsimp only
  split
  · exact ⟨_, by rw [List.append_assoc]⟩
  · exact ⟨_, by rw [List.append_assoc, List.append_assoc, List.append_assoc]⟩

theorem local_lookup_mem (env : fetch_env) (cache : shardcache_t) (obj : cached_object_t)
    (pre : List Event) :
    Event.ht_get_deep_copy ∈ (arc_ops_fetch_local env cache obj pre).trace := by
  unfold arc_ops_fetch_local
  dsimp only
  split
  · obtain ⟨post, h⟩ := finish_trace env (inc_fetch_local cache) { obj with data := _ }
      (pre ++ [Event.ht_get_deep_copy])
    rw [h]; simp
  · split_ifs
    · simp
    · obtain ⟨post, h⟩ := finish_trace env (inc_fetch_local cache)
        { obj with data := env.storage_data }
        (pre ++ [Event.ht_get_deep_copy, Event.storage_fetch])
      rw [h]; simp
    · obtain ⟨post, h⟩ := finish_trace env (inc_fetch_local cache) obj
        (pre ++ [Event.ht_get_deep_copy])
      rw [h]; simp

theorem fetch_lookup (env : fetch_env) (cache : shardcache_t) (obj : cached_object_t)
    (hg : ¬ piggybacks obj)
    (hm : Event.ht_get_deep_copy ∈ (arc_ops_fetch env cache obj).trace) :
    ∃ o pre, arc_ops_fetch env cache obj =
        arc_ops_fetch_local env (inc_cache_misses cache) o pre ∧ frame obj o ∧
      (∀ e ∈ pre, e = Event.mutex_lock ∨ e = Event.test_ownership ∨ peer_event e = true) := by
  by_cases ho : env.owner = 0
  · have hev := remote_events env (inc_cache_misses cache)
      (COBJ_UNSET_FLAG obj COBJ_FLAG_EVICTED)
    cases hd : (arc_ops_fetch_remote env (inc_cache_misses cache)
        (COBJ_UNSET_FLAG obj COBJ_FLAG_EVICTED)).done
    · refine ⟨_, _, fetch_remote_local env cache obj hg ho hd,
        frame_trans (unset_evicted_frame obj) (remote_frame _ _ _), ?_⟩
      intro e he
      rw [List.mem_append] at he
      rcases he with he | he
      · simp only [List.mem_cons, List.mem_singleton, List.not_mem_nil, or_false] at he
        rcases he with he | he
        · exact Or.inl he
        · exact Or.inr (Or.inl he)
      · exact Or.inr (Or.inr (hev e he))
    · exfalso
      by_cases hr : (arc_ops_fetch_remote env (inc_cache_misses cache)
          (COBJ_UNSET_FLAG obj COBJ_FLAG_EVICTED)).ret = 0
      · rw [fetch_remote_ok env cache obj hg ho hd hr] at hm
        simp only [List.mem_append, List.mem_cons, List.mem_singleton, List.not_mem_nil,
          or_false] at hm
        rcases hm with (hm | hm) | hm
        · rcases hm with hm | hm <;> exact absurd hm (by decide)
        · exact absurd (hev _ hm) (by decide)
        · exact absurd hm (by decide)
      · rw [fetch_remote_err env cache obj hg ho hd hr] at hm
        simp only [List.mem_append, List.mem_cons, List.mem_singleton, List.not_mem_nil,
          or_false] at hm
        rcases hm with (hm | hm) | hm
        · rcases hm with hm | hm <;> exact absurd hm (by decide)
        · exact absurd (hev _ hm) (by decide)
        · exact absurd hm (by decide)
  · refine ⟨_, _, fetch_owner env cache obj hg ho, unset_evicted_frame obj, ?_⟩
    intro e he
    simp only [List.mem_cons, List.mem_singleton, List.not_mem_nil, or_false] at he
    rcases he with he | he
    · exact Or.inl he
    · exact Or.inr (Or.inl he)

theorem fetch_no_lookup (env : fetch_env) (cache : shardcache_t) (obj : cached_object_t)
    (hm : Event.ht_get_deep_copy ∉ (arc_ops_fetch env cache obj).trace) :
    ∀ e ∈ (arc_ops_fetch env cache obj).trace,
      e = Event.mutex_lock ∨ e = Event.test_ownership ∨ e = Event.mutex_unlock ∨
      peer_event e = true := by
  by_cases hg : piggybacks obj
  · rw [fetch_piggy env cache obj hg]
    intro e he
    simp only [List.mem_cons, List.mem_singleton, List.not_mem_nil, or_false] at he
    rcases he with he | he
    · exact Or.inl he
    · exact Or.inr (Or.inr (Or.inl he))
  · by_cases ho : env.owner = 0
    · have hev := remote_events env (inc_cache_misses cache)
        (COBJ_UNSET_FLAG obj COBJ_FLAG_EVICTED)
      cases hd : (arc_ops_fetch_remote env (inc_cache_misses cache)
          (COBJ_UNSET_FLAG obj COBJ_FLAG_EVICTED)).done
      · rw [fetch_remote_local env cache obj hg ho hd] at hm
        exact absurd (local_lookup_mem _ _ _ _) hm
      · by_cases hr : (arc_ops_fetch_remote env (inc_cache_misses cache)
            (COBJ_UNSET_FLAG obj COBJ_FLAG_EVICTED)).ret = 0
        · rw [fetch_remote_ok env cache obj hg ho hd hr]
          intro e he
          simp only [List.mem_append, List.mem_cons, List.mem_singleton, List.not_mem_nil,
            or_false] at he
          rcases he with ((he | he) | he) | he
          · exact Or.inl he
          · exact Or.inr (Or.inl he)
          · exact Or.inr (Or.inr (Or.inr (hev e he)))
          · exact Or.inr (Or.inr (Or.inl he))
        · rw [fetch_remote_err env cache obj hg ho hd hr]
          intro e he
          simp only [List.mem_append, List.mem_cons, List.mem_singleton, List.not_mem_nil,
            or_false] at he
          rcases he with ((he | he) | he) | he
          · exact Or.inl he
          · exact Or.inr (Or.inl he)
          · exact Or.inr (Or.inr (Or.inr (hev e he)))
          · exact Or.inr (Or.inr (Or.inl he))
    · rw [fetch_owner env cache obj hg ho] at hm
      exact absurd (local_lookup_mem _ _ _ _) hm

/-! ## The peer fetch driver: return code and count -/

theorem fetch_from_peer_rc (cache : shardcache_t) (obj : cached_object_t) (p : List Nat)
    (reply : peer_reply) :
    (arc_ops_fetch_from_peer cache obj (some p) reply).1 = reply.rc := by
  cases ha : obj.flags.async
  · rw [fetch_from_peer_sync cache obj p reply ha]
  · by_cases hrc : reply.rc = 0
    · rw [fetch_from_peer_async_ok cache obj p reply ha hrc, hrc]
    · rw [fetch_from_peer_async_fail cache obj p reply ha hrc]

theorem fetch_from_peer_once (cache : shardcache_t) (obj : cached_object_t) (p : List Nat)
    (reply : peer_reply) :
    peer_fetches (arc_ops_fetch_from_peer cache obj (some p) reply).2.2 = 1 := by
  cases ha : obj.flags.async
  · rw [fetch_from_peer_sync cache obj p reply ha]
    simp [peer_fetches_cons, peer_fetches_nil]
  · by_cases hrc : reply.rc = 0
    · rw [fetch_from_peer_async_ok cache obj p reply ha hrc]
      simp [peer_fetches_cons, peer_fetches_nil]
    · rw [fetch_from_peer_async_fail cache obj p reply ha hrc]
      simp [peer_fetches_cons, peer_fetches_nil, peer_fetches_append, peer_fetches_map]

/-! ## The callback: the eviction test and the final block -/

theorem async_cb_evict_not (cache : shardcache_t) (obj : cached_object_t)
    (h : obj.flags.evict = false) : async_cb_evict cache obj = (cache, obj) := by
  unfold async_cb_evict
  rw [check_evict, if_neg (by simp [h])]

theorem async_cb_complete_drop (cache : shardcache_t) (obj : cached_object_t) (key : List Nat)
    (error : Int) (n : Int) :
    async_cb_complete cache obj key error n true = [Event.arc_remove key] := by
  unfold async_cb_complete
  rw [if_neg (by simp), if_pos (Or.inr rfl)]

theorem async_cb_complete_keep (cache : shardcache_t) (obj : cached_object_t) (key : List Nat)
    (error : Int) (n : Int) (hn : n ≠ 0) :
    async_cb_complete cache obj key error n false =
      [Event.arc_update_size key n] ++
      (if cache.expire_time > 0 ∧ (obj.flags.evict || obj.flags.evicted) = false ∧
          cache.lazy_expiration = false then
         [Event.schedule_expiration key cache.expire_time]
       else []) := by
  unfold async_cb_complete
  rw [if_pos ⟨hn, rfl⟩, check_evict, check_evicted]

theorem async_cb_complete_events (cache : shardcache_t) (obj : cached_object_t)
    (key : List Nat) (error : Int) (n : Int) (drop : Bool) :
    ∀ e ∈ async_cb_complete cache obj key error n drop,
      e = Event.arc_update_size key n ∨ e = Event.schedule_expiration key cache.expire_time ∨
      e = Event.arc_remove key := by
  unfold async_cb_complete
  intro e he
  split_ifs at he
  · simp at he
    rcases he with he | ⟨_, he⟩
    · exact Or.inl he
    · exact Or.inr (Or.inl he)
  · simp at he
    exact Or.inr (Or.inr he)
  · simp at he

/-! ## Arming of the expirer -/

theorem expirations_append (a b : List Event) :
    expirations (a ++ b) = expirations a ++ expirations b := by
  simp [expirations]

theorem expirations_map (ls : List shardcache_get_listener_t) (a : cb_args) :
    expirations (ls.map (fun l => Event.listener_cb l.id a)) = [] := by
  induction ls with
  | nil => rfl
  | cons l ls ih => simp_all [expirations]

theorem expirations_none (tr : List Event)
    (h : ∀ e ∈ tr, e = Event.mutex_lock ∨ e = Event.test_ownership ∨ e = Event.mutex_unlock ∨
      peer_event e = true) : expirations tr = [] := by
  induction tr with
  | nil => rfl
  | cons e tr ih =>
    have he := h e (List.mem_cons_self _ _)
    have ht := ih (fun x hx => h x (List.mem_cons_of_mem _ hx))
    unfold expirations at ht ⊢
    rw [List.filterMap_cons]
    rcases he with he | he | he | he
    · subst he; exact ht
    · subst he; exact ht
    · subst he; exact ht
    · cases e <;> first | exact ht | exact absurd he (by simp [peer_event])

theorem expirations_cons (e : Event) (tr : List Event) :
    expirations (e :: tr) =
      (match e with
        | Event.schedule_expiration k t => [(k, t)]
        | _ => []) ++ expirations tr := by
  cases e <;> rfl

theorem expirations_nil : expirations [] = [] := rfl

theorem expirations_shape (tr m1 m2 : List Event) (c c2 : Prop) [Decidable c] [Decidable c2]
    (k k2 : List Nat) (t : Int) (hm1 : expirations m1 = []) (hm2 : expirations m2 = [])
    (hc : c ↔ c2) (hk : k = k2) :
    expirations (tr ++ m1 ++ m2 ++ (if c then [Event.schedule_expiration k t] else []) ++
      [Event.mutex_unlock]) = expirations tr ++ (if c2 then [(k2, t)] else []) := by
  subst hk
  simp only [expirations_append, hm1, hm2, List.append_nil]
  by_cases h : c
  · rw [if_pos h, if_pos (hc.1 h)]
    simp [expirations_cons, expirations_nil]
  · rw [if_neg h, if_neg (fun h2 => h (hc.2 h2))]
    simp [expirations_cons, expirations_nil]

theorem foreach_chunk_expirations (obj : cached_object_t) (c : Bool)
    (ols : Option (List shardcache_get_listener_t)) (d : List Nat) (n : Nat) :
    expirations (if c = true then
      foreach_listeners (arc_ops_fetch_from_peer_notify_listener obj d n) ols
      else (ols, [])).2 = [] := by
  cases c
  · rfl
  · simp only [if_true, foreach_listeners_chunk, expirations_map]

theorem foreach_complete_expirations (obj : cached_object_t) (c : Bool)
    (ols : Option (List shardcache_get_listener_t)) :
    expirations (if c = true then
      foreach_listeners (arc_ops_fetch_from_peer_notify_listener_complete obj) ols
      else (ols, [])).2 = [] := by
  cases c
  · rfl
  · simp only [if_true, foreach_listeners_complete, expirations_map]

theorem finish_some_expirations (env : fetch_env) (cache : shardcache_t)
    (obj : cached_object_t) (tr : List Event) (d : List Nat) (hd : obj.data = some d) :
    (arc_ops_fetch_finish env cache obj tr).rc = 0 ∧
    expirations (arc_ops_fetch_finish env cache obj tr).trace =
      expirations tr ++
      (if cache.expire_time > 0 ∧ cache.lazy_expiration = false ∧
          (arc_ops_fetch_finish env cache obj tr).obj.flags.evict = false ∧
          (arc_ops_fetch_finish env cache obj tr).obj.flags.evicted = false then
        [(obj.key, cache.expire_time)] else []) := by
  have hk := (finish_frame env cache obj tr).1
  revert hk
  unfold arc_ops_fetch_finish
  have hn : ¬ ((COBJ_UNSET_FLAG (COBJ_SET_FLAG { obj with ts := env.now } COBJ_FLAG_COMPLETE)
      COBJ_FLAG_FETCHING).data.isNone = true) := by
    simp [set_complete, unset_fetching, hd]
  dsimp only
  rw [if_neg hn]
  dsimp only
  intro hk
  refine ⟨rfl, expirations_shape _ _ _ _ _ _ _ _
    (foreach_chunk_expirations _ _ _ _ _) (foreach_complete_expirations _ _ _)
    ?_ hk⟩
  rw [check_evict, check_evicted, Bool.or_eq_false_iff]
  constructor
  · intro h
    exact ⟨h.1, h.2.2, h.2.1⟩
  · intro h
    exact ⟨h.1, h.2.2, h.2.1⟩

theorem finish_expirations (env : fetch_env) (cache : shardcache_t) (obj : cached_object_t)
    (tr : List Event) :
    expirations (arc_ops_fetch_finish env cache obj tr).trace =
      expirations tr ++
      (if (arc_ops_fetch_finish env cache obj tr).rc = 0 ∧ cache.expire_time > 0 ∧
          cache.lazy_expiration = false ∧
          (arc_ops_fetch_finish env cache obj tr).obj.flags.evict = false ∧
          (arc_ops_fetch_finish env cache obj tr).obj.flags.evicted = false then
        [(obj.key, cache.expire_time)] else []) := by
  cases hd : obj.data with
  | none =>
    have e := finish_none env cache obj tr hd
    have hrc : (arc_ops_fetch_finish env cache obj tr).rc ≠ 0 := by
      rw [e]; exact one_ne_zero
    rw [if_neg (fun h => hrc h.1), e]
    dsimp only
    split_ifs <;>
      simp [expirations_append, expirations_map, expirations_cons, expirations_nil]
  | some d =>
    have h := finish_some_expirations env cache obj tr d hd
    rw [h.2]
    simp only [h.1, true_and]

theorem local_expirations (env : fetch_env) (cache : shardcache_t) (obj : cached_object_t)
    (pre : List Event) (hp : expirations pre = []) :
    expirations (arc_ops_fetch_local env cache obj pre).trace =
      (if (arc_ops_fetch_local env cache obj pre).rc = 0 ∧ cache.expire_time > 0 ∧
          cache.lazy_expiration = false ∧
          (arc_ops_fetch_local env cache obj pre).obj.flags.evict = false ∧
          (arc_ops_fetch_local env cache obj pre).obj.flags.evicted = false then
        [(obj.key, cache.expire_time)] else []) := by
  cases hv : env.vobj with
  | some v =>
    rw [local_vobj env cache obj pre v hv, finish_expirations]
    simp [expirations_append, expirations_cons, expirations_nil, hp, inc_fetch_local]
  | none =>
    by_cases hs : cache.use_persistent_storage = true ∧ cache.storage_fetch = true
    · by_cases hr : env.storage_rc = -1
      · have e := local_storage_fail env cache obj pre hv hs hr
        have hrc : (arc_ops_fetch_local env cache obj pre).rc ≠ 0 := by
          rw [e]; exact fun h => absurd (show (-1 : Int) = 0 from h) (by decide)
        rw [if_neg (fun h => hrc h.1), e]
        simp [expirations_append, expirations_cons, expirations_nil, hp]
      · rw [local_storage_ok env cache obj pre hv hs hr, finish_expirations]
        simp [expirations_append, expirations_cons, expirations_nil, hp, inc_fetch_local]
    · rw [local_no_storage env cache obj pre hv hs, finish_expirations]
      simp [expirations_append, expirations_cons, expirations_nil, hp, inc_fetch_local]

/-! ## Counters of `arc_ops_fetch` -/

theorem fetch_counters (env : fetch_env) (cache : shardcache_t) (obj : cached_object_t) :
    (arc_ops_fetch env cache obj).cache.cnt.cache_misses = cache.cnt.cache_misses + 1 ∧
    (piggybacks obj →
      (arc_ops_fetch env cache obj).cache.cnt.fetch_local = cache.cnt.fetch_local ∧
      (arc_ops_fetch env cache obj).cache.cnt.fetch_remote = cache.cnt.fetch_remote) ∧
    (¬ piggybacks obj →
      (Event.ht_get_deep_copy ∈ (arc_ops_fetch env cache obj).trace ∧
        (arc_ops_fetch env cache obj).cache.cnt.fetch_local = cache.cnt.fetch_local + 1 ∧
        (arc_ops_fetch env cache obj).cache.cnt.fetch_remote = cache.cnt.fetch_remote) ∨
      (Event.ht_get_deep_copy ∉ (arc_ops_fetch env cache obj).trace ∧
        (arc_ops_fetch env cache obj).cache.cnt.fetch_local = cache.cnt.fetch_local ∧
        (arc_ops_fetch env cache obj).cache.cnt.fetch_remote = cache.cnt.fetch_remote + 1)) := by
  by_cases hg : piggybacks obj
  · rw [fetch_piggy env cache obj hg]
    exact ⟨rfl, fun _ => ⟨rfl, rfl⟩, fun h => absurd hg h⟩
  · have hloc : ∀ (o : cached_object_t) (pre : List Event),
        arc_ops_fetch env cache obj = arc_ops_fetch_local env (inc_cache_misses cache) o pre →
        (arc_ops_fetch env cache obj).cache.cnt.cache_misses = cache.cnt.cache_misses + 1 ∧
        Event.ht_get_deep_copy ∈ (arc_ops_fetch env cache obj).trace ∧
        (arc_ops_fetch env cache obj).cache.cnt.fetch_local = cache.cnt.fetch_local + 1 ∧
        (arc_ops_fetch env cache obj).cache.cnt.fetch_remote = cache.cnt.fetch_remote := by
      intro o pre he
      have hc := local_counters env (inc_cache_misses cache) o pre
      rw [he]
      exact ⟨hc.1, local_lookup_mem _ _ _ _, hc.2.1, hc.2.2.1⟩
    have hrem : Event.ht_get_deep_copy ∉ ([Event.mutex_lock, Event.test_ownership] ++
        (arc_ops_fetch_remote env (inc_cache_misses cache)
          (COBJ_UNSET_FLAG obj COBJ_FLAG_EVICTED)).trace ++ [Event.mutex_unlock]) := by
      intro hm
      simp only [List.mem_append, List.mem_cons, List.mem_singleton, List.not_mem_nil,
        or_false] at hm
      rcases hm with (hm | hm) | hm
      · rcases hm with hm | hm <;> exact absurd hm (by decide)
      · exact absurd (remote_events _ _ _ _ hm) (by decide)
      · exact absurd hm (by decide)
    by_cases ho : env.owner = 0
    · cases hd : (arc_ops_fetch_remote env (inc_cache_misses cache)
          (COBJ_UNSET_FLAG obj COBJ_FLAG_EVICTED)).done
      · have h := hloc _ _ (fetch_remote_local env cache obj hg ho hd)
        exact ⟨h.1, fun h2 => absurd h2 hg, fun _ => Or.inl h.2⟩
      · by_cases hr : (arc_ops_fetch_remote env (inc_cache_misses cache)
            (COBJ_UNSET_FLAG obj COBJ_FLAG_EVICTED)).ret = 0
        · rw [fetch_remote_ok env cache obj hg ho hd hr]
          exact ⟨rfl, fun h2 => absurd h2 hg, fun _ => Or.inr ⟨hrem, rfl, rfl⟩⟩
        · rw [fetch_remote_err env cache obj hg ho hd hr]
          exact ⟨rfl, fun h2 => absurd h2 hg, fun _ => Or.inr ⟨hrem, rfl, rfl⟩⟩
    · have h := hloc _ _ (fetch_owner env cache obj hg ho)
      exact ⟨h.1, fun h2 => absurd h2 hg, fun _ => Or.inl h.2⟩

theorem fetch_times_piggy (env : fetch_env) (o : cached_object_t) (hp : piggybacks o)
    (n : Nat) :
    ∀ (c : shardcache_t) (tr : List Event),
      (fetch_times env n (c, o, tr)).2.1 = o ∧
      (fetch_times env n (c, o, tr)).1.cnt.cache_misses = c.cnt.cache_misses + n ∧
      (fetch_times env n (c, o, tr)).1.cnt.fetch_remote = c.cnt.fetch_remote ∧
      (fetch_times env n (c, o, tr)).1.cnt.fetch_local = c.cnt.fetch_local ∧
      peer_fetches (fetch_times env n (c, o, tr)).2.2 = peer_fetches tr ∧
      async_issued (fetch_times env n (c, o, tr)).2.2 = async_issued tr := by
  induction n with
  | zero =>
    intro c tr
    exact ⟨rfl, rfl, rfl, rfl, rfl, rfl⟩
  | succ n ih =>
    intro c tr
    have e : fetch_times env (n + 1) (c, o, tr) =
        fetch_times env n (inc_cache_misses c, o,
          tr ++ [Event.mutex_lock, Event.mutex_unlock]) := by
      rw [fetch_times]
      dsimp only
      rw [fetch_piggy env c o hp]
    rw [e]
    obtain ⟨h1, h2, h3, h4, h5, h6⟩ :=
      ih (inc_cache_misses c) (tr ++ [Event.mutex_lock, Event.mutex_unlock])
    refine ⟨h1, ?_, h3, h4, ?_, ?_⟩
    · rw [h2]
      simp only [inc_cache_misses]
      omega
    · rw [h5]
      simp [peer_fetches_append, peer_fetches_cons, peer_fetches_nil]
    · rw [h6]
      simp [async_issued_append, async_issued_cons, async_issued_nil]

theorem fetch_first_async (env : fetch_env) (cache : shardcache_t) (key : List Nat)
    (res : Bool) (ho : env.owner = 0) (hrc : env.peer1.rc = 0) :
    piggybacks (arc_ops_fetch env cache (arc_ops_create key true res)).obj ∧
    (arc_ops_fetch env cache (arc_ops_create key true res)).cache =
      inc_fetch_remote (inc_cache_misses cache) ∧
    peer_fetches (arc_ops_fetch env cache (arc_ops_create key true res)).trace = 1 ∧
    async_issued (arc_ops_fetch env cache (arc_ops_create key true res)).trace = 1 := by
  have hg : ¬ piggybacks (arc_ops_create key true res) := by
    simp [piggybacks, arc_ops_create, unset_complete, set_async, cobj_flags.zero]
  have ha : (COBJ_UNSET_FLAG (arc_ops_create key true res) COBJ_FLAG_EVICTED).flags.async =
      true := by
    simp [arc_ops_create, unset_complete, set_async, unset_evicted, cobj_flags.zero]
  have hs := fetch_from_peer_async_ok (inc_cache_misses cache)
    (COBJ_UNSET_FLAG (arc_ops_create key true res) COBJ_FLAG_EVICTED) [] env.peer1 ha hrc
  have h1 : (arc_ops_fetch_from_peer (inc_cache_misses cache)
      (COBJ_UNSET_FLAG (arc_ops_create key true res) COBJ_FLAG_EVICTED) (some [])
      env.peer1).1 ≠ -1 := by
    rw [hs]; exact fun h => absurd (show (0 : Int) = -1 from h) (by decide)
  have hr := remote_first_ok env (inc_cache_misses cache)
    (COBJ_UNSET_FLAG (arc_ops_create key true res) COBJ_FLAG_EVICTED) h1
  rw [hs] at hr
  have hd : (arc_ops_fetch_remote env (inc_cache_misses cache)
      (COBJ_UNSET_FLAG (arc_ops_create key true res) COBJ_FLAG_EVICTED)).done = true := by
    rw [hr]
  have hret : (arc_ops_fetch_remote env (inc_cache_misses cache)
      (COBJ_UNSET_FLAG (arc_ops_create key true res) COBJ_FLAG_EVICTED)).ret = 0 := by
    rw [hr]
  rw [fetch_remote_ok env cache _ hg ho hd hret, hr]
  refine ⟨Or.inr ⟨ha, rfl⟩, rfl, ?_, ?_⟩
  · simp [peer_fetches_append, peer_fetches_cons, peer_fetches_nil]
  · simp [async_issued_append, async_issued_cons, async_issued_nil]

/-! ## Runs of the callback over a stream of chunks -/

theorem cb_run_append (fd : Int) (key : List Nat) (a b : List (List Nat × Int)) :
    ∀ (cache : shardcache_t) (obj : cached_object_t),
      cb_run fd key cache obj (a ++ b) =
        ((cb_run fd key (cb_run fd key cache obj a).1 (cb_run fd key cache obj a).2.1 b).1,
         (cb_run fd key (cb_run fd key cache obj a).1 (cb_run fd key cache obj a).2.1 b).2.1,
         (cb_run fd key cache obj a).2.2 ++
           (cb_run fd key (cb_run fd key cache obj a).1 (cb_run fd key cache obj a).2.1 b).2.2) := by
  induction a with
  | nil => intro cache obj; rfl
  | cons x xs ih =>
    intro cache obj
    obtain ⟨d, e⟩ := x
    simp only [List.cons_append, cb_run, List.append_eq]
    rw [ih]
    simp only [List.append_assoc]

theorem cb_run_single (fd : Int) (key : List Nat) (cache : shardcache_t)
    (obj : cached_object_t) (d : List Nat) (e : Int) :
    cb_run fd key cache obj [(d, e)] =
      ((arc_ops_fetch_from_peer_async_cb cache obj fd key d e).cache,
       (arc_ops_fetch_from_peer_async_cb cache obj fd key d e).obj,
       (arc_ops_fetch_from_peer_async_cb cache obj fd key d e).trace) := by
  simp only [cb_run, List.append_nil]

theorem append_chunks_dlen (cs : List (List Nat)) :
    ∀ d : Option (List Nat),
      ((append_chunks d cs).getD []).length = (d.getD []).length + chunks_len cs := by
  induction cs with
  | nil => intro d; simp [append_chunks, chunks_len]
  | cons c cs ih =>
    intro d
    rw [append_chunks, ih]
    simp [chunks_len, Nat.add_assoc]

theorem cb_run_chunks (fd : Int) (key : List Nat) (cache : shardcache_t)
    (cs : List (List Nat)) (hcs : ∀ c ∈ cs, c ≠ []) :
    ∀ (obj : cached_object_t) (ls : List shardcache_get_listener_t),
      obj.res = true → obj.listeners = some ls →
      cb_run fd key cache obj (chunk_calls cs) =
        (cache,
         { obj with data := append_chunks obj.data cs
                    listeners := some (survivors obj.key cs ls) },
         chunks_trace obj.key cs ls) := by
  induction cs with
  | nil =>
    intro obj ls _ hl
    simp only [chunk_calls, List.map_nil, cb_run, append_chunks, survivors, chunks_trace]
    rw [← hl]
  | cons c cs ih =>
    intro obj ls hres hl
    have hc : c ≠ [] := hcs c (List.mem_cons_self _ _)
    have ih2 := ih (fun x hx => hcs x (List.mem_cons_of_mem _ hx))
    have e := cb_chunk cache obj fd key c ls hres hl hc
    simp only [chunk_calls, List.map_cons, cb_run]
    rw [e]
    dsimp only
    have ih3 := ih2 { obj with
      data := some (obj.data.getD [] ++ c)
      listeners := some (ls.filterMap (after_chunk (chunk_args obj.key c))) }
      (ls.filterMap (after_chunk (chunk_args obj.key c))) hres rfl
    simp only [chunk_calls] at ih3
    rw [ih3]
    simp only [append_chunks, survivors, chunks_trace, List.append_assoc]

theorem survivors_mem (key : List Nat) (i : Nat) (cs : List (List Nat)) :
    ∀ ls : List shardcache_get_listener_t,
      (∃ l1, l1 ∈ ls ∧ l1.id = i ∧ always_ok l1) →
      ∃ l2, l2 ∈ survivors key cs ls ∧ l2.id = i ∧ always_ok l2 := by
  induction cs with
  | nil => intro ls h; exact h
  | cons c cs ih =>
    intro ls h
    obtain ⟨l1, hm, hid, hok⟩ := h
    obtain ⟨l2, hm2, hid2, hok2⟩ := filterMap_after_chunk_mem (chunk_args key c) ls l1 hm hok
    exact ih _ ⟨l2, hm2, hid2.trans hid, hok2⟩

theorem survivors_nodup (key : List Nat) (cs : List (List Nat)) :
    ∀ ls : List shardcache_get_listener_t,
      (ls.map (fun x => x.id)).Nodup → ((survivors key cs ls).map (fun x => x.id)).Nodup := by
  induction cs with
  | nil => intro ls h; exact h
  | cons c cs ih =>
    intro ls h
    exact ih _ (List.Nodup.sublist (filterMap_after_chunk_ids (chunk_args key c) ls) h)

theorem survivors_all_ok (key : List Nat) (cs : List (List Nat)) :
    ∀ ls : List shardcache_get_listener_t,
      (∀ l ∈ ls, always_ok l) →
      (survivors key cs ls).map (fun x => x.id) = ls.map (fun x => x.id) ∧
      ∀ l ∈ survivors key cs ls, always_ok l := by
  induction cs with
  | nil => intro ls h; exact ⟨rfl, h⟩
  | cons c cs ih =>
    intro ls h
    have h1 := filterMap_after_chunk_all_ok (chunk_args key c) ls h
    have h2 := ih _ h1.2
    exact ⟨h2.1.trans h1.1, h2.2⟩

theorem received_chunks_trace (key : List Nat) (i : Nat) (cs : List (List Nat)) :
    ∀ ls : List shardcache_get_listener_t,
      (ls.map (fun x => x.id)).Nodup →
      (∃ l1, l1 ∈ ls ∧ l1.id = i ∧ always_ok l1) →
      received i (chunks_trace key cs ls) = cs.map (chunk_args key) := by
  induction cs with
  | nil => intro ls _ _; rfl
  | cons c cs ih =>
    intro ls hnd h
    obtain ⟨l1, hm, hid, hok⟩ := h
    obtain ⟨l2, hm2, hid2, hok2⟩ := filterMap_after_chunk_mem (chunk_args key c) ls l1 hm hok
    have ih2 := ih (ls.filterMap (after_chunk (chunk_args key c)))
      (List.Nodup.sublist (filterMap_after_chunk_ids (chunk_args key c) ls) hnd)
      ⟨l2, hm2, hid2.trans hid, hok2⟩
    have hr := received_map l1 ls (chunk_args key c) hnd hm
    rw [hid] at hr
    simp only [chunks_trace, received_append, received_cons, received_nil, hr, ih2,
      List.map_cons, List.nil_append, List.append_nil, List.singleton_append]

theorem listener_calls_ids (ls : List shardcache_get_listener_t) (a : cb_args) :
    listener_calls (ls.map (fun l => Event.listener_cb l.id a)) =
      (ls.map (fun x => x.id)).map (fun i => (i, a)) := by
  rw [listener_calls_map, List.map_map]
  rfl

theorem listener_calls_chunks_trace (key : List Nat) (cs : List (List Nat)) :
    ∀ ls : List shardcache_get_listener_t,
      (∀ l ∈ ls, always_ok l) →
      listener_calls (chunks_trace key cs ls) =
        (cs.map (fun c => (ls.map (fun x => x.id)).map (fun i => (i, chunk_args key c)))).flatten := by
  induction cs with
  | nil => intro ls _; rfl
  | cons c cs ih =>
    intro ls h
    have h1 := filterMap_after_chunk_all_ok (chunk_args key c) ls h
    have ih2 := ih _ h1.2
    rw [h1.1] at ih2
    simp only [chunks_trace, listener_calls_append, listener_calls_cons, listener_calls_nil,
      listener_calls_ids, ih2, List.map_cons, List.flatten_cons, List.nil_append,
      List.append_nil]

/-! ## What the listeners receive from the terminating callback -/

theorem no_listener_events (tr : List Event)
    (h : ∀ e ∈ tr, ∀ (j : Nat) (a : cb_args), e ≠ Event.listener_cb j a) (i : Nat) :
    received i tr = [] ∧ listener_calls tr = [] := by
  induction tr with
  | nil => exact ⟨rfl, rfl⟩
  | cons e tr ih =>
    have ih2 := ih (fun x hx => h x (List.mem_cons_of_mem _ hx))
    have he := h e (List.mem_cons_self _ _)
    rw [received_cons, listener_calls_cons, ih2.1, ih2.2]
    cases e <;> first | exact ⟨rfl, rfl⟩ | exact absurd rfl (he _ _)

theorem async_cb_complete_silent (cache : shardcache_t) (obj : cached_object_t)
    (key : List Nat) (error : Int) (n : Int) (drop : Bool) (i : Nat) :
    received i (async_cb_complete cache obj key error n drop) = [] ∧
    listener_calls (async_cb_complete cache obj key error n drop) = [] := by
  apply no_listener_events
  intro e he j a
  rcases async_cb_complete_events cache obj key error n drop e he with h | h | h <;>
    rw [h] <;> exact Event.noConfusion

theorem fd_events_silent (fd : Int) (i : Nat) :
    received i ((if fd > 0 then [Event.iomux_remove fd] else []) ++
      [Event.release_connection fd]) = [] ∧
    listener_calls ((if fd > 0 then [Event.iomux_remove fd] else []) ++
      [Event.release_connection fd]) = [] := by
  split_ifs <;> exact ⟨rfl, rfl⟩

theorem received_eos (cache : shardcache_t) (obj : cached_object_t) (fd : Int)
    (key : List Nat) (ls : List shardcache_get_listener_t) (i : Nat)
    (hres : obj.res = true) (hl : obj.listeners = some ls)
    (hnd : (ls.map (fun x => x.id)).Nodup) (hmem : ∃ l1, l1 ∈ ls ∧ l1.id = i) :
    received i (arc_ops_fetch_from_peer_async_cb cache obj fd key [] 0).trace =
      [complete_args obj.key obj.dlen obj.ts] := by
  obtain ⟨l1, hm, rfl⟩ := hmem
  rw [cb_eos cache obj fd key ls hres hl]
  simp only [received_append, received_cons, received_nil, received_map l1 ls _ hnd hm,
    (async_cb_complete_silent _ _ _ _ _ _ _).1, (fd_events_silent fd _).1, List.nil_append,
    List.append_nil]

theorem received_error (cache : shardcache_t) (obj : cached_object_t) (fd : Int)
    (key data : List Nat) (error : Int) (ls : List shardcache_get_listener_t) (i : Nat)
    (hres : obj.res = true) (hl : obj.listeners = some ls) (he : error ≠ 0)
    (hnd : (ls.map (fun x => x.id)).Nodup) (hmem : ∃ l1, l1 ∈ ls ∧ l1.id = i) :
    received i (arc_ops_fetch_from_peer_async_cb cache obj fd key data error).trace =
      [error_args obj.key] := by
  obtain ⟨l1, hm, rfl⟩ := hmem
  rw [cb_error cache obj fd key data error ls hres hl he]
  simp only [received_append, received_cons, received_nil, received_map l1 ls _ hnd hm,
    List.nil_append, List.append_nil]

theorem listener_calls_eos (cache : shardcache_t) (obj : cached_object_t) (fd : Int)
    (key : List Nat) (ls : List shardcache_get_listener_t)
    (hres : obj.res = true) (hl : obj.listeners = some ls) :
    listener_calls (arc_ops_fetch_from_peer_async_cb cache obj fd key [] 0).trace =
      (ls.map (fun x => x.id)).map (fun i => (i, complete_args obj.key obj.dlen obj.ts)) := by
  rw [cb_eos cache obj fd key ls hres hl]
  simp only [listener_calls_append, listener_calls_cons, listener_calls_nil,
    listener_calls_ids, (async_cb_complete_silent _ _ _ _ _ _ 0).2, (fd_events_silent fd 0).2,
    List.nil_append, List.append_nil]

theorem eos_listeners (cache : shardcache_t) (obj : cached_object_t) (fd : Int)
    (key : List Nat) (ls : List shardcache_get_listener_t)
    (hres : obj.res = true) (hl : obj.listeners = some ls) :
    (arc_ops_fetch_from_peer_async_cb cache obj fd key [] 0).obj.listeners = some [] := by
  rw [cb_eos cache obj fd key ls hres hl]
  dsimp only
  rw [async_cb_evict_obj cache _ rfl]
  split_ifs <;> rfl

theorem error_listeners (cache : shardcache_t) (obj : cached_object_t) (fd : Int)
    (key data : List Nat) (error : Int) (ls : List shardcache_get_listener_t)
    (hres : obj.res = true) (hl : obj.listeners = some ls) (he : error ≠ 0) :
    (arc_ops_fetch_from_peer_async_cb cache obj fd key data error).obj.listeners = some [] := by
  rw [cb_error cache obj fd key data error ls hres hl he]
  dsimp only
  rw [async_cb_evict_obj cache _ rfl]
  split_ifs <;> rfl

theorem size_to_int_small (n : Nat) (h : n < 2 ^ 31) : size_to_int n = n := by
  unfold size_to_int
  have h2 : (n + 2 ^ 31) % 2 ^ 32 = n + 2 ^ 31 := Nat.mod_eq_of_lt (by omega)
  rw [h2]
  push_cast
  omega

/-! ## A stream of chunks followed by its terminator -/

theorem dlen_getD (obj : cached_object_t) : obj.dlen = (obj.data.getD []).length := by
  unfold cached_object_t.dlen
  cases obj.data <;> rfl

theorem cb_run_stream (fd : Int) (cache : shardcache_t) (obj : cached_object_t)
    (cs : List (List Nat)) (ls : List shardcache_get_listener_t) (d : List Nat) (e : Int)
    (hres : obj.res = true) (hl : obj.listeners = some ls) (hcs : ∀ c ∈ cs, c ≠ []) :
    cb_run fd obj.key cache obj (chunk_calls cs ++ [(d, e)]) =
      ((arc_ops_fetch_from_peer_async_cb cache
          { obj with data := append_chunks obj.data cs
                     listeners := some (survivors obj.key cs ls) } fd obj.key d e).cache,
       (arc_ops_fetch_from_peer_async_cb cache
          { obj with data := append_chunks obj.data cs
                     listeners := some (survivors obj.key cs ls) } fd obj.key d e).obj,
       chunks_trace obj.key cs ls ++
       (arc_ops_fetch_from_peer_async_cb cache
          { obj with data := append_chunks obj.data cs
                     listeners := some (survivors obj.key cs ls) } fd obj.key d e).trace) := by
  rw [cb_run_append, cb_run_chunks fd obj.key cache cs hcs obj ls hres hl]
  dsimp only
  rw [cb_run_single]

theorem stream_dlen (obj : cached_object_t) (cs : List (List Nat))
    (ls : List shardcache_get_listener_t) :
    ({ obj with data := append_chunks obj.data cs
                listeners := some ls } : cached_object_t).dlen = obj.dlen + chunks_len cs := by
  rw [dlen_getD, dlen_getD]
  exact append_chunks_dlen cs obj.data

/-! ## Size updates of the callback -/

theorem size_updates_chunks_trace (key : List Nat) (cs : List (List Nat)) :
    ∀ ls : List shardcache_get_listener_t, size_updates (chunks_trace key cs ls) = [] := by
  induction cs with
  | nil => intro ls; rfl
  | cons c cs ih =>
    intro ls
    simp only [chunks_trace, size_updates_append, size_updates_cons, size_updates_nil,
      size_updates_map, ih, List.append_nil]

theorem size_updates_complete_keep (cache : shardcache_t) (obj : cached_object_t)
    (key : List Nat) (error : Int) (n : Int) (hn : n ≠ 0) :
    size_updates (async_cb_complete cache obj key error n false) = [(key, n)] := by
  rw [async_cb_complete_keep _ _ _ _ _ hn]
  split_ifs <;> simp [size_updates_append, size_updates_cons, size_updates_nil]

theorem size_updates_eos (cache : shardcache_t) (obj : cached_object_t) (fd : Int)
    (key : List Nat) (ls : List shardcache_get_listener_t)
    (hres : obj.res = true) (hl : obj.listeners = some ls) (hdrop : obj.flags.drop = false)
    (hpos : 0 < obj.dlen) (hlt : obj.dlen < 2 ^ 31) :
    size_updates (arc_ops_fetch_from_peer_async_cb cache obj fd key [] 0).trace =
      [(key, (obj.dlen : Int))] := by
  have hn : (obj.dlen : Int) ≠ 0 := by
    exact_mod_cast Nat.pos_iff_ne_zero.1 hpos
  rw [cb_eos cache obj fd key ls hres hl]
  simp only [hdrop, Bool.and_false, size_to_int_small _ hlt,
    size_updates_complete_keep _ _ _ _ _ hn, size_updates_append, size_updates_map,
    size_updates_cons, size_updates_nil, List.nil_append, List.append_nil]
  split_ifs <;> simp [size_updates_cons, size_updates_nil]

/-! ## `strncmp` bounded by the length of its first argument -/

theorem strncmp_begins (a : List Nat) (h0 : ∀ x ∈ a, x ≠ 0) :
    ∀ b : List Nat, strncmp a b a.length = 0 ↔ a <+: b := by
  induction a with
  | nil =>
    intro b
    simp [strncmp]
  | cons x xs ih =>
    intro b
    have hx : x ≠ 0 := h0 x (List.mem_cons_self _ _)
    have ih2 := ih (fun y hy => h0 y (List.mem_cons_of_mem _ hy))
    cases b with
    | nil =>
      simp only [List.length_cons, strncmp, List.headD_cons, List.headD_nil, ne_eq, hx,
        not_false_eq_true, if_true]
      constructor
      · intro h
        exact absurd (by omega : x = 0) hx
      · intro h
        simp at h
    | cons y ys =>
      simp only [List.length_cons, strncmp, List.headD_cons, List.tail_cons, ne_eq]
      by_cases hxy : x = y
      · subst hxy
        simp only [not_true_eq_false, if_false, hx]
        rw [ih2 ys]
        constructor
        · intro h
          exact (List.prefix_cons_inj x).2 h
        · intro h
          exact (List.prefix_cons_inj x).1 h
      · simp only [hxy, not_false_eq_true, if_true]
        constructor
        · intro h
          exact absurd (by omega : x = y) hxy
        · intro h
          exact absurd (List.cons_prefix_cons.1 h).1 hxy

theorem scan_find (node_name : List Nat) (name_len : Nat) :
    ∀ (ss : List shardcache_node_t) (i : Nat),
      (∀ j, select_node_scan node_name name_len ss i = some j → i ≤ j) ∧
      (select_node_scan node_name name_len ss i).bind (fun j => ss.get? (j - i)) =
        ss.find? (fun s => decide (strncmp node_name s.label name_len = 0)) := by
  intro ss
  induction ss with
  | nil =>
    intro i
    exact ⟨fun j h => by simp [select_node_scan] at h, rfl⟩
  | cons s ss ih =>
    intro i
    by_cases h : strncmp node_name s.label name_len = 0
    · have e1 : select_node_scan node_name name_len (s :: ss) i = some i := by
        rw [select_node_scan, if_pos h]
      have e2 : (s :: ss).find? (fun s => decide (strncmp node_name s.label name_len = 0)) =
          some s := by
        rw [List.find?_cons, decide_eq_true h]
      rw [e1, e2]
      refine ⟨fun j hj => ?_, ?_⟩
      · rw [Option.some.injEq] at hj
        omega
      · rw [Option.some_bind, Nat.sub_self]
        rfl
    · have e1 : select_node_scan node_name name_len (s :: ss) i =
          select_node_scan node_name name_len ss (i + 1) := by
        rw [select_node_scan, if_neg h]
      have e2 : (s :: ss).find? (fun s => decide (strncmp node_name s.label name_len = 0)) =
          ss.find? (fun s => decide (strncmp node_name s.label name_len = 0)) := by
        rw [List.find?_cons, decide_eq_false h]
      obtain ⟨h1, h2⟩ := ih (i + 1)
      rw [e1, e2]
      refine ⟨fun j hj => by have := h1 j hj; omega, ?_⟩
      rw [← h2]
      cases hs : select_node_scan node_name name_len ss (i + 1) with
      | none => rfl
      | some j =>
        have hj := h1 j hs
        have e : j - i = (j - (i + 1)) + 1 := by omega
        rw [Option.some_bind, Option.some_bind, e, List.get?_cons_succ]

theorem scan_address (c : shardcache_client_t) (node_name : List Nat) (name_len : Nat) :
    node_address c (select_node_scan node_name name_len c.shards 0) =
      (c.shards.find? (fun s => decide (strncmp node_name s.label name_len = 0))).map
        (fun s => s.address) := by
  have h := (scan_find node_name name_len c.shards 0).2
  rw [← h]
  unfold node_address
  cases select_node_scan node_name name_len c.shards 0 with
  | none => rfl
  | some j => simp

/-! ## The retry loop of `select_node` -/

theorem pick_other_spec (n : Nat) (prev : Option Nat) :
    ∀ (rs : List Nat) (p : Nat × List Nat), pick_other n prev rs = some p →
      some p.1 ≠ prev ∧ p.2.length < rs.length ∧ (0 < n → p.1 < n) := by
  intro rs
  induction rs with
  | nil => intro p h; simp [pick_other] at h
  | cons r rs ih =>
    intro p h
    by_cases hr : some (r % n) = prev
    · rw [pick_other, if_pos hr] at h
      obtain ⟨h1, h2, h3⟩ := ih p h
      exact ⟨h1, by simp only [List.length_cons]; omega, h3⟩
    · rw [pick_other, if_neg hr, Option.some.injEq] at h
      subst h
      exact ⟨hr, by simp, fun hn => Nat.mod_lt _ hn⟩

theorem pick_other_head (n : Nat) (prev : Option Nat) (r : Nat) (rs : List Nat)
    (h : some (r % n) ≠ prev) : pick_other n prev (r :: rs) = some (r % n, rs) := by
  rw [pick_other, if_neg h]

theorem select_node_connect_spec (c : shardcache_client_t)
    (conn : Nat → Option (List Nat) → Int)
    (hr : c.use_random_node = true) (hn : 1 < c.shards.length) :
    ∀ (retries k : Nat) (node cur : Option Nat) (rs : List Nat) (r : select_result),
      select_node_connect c conn retries k node cur rs = some r →
      r.attempts.length ≤ retries + 1 ∧
      r.attempts.head? = some (node, conn k (node_address c node)) ∧
      List.Chain' (fun a b => a.1 ≠ b.1) r.attempts ∧
      (∀ a ∈ r.attempts.dropLast, a.2 < 0) ∧
      r.fd = r.attempts.getLast?.map (fun a => a.2) ∧
      ((∃ f, r.fd = some f ∧ 0 ≤ f) ∨ r.attempts.length = retries + 1) ∧
      r.attempts.tail.map (fun a => a.1) <+: r.chosen.map some ∧
      r.current_node = (match r.chosen.getLast? with
        | some x => some x
        | none => cur) ∧
      ((∃ f, r.fd = some f ∧ f < 0) → r.chosen.length = r.attempts.length) := by
  intro retries
  induction retries with
  | zero =>
    intro k node cur rs r h
    rw [select_node_connect] at h
    by_cases hf : conn k (node_address c node) < 0
    · rw [if_pos ⟨hf, hr, hn⟩] at h
      cases hp : pick_other c.shards.length node rs with
      | none => rw [hp] at h; exact absurd h (by simp)
      | some p =>
        rw [hp] at h
        simp only [Option.some.injEq] at h
        subst h
        refine ⟨by simp, rfl, by simp, by simp, rfl, Or.inr rfl, by simp, rfl, fun _ => rfl⟩
    · rw [if_neg (fun h3 => hf h3.1)] at h
      simp only [Option.some.injEq] at h
      subst h
      refine ⟨by simp, rfl, by simp, by simp, rfl, Or.inl ⟨_, rfl, by omega⟩, by simp, rfl,
        ?_⟩
      rintro ⟨f, h1, h2⟩
      simp only [Option.some.injEq] at h1
      omega
  | succ n ih =>
    intro k node cur rs r h
    rw [select_node_connect] at h
    by_cases hf : conn k (node_address c node) < 0
    · rw [if_pos hf, if_pos ⟨hr, hn⟩] at h
      cases hp : pick_other c.shards.length node rs with
      | none => rw [hp] at h; exact absurd h (by simp)
      | some p =>
        rw [hp] at h
        simp only at h
        cases hrec : select_node_connect c conn n (k + 1) (some p.1) (some p.1) p.2 with
        | none => rw [hrec] at h; exact absurd h (by simp)
        | some r1 =>
          rw [hrec, Option.map_some', Option.some.injEq] at h
          subst h
          obtain ⟨i1, i2, i3, i4, i5, i6, i7, i8, i9⟩ := ih (k + 1) (some p.1) (some p.1) p.2 r1 hrec
          have hne := (pick_other_spec _ _ rs p hp).1
          obtain ⟨a1, t1, ha⟩ : ∃ a1 t1, r1.attempts = a1 :: t1 := by
            cases hx : r1.attempts with
            | nil => rw [hx] at i2; exact absurd i2 (by simp)
            | cons a1 t1 => exact ⟨a1, t1, rfl⟩
          rw [ha] at i1 i2 i3 i4 i5 i6 i7 i9
          simp only [List.head?_cons, Option.some.injEq] at i2
          simp only [ha]
          refine ⟨?_, rfl, ?_, ?_, ?_, ?_, ?_, ?_, ?_⟩
          · simp only [List.length_cons] at i1 ⊢
            omega
          · refine List.Chain'.cons ?_ i3
            rw [i2]
            exact fun heq => hne heq.symm
          · intro a hmem
            rw [List.dropLast_cons₂, List.mem_cons] at hmem
            rcases hmem with rfl | hmem
            · exact hf
            · exact i4 a hmem
          · rw [i5]
            rfl
          · rcases i6 with ⟨f, h1, h2⟩ | h1
            · exact Or.inl ⟨f, h1, h2⟩
            · right
              simp only [List.length_cons] at h1 ⊢
              omega
          · simp only [List.tail_cons, List.map_cons] at i7 ⊢
            rw [i2]
            exact (List.prefix_cons_inj _).2 i7
          · rw [i8]
            cases hc : r1.chosen with
            | nil => rfl
            | cons x xs =>
              rw [List.getLast?_cons_cons]
              have hy : (x :: xs).getLast? = some ((x :: xs).getLast (List.cons_ne_nil _ _)) :=
                List.getLast?_eq_getLast _ _
              rw [hy]
          · intro hfail
            have := i9 hfail
            simp only [List.length_cons] at this ⊢
            omega
    · rw [if_neg hf] at h
      simp only [Option.some.injEq] at h
      subst h
      refine ⟨by simp, rfl, by simp, by simp, rfl, Or.inl ⟨_, rfl, by omega⟩, by simp, rfl,
        ?_⟩
      rintro ⟨f, h1, h2⟩
      simp only [Option.some.injEq] at h1
      omega

theorem select_node_connect_total (c : shardcache_client_t)
    (conn : Nat → Option (List Nat) → Int) :
    ∀ (retries k : Nat) (node cur : Option Nat) (rs : List Nat),
      List.Chain (fun a b => a ≠ b) node (rs.map (fun x => some (x % c.shards.length))) →
      retries + 1 ≤ rs.length →
      (select_node_connect c conn retries k node cur rs).isSome = true := by
  intro retries
  induction retries with
  | zero =>
    intro k node cur rs hch hlen
    cases rs with
    | nil => simp at hlen
    | cons x xs =>
      simp only [List.map_cons, List.chain_cons] at hch
      rw [select_node_connect, pick_other_head _ _ _ _ (fun h => hch.1 h.symm)]
      split_ifs <;> rfl
  | succ n ih =>
    intro k node cur rs hch hlen
    cases rs with
    | nil => simp at hlen
    | cons x xs =>
      simp only [List.map_cons, List.chain_cons] at hch
      simp only [List.length_cons] at hlen
      rw [select_node_connect, pick_other_head _ _ _ _ (fun h => hch.1 h.symm)]
      have h1 := ih (k + 1) (some (x % c.shards.length)) (some (x % c.shards.length)) xs
        hch.2 (by omega)
      have h2 := ih (k + 1) node cur (x :: xs)
        (by simp only [List.map_cons, List.chain_cons]; exact hch)
        (by simp only [List.length_cons]; omega)
      split_ifs
      · simp only [Option.isSome_map']
        exact h1
      · simp only [Option.isSome_map']
        exact h2
      · rfl

/-! ## Grouping of the items by owner -/

theorem push_item_tags (name : List Nat) (item : shc_multi_item_t) :
    ∀ pools : List (List Nat × List shc_multi_item_t),
      (push_item name item pools).map (fun b => b.1) =
        (if name ∈ pools.map (fun b => b.1) then pools.map (fun b => b.1)
         else pools.map (fun b => b.1) ++ [name]) := by
  intro pools
  induction pools with
  | nil => simp [push_item]
  | cons b rest ih =>
    obtain ⟨t, xs⟩ := b
    by_cases ht : t = name
    · subst ht
      simp [push_item]
    · have hne : ¬ name = t := fun h => ht h.symm
      simp only [push_item, if_neg ht, List.map_cons, ih, List.mem_cons, hne, false_or]
      split_ifs <;> simp

theorem push_item_mem (name : List Nat) (item : shc_multi_item_t) :
    ∀ (pools : List (List Nat × List shc_multi_item_t)) (b : List Nat × List shc_multi_item_t),
      (pools.map (fun x => x.1)).Nodup →
      b ∈ push_item name item pools →
      (b.1 ≠ name ∧ b ∈ pools) ∨
      (b.1 = name ∧ ((∃ ys, (name, ys) ∈ pools ∧ b.2 = ys ++ [item]) ∨
        (name ∉ pools.map (fun x => x.1) ∧ b.2 = [item]))) := by
  intro pools
  induction pools with
  | nil =>
    intro b _ hb
    simp only [push_item, List.mem_singleton] at hb
    subst hb
    exact Or.inr ⟨rfl, Or.inr ⟨by simp, rfl⟩⟩
  | cons p rest ih =>
    intro b hnd hb
    obtain ⟨t, xs⟩ := p
    simp only [List.map_cons, List.nodup_cons] at hnd
    by_cases ht : t = name
    · subst ht
      simp only [push_item, if_true, List.mem_cons] at hb
      rcases hb with rfl | hb
      · exact Or.inr ⟨rfl, Or.inl ⟨xs, List.mem_cons_self _ _, rfl⟩⟩
      · by_cases hb1 : b.1 = t
        · exfalso
          apply hnd.1
          rw [← hb1]
          exact List.mem_map_of_mem (fun x => x.1) hb
        · exact Or.inl ⟨hb1, List.mem_cons_of_mem _ hb⟩
    · simp only [push_item, if_neg ht, List.mem_cons] at hb
      rcases hb with rfl | hb
      · exact Or.inl ⟨ht, List.mem_cons_self _ _⟩
      · rcases ih b hnd.2 hb with ⟨h1, h2⟩ | ⟨h1, ⟨ys, h2, h3⟩ | ⟨h2, h3⟩⟩
        · exact Or.inl ⟨h1, List.mem_cons_of_mem _ h2⟩
        · exact Or.inr ⟨h1, Or.inl ⟨ys, List.mem_cons_of_mem _ h2, h3⟩⟩
        · refine Or.inr ⟨h1, Or.inr ⟨?_, h3⟩⟩
          simp only [List.map_cons, List.mem_cons, not_or]
          exact ⟨fun h => ht h.symm, h2⟩

theorem split_loop_inv (chash_lookup : List Nat → List Nat × Nat) :
    ∀ (items seen : List shc_multi_item_t) (pools : List (List Nat × List shc_multi_item_t)),
      (pools.map (fun b => b.1)).Nodup →
      (∀ b ∈ pools, b.2 ≠ [] ∧ b.2 = seen.filter (fun it =>
        decide (name_string (chash_lookup it.key).1 (chash_lookup it.key).2 = b.1))) →
      (∀ it ∈ seen, name_string (chash_lookup it.key).1 (chash_lookup it.key).2 ∈
        pools.map (fun b => b.1)) →
      ((shc_split_buckets_loop chash_lookup items pools).map (fun b => b.1)).Nodup ∧
      (∀ b ∈ shc_split_buckets_loop chash_lookup items pools,
        b.2 ≠ [] ∧ b.2 = (seen ++ items).filter (fun it =>
          decide (name_string (chash_lookup it.key).1 (chash_lookup it.key).2 = b.1))) ∧
      (∀ it ∈ seen ++ items, name_string (chash_lookup it.key).1 (chash_lookup it.key).2 ∈
        (shc_split_buckets_loop chash_lookup items pools).map (fun b => b.1)) := by
  intro items
  induction items with
  | nil =>
    intro seen pools h1 h2 h3
    simp only [shc_split_buckets_loop, List.append_nil]
    exact ⟨h1, h2, h3⟩
  | cons item items ih =>
    intro seen pools h1 h2 h3
    have hs : seen ++ item :: items = (seen ++ [item]) ++ items := by simp
    rw [shc_split_buckets_loop, hs]
    apply ih (seen ++ [item])
    · rw [push_item_tags]
      split_ifs with hm
      · exact h1
      · exact List.Nodup.append h1 (List.nodup_singleton _) (by simpa using hm)
    · intro b hb
      rcases push_item_mem _ _ pools b h1 hb with
        ⟨hb1, hb2⟩ | ⟨hb1, ⟨ys, hb2, hb3⟩ | ⟨hb2, hb3⟩⟩
      · refine ⟨(h2 b hb2).1, ?_⟩
        rw [List.filter_append, ← (h2 b hb2).2]
        have : ¬ name_string (chash_lookup item.key).1 (chash_lookup item.key).2 = b.1 :=
          fun h => hb1 h.symm
        simp [this]
      · refine ⟨by rw [hb3]; simp, ?_⟩
        have hy := (h2 _ hb2).2
        simp only at hy
        rw [List.filter_append, hb3, hb1, ← hy]
        simp
      · refine ⟨by rw [hb3]; simp, ?_⟩
        have hnone : seen.filter (fun it =>
            decide (name_string (chash_lookup it.key).1 (chash_lookup it.key).2 = b.1)) = [] := by
          rw [List.filter_eq_nil_iff]
          intro it hit hdec
          rw [decide_eq_true_eq] at hdec
          apply hb2
          rw [← hb1, ← hdec]
          exact h3 it hit
        rw [List.filter_append, hnone, hb3, hb1]
        simp
    · intro it hit
      rw [push_item_tags]
      rw [List.mem_append, List.mem_singleton] at hit
      rcases hit with hit | rfl
      · split_ifs
        · exact h3 it hit
        · exact List.mem_append_left _ (h3 it hit)
      · split_ifs with hm
        · exact hm
        · exact List.mem_append_right _ (List.mem_singleton_self _)

/-! ## The context of one owner -/

theorem name_string_label (node_name : List Nat) (h0 : ∀ x ∈ node_name, x ≠ 0) :
    name_string node_name node_name.length = node_name := by
  unfold name_string
  have h : node_name.takeWhile (fun ch => decide (ch ≠ 0)) = node_name := by
    rw [List.takeWhile_eq_self_iff]
    intro x hx
    exact decide_eq_true (h0 x hx)
  rw [h, List.take_length]

theorem context_fill_spec (build_message : shc_multi_item_t → Option (List Nat))
    (items : List shc_multi_item_t) :
    ∀ (fuel n : Nat) (ctx ctx1 : shc_multi_ctx_t),
      n + fuel = items.length → ctx.items.length = items.length →
      (∀ j, j < n → ctx.items.get? j = some (items.get? j)) →
      shc_multi_context_fill build_message items fuel n ctx = some ctx1 →
      ctx1.items.length = items.length ∧
      (∀ j, j < items.length → ctx1.items.get? j = some (items.get? j)) ∧
      ctx1.num_requests = ctx.num_requests ∧ ctx1.response_index = ctx.response_index ∧
      ctx1.peer = ctx.peer ∧
      ctx1.commands.map some = ctx.commands.map some ++ (items.drop n).map build_message := by
  intro fuel
  induction fuel with
  | zero =>
    intro n ctx ctx1 hn hlen hget h
    simp only [shc_multi_context_fill, Option.some.injEq] at h
    subst h
    have hn2 : n = items.length := by omega
    refine ⟨hlen, fun j hj => hget j (by omega), rfl, rfl, rfl, ?_⟩
    rw [hn2, List.drop_length]
    simp
  | succ fuel ih =>
    intro n ctx ctx1 hn hlen hget h
    have hlt : n < items.length := by omega
    have hitem : items.get? n = some (items.get ⟨n, hlt⟩) := List.get?_eq_get hlt
    rw [shc_multi_context_fill] at h
    simp only [hitem, Option.some_bind] at h
    cases hb : build_message (items.get ⟨n, hlt⟩) with
    | none => rw [hb] at h; exact absurd h (by simp)
    | some m =>
      rw [hb] at h
      simp only at h
      have hrec := ih (n + 1) _ ctx1 (by omega) (by simp [hlen]) ?_ h
      · obtain ⟨r1, r2, r3, r4, r5, r6⟩ := hrec
        refine ⟨r1, r2, r3, r4, r5, ?_⟩
        rw [r6]
        have hd : items.drop n = items.get ⟨n, hlt⟩ :: items.drop (n + 1) :=
          (List.drop_eq_getElem_cons hlt)
        rw [hd]
        simp only [List.map_append, List.map_cons, List.map_nil, List.append_assoc,
          List.singleton_append, hb]
      · intro j hj
        by_cases hjn : j = n
        · subst hjn
          simp [List.getElem?_set, hlen, hlt]
        · have hj2 : j < n := by omega
          have := hget j hj2
          simp only [List.get?_eq_getElem?] at this ⊢
          rw [List.getElem?_set_ne (fun h => hjn h.symm)]
          exact this

theorem context_create_spec (build_message : shc_multi_item_t → Option (List Nat))
    (peer : List Nat) (items : List shc_multi_item_t) (ctx : shc_multi_ctx_t)
    (h : shc_multi_context_create build_message peer items = some ctx) :
    ctx.items = items.map some ∧ ctx.num_requests = items.length ∧
    ctx.response_index = 0 ∧ ctx.peer = none ∧
    ctx.commands.map some = items.map build_message := by
  unfold shc_multi_context_create at h
  obtain ⟨r1, r2, r3, r4, r5, r6⟩ := context_fill_spec build_message items items.length 0 _ ctx
    (by simp) (by simp) (fun j hj => absurd hj (by omega)) h
  refine ⟨?_, r3, r4, r5, by simpa using r6⟩
  apply List.ext_get?
  intro j
  by_cases hj : j < items.length
  · rw [r2 j hj]
    simp only [List.get?_eq_getElem?, List.getElem?_map, List.getElem?_eq_getElem hj,
      Option.map_some']
  · have h1 : ctx.items.get? j = none := List.get?_eq_none.2 (by omega)
    have h2 : (items.map some).get? j = none := List.get?_eq_none.2 (by simp; omega)
    rw [h1, h2]

theorem context_create_total (build_message : shc_multi_item_t → Option (List Nat))
    (peer : List Nat) (items : List shc_multi_item_t)
    (hb : ∀ it ∈ items, (build_message it).isSome = true) :
    (shc_multi_context_create build_message peer items).isSome = true := by
  have key : ∀ (fuel n : Nat) (ctx : shc_multi_ctx_t), n + fuel = items.length →
      (shc_multi_context_fill build_message items fuel n ctx).isSome = true := by
    intro fuel
    induction fuel with
    | zero => intro n ctx _; rfl
    | succ fuel ih =>
      intro n ctx hn
      have hlt : n < items.length := by omega
      have hitem : items.get? n = some (items.get ⟨n, hlt⟩) := List.get?_eq_get hlt
      rw [shc_multi_context_fill]
      simp only [hitem, Option.some_bind]
      have hsome := hb _ (List.get_mem items n hlt)
      obtain ⟨m, hm⟩ := Option.isSome_iff_exists.1 hsome
      rw [hm]
      exact ih (n + 1) _ (by omega)
  exact key items.length 0 _ (by simp)

/-! ## The state left by the peer block -/

theorem fetch_from_peer_state (cache : shardcache_t) (obj : cached_object_t) (p : List Nat)
    (reply : peer_reply) (hd : obj.data = none) (hc : obj.flags.complete = false) :
    (arc_ops_fetch_from_peer cache obj (some p) reply).2.1.flags.async = obj.flags.async ∧
    ((obj.flags.async = false ∧ reply.rc = 0 ∧ reply.value ≠ []) →
      (arc_ops_fetch_from_peer cache obj (some p) reply).2.1.data = some reply.value ∧
      (arc_ops_fetch_from_peer cache obj (some p) reply).2.1.flags.complete = true ∧
      (arc_ops_fetch_from_peer cache obj (some p) reply).2.1.flags.drop =
        decide (cache.force_caching = false ∧ reply.rnd % 10 ≠ 0)) ∧
    (¬ (obj.flags.async = false ∧ reply.rc = 0 ∧ reply.value ≠ []) →
      (arc_ops_fetch_from_peer cache obj (some p) reply).2.1.data = none ∧
      (arc_ops_fetch_from_peer cache obj (some p) reply).2.1.flags.complete = false) := by
  cases ha : obj.flags.async
  · rw [fetch_from_peer_sync cache obj p reply ha]
    by_cases hv : reply.rc = 0 ∧ reply.value.length ≠ 0
    · rw [if_pos hv]
      refine ⟨ha, fun _ => ⟨rfl, rfl, rfl⟩, fun hn => ?_⟩
      exfalso
      apply hn
      refine ⟨rfl, hv.1, fun h0 => hv.2 ?_⟩
      rw [h0]
      rfl
    · rw [if_neg hv]
      refine ⟨ha, fun h => ?_, fun _ => ⟨hd, hc⟩⟩
      exfalso
      apply hv
      exact ⟨h.2.1, fun h0 => h.2.2 (List.eq_nil_of_length_eq_zero h0)⟩
  · by_cases hrc : reply.rc = 0
    · rw [fetch_from_peer_async_ok cache obj p reply ha hrc]
      exact ⟨ha, fun h => absurd h.1 (by decide), fun _ => ⟨hd, hc⟩⟩
    · rw [fetch_from_peer_async_fail cache obj p reply ha hrc]
      exact ⟨ha, fun h => absurd h.1 (by decide), fun _ => ⟨hd, hc⟩⟩

theorem remote_state (env : fetch_env) (cache : shardcache_t) (obj : cached_object_t)
    (hd : obj.data = none) (hc : obj.flags.complete = false) :
    (arc_ops_fetch_remote env cache obj).ret = (final_reply env).rc ∧
    ((arc_ops_fetch_remote env cache obj).done = true ↔ ¬ falls_through env cache) ∧
    (arc_ops_fetch_remote env cache obj).obj.flags.async = obj.flags.async ∧
    ((obj.flags.async = false ∧ (final_reply env).rc = 0 ∧ (final_reply env).value ≠ []) →
      (arc_ops_fetch_remote env cache obj).obj.data = some (final_reply env).value ∧
      (arc_ops_fetch_remote env cache obj).obj.flags.complete = true ∧
      (arc_ops_fetch_remote env cache obj).obj.flags.drop =
        decide (cache.force_caching = false ∧ (final_reply env).rnd % 10 ≠ 0)) ∧
    (¬ (obj.flags.async = false ∧ (final_reply env).rc = 0 ∧ (final_reply env).value ≠ []) →
      (arc_ops_fetch_remote env cache obj).obj.data = none ∧
      (arc_ops_fetch_remote env cache obj).obj.flags.complete = false) := by
  have s1 := fetch_from_peer_state cache obj [] env.peer1 hd hc
  have e1 := fetch_from_peer_rc cache obj [] env.peer1
  by_cases h1 : env.peer1.rc = -1
  · have hne : ¬ (obj.flags.async = false ∧ env.peer1.rc = 0 ∧ env.peer1.value ≠ []) := by
      intro h
      rw [h1] at h
      exact absurd h.2.1 (by decide)
    have s1n := s1.2.2 hne
    have s2 := fetch_from_peer_state cache
      (arc_ops_fetch_from_peer cache obj (some []) env.peer1).2.1 [] env.peer2 s1n.1 s1n.2
    have e2 := fetch_from_peer_rc cache
      (arc_ops_fetch_from_peer cache obj (some []) env.peer1).2.1 [] env.peer2
    rw [s1.1] at s2
    have hr1 : (arc_ops_fetch_from_peer cache obj (some []) env.peer1).1 = -1 := by
      rw [e1, h1]
    unfold arc_ops_fetch_remote
    dsimp only
    rw [if_pos hr1]
    by_cases h0 : env.check = 0
    · have hfin : final_reply env = env.peer2 := by
        unfold final_reply
        rw [if_pos ⟨h1, h0⟩]
      have hc1 : ¬ env.check = 1 := by rw [h0]; decide
      rw [if_pos h0, hfin]
      by_cases hg : env.check = 1 ∨
          ((arc_ops_fetch_from_peer cache
            (arc_ops_fetch_from_peer cache obj (some []) env.peer1).2.1 (some []) env.peer2).1 = -1 ∧
            cache.storage_global = true)
      · rw [if_pos hg]
        have hft : falls_through env cache := by
          refine ⟨h1, Or.inr ?_⟩
          rw [hfin, ← e2]
          exact hg.resolve_left hc1
        refine ⟨e2, ⟨fun h => absurd (show false = true from h) (by decide), fun h => absurd hft h⟩, ?_, ?_, ?_⟩
        · simp only [unset_evicted]
          exact s2.1
        · intro h
          simp only [unset_evicted]
          exact s2.2.1 h
        · intro h
          simp only [unset_evicted]
          exact s2.2.2 h
      · rw [if_neg hg]
        have hft : ¬ falls_through env cache := by
          rintro ⟨_, h2 | h2⟩
          · exact hc1 h2
          · apply hg
            right
            rw [hfin, ← e2] at h2
            exact h2
        exact ⟨e2, ⟨fun _ => hft, fun _ => rfl⟩, s2.1, s2.2.1, s2.2.2⟩
    · have hfin : final_reply env = env.peer1 := by
        unfold final_reply
        rw [if_neg (fun h => h0 h.2)]
      rw [if_neg h0, hfin]
      dsimp only
      by_cases hg : env.check = 1 ∨
          ((arc_ops_fetch_from_peer cache obj (some []) env.peer1).1 = -1 ∧
            cache.storage_global = true)
      · rw [if_pos hg]
        have hft : falls_through env cache := by
          refine ⟨h1, ?_⟩
          rcases hg with hg | hg
          · exact Or.inl hg
          · right
            rw [hfin, ← e1]
            exact hg
        refine ⟨e1, ⟨fun h => absurd (show false = true from h) (by decide), fun h => absurd hft h⟩, ?_, ?_, ?_⟩
        · simp only [unset_evicted]
          exact s1.1
        · intro h
          simp only [unset_evicted]
          exact s1.2.1 h
        · intro h
          simp only [unset_evicted]
          exact s1.2.2 h
      · rw [if_neg hg]
        have hft : ¬ falls_through env cache := by
          rintro ⟨_, h2 | h2⟩
          · exact hg (Or.inl h2)
          · apply hg
            right
            rw [hfin, ← e1] at h2
            exact h2
        exact ⟨e1, ⟨fun _ => hft, fun _ => rfl⟩, s1.1, s1.2.1, s1.2.2⟩
  · have hfin : final_reply env = env.peer1 := by
      unfold final_reply
      rw [if_neg (fun h => h1 h.1)]
    have hr1 : (arc_ops_fetch_from_peer cache obj (some []) env.peer1).1 ≠ -1 := by
      rw [e1]; exact h1
    have hft : ¬ falls_through env cache := fun h => h1 h.1
    rw [remote_first_ok env cache obj hr1, hfin]
    exact ⟨e1, ⟨fun _ => hft, fun _ => rfl⟩, s1.1, s1.2.1, s1.2.2⟩

/-! ## The return code of the local path -/

theorem finish_rc (env : fetch_env) (cache : shardcache_t) (obj : cached_object_t)
    (tr : List Event) :
    ((arc_ops_fetch_finish env cache obj tr).rc = 1 ↔ obj.data = none) ∧
    ((arc_ops_fetch_finish env cache obj tr).rc = 0 ∨
      (arc_ops_fetch_finish env cache obj tr).rc = 1) ∧
    ((arc_ops_fetch_finish env cache obj tr).rc = 1 →
      (arc_ops_fetch_finish env cache obj tr).size = none ∧
      (arc_ops_fetch_finish env cache obj tr).cache.cnt.not_found = cache.cnt.not_found + 1) := by
  cases hd : obj.data with
  | none =>
    rw [finish_none env cache obj tr hd]
    exact ⟨⟨fun _ => rfl, fun _ => rfl⟩, Or.inr rfl, fun _ => ⟨rfl, rfl⟩⟩
  | some d =>
    have h := (finish_some_expirations env cache obj tr d hd).1
    rw [h]
    exact ⟨⟨fun h1 => absurd h1 (by decide), fun h1 => absurd h1 (by simp)⟩, Or.inl rfl,
      fun h1 => absurd h1 (by decide)⟩

theorem local_rc (env : fetch_env) (cache : shardcache_t) (obj : cached_object_t)
    (pre : List Event) (hd : obj.data = none) :
    ((arc_ops_fetch_local env cache obj pre).rc = 1 ↔
      ¬ storage_fails env cache ∧ local_data env cache = none) ∧
    ((arc_ops_fetch_local env cache obj pre).rc = -1 ∨
      (arc_ops_fetch_local env cache obj pre).rc = 0 ∨
      (arc_ops_fetch_local env cache obj pre).rc = 1) ∧
    ((arc_ops_fetch_local env cache obj pre).rc = 1 →
      (arc_ops_fetch_local env cache obj pre).size = none ∧
      (arc_ops_fetch_local env cache obj pre).cache.cnt.not_found =
        cache.cnt.not_found + 1) := by
  cases hv : env.vobj with
  | some v =>
    have hf : ¬ storage_fails env cache := by simp [storage_fails, hv]
    have hl : local_data env cache = v := by simp [local_data, hv]
    have h := finish_rc env (inc_fetch_local cache) { obj with data := v }
      (pre ++ [Event.ht_get_deep_copy])
    rw [local_vobj env cache obj pre v hv, hl]
    exact ⟨⟨fun h1 => ⟨hf, h.1.1 h1⟩, fun h1 => h.1.2 h1.2⟩, Or.inr h.2.1, h.2.2⟩
  | none =>
    by_cases hs : cache.use_persistent_storage = true ∧ cache.storage_fetch = true
    · have hl : local_data env cache = env.storage_data := by
        simp only [local_data, hv, if_pos hs]
      by_cases hr : env.storage_rc = -1
      · have hf : storage_fails env cache := ⟨hv, hs, hr⟩
        rw [local_storage_fail env cache obj pre hv hs hr]
        exact ⟨⟨fun h1 => absurd (show (-1 : Int) = 1 from h1) (by decide),
          fun h1 => absurd hf h1.1⟩, Or.inl rfl,
          fun h1 => absurd (show (-1 : Int) = 1 from h1) (by decide)⟩
      · have hf : ¬ storage_fails env cache := fun h => hr h.2.2
        have h := finish_rc env (inc_fetch_local cache) { obj with data := env.storage_data }
          (pre ++ [Event.ht_get_deep_copy, Event.storage_fetch])
        rw [local_storage_ok env cache obj pre hv hs hr, hl]
        exact ⟨⟨fun h1 => ⟨hf, h.1.1 h1⟩, fun h1 => h.1.2 h1.2⟩, Or.inr h.2.1, h.2.2⟩
    · have hf : ¬ storage_fails env cache := fun h => hs h.2.1
      have hl : local_data env cache = none := by
        simp only [local_data, hv, if_neg hs]
      have h := finish_rc env (inc_fetch_local cache) obj (pre ++ [Event.ht_get_deep_copy])
      rw [local_no_storage env cache obj pre hv hs]
      exact ⟨⟨fun _ => ⟨hf, hl⟩, fun _ => h.1.2 hd⟩, Or.inr h.2.1, h.2.2⟩

/-! ## The return from the peer block -/

theorem fetch_peer_ok (env : fetch_env) (cache : shardcache_t) (obj : cached_object_t)
    (hg : ¬ piggybacks obj) (ho : env.owner = 0)
    (hd : (arc_ops_fetch_remote env (inc_cache_misses cache)
      (COBJ_UNSET_FLAG obj COBJ_FLAG_EVICTED)).done = true)
    (hr : (arc_ops_fetch_remote env (inc_cache_misses cache)
      (COBJ_UNSET_FLAG obj COBJ_FLAG_EVICTED)).ret = 0) :
    (arc_ops_fetch env cache obj).rc =
      (if (arc_ops_fetch_remote env (inc_cache_misses cache)
            (COBJ_UNSET_FLAG obj COBJ_FLAG_EVICTED)).obj.flags.drop = true ∧
          (arc_ops_fetch_remote env (inc_cache_misses cache)
            (COBJ_UNSET_FLAG obj COBJ_FLAG_EVICTED)).obj.flags.complete = true
       then 1 else 0) ∧
    (arc_ops_fetch env cache obj).size =
      some (arc_ops_fetch_remote env (inc_cache_misses cache)
        (COBJ_UNSET_FLAG obj COBJ_FLAG_EVICTED)).obj.dlen ∧
    (arc_ops_fetch env cache obj).cache.cnt.errors = cache.cnt.errors ∧
    (arc_ops_fetch env cache obj).cache.cnt.not_found = cache.cnt.not_found ∧
    Event.ht_get_deep_copy ∉ (arc_ops_fetch env cache obj).trace := by
  rw [fetch_remote_ok env cache obj hg ho hd hr]
  refine ⟨rfl, rfl, rfl, rfl, ?_⟩
  intro hm
  simp only [List.mem_append, List.mem_cons, List.mem_singleton, List.not_mem_nil,
    or_false] at hm
  rcases hm with (hm | hm) | hm
  · rcases hm with hm | hm <;> exact absurd hm (by decide)
  · exact absurd (remote_events _ _ _ _ hm) (by decide)
  · exact absurd hm (by decide)

theorem fetch_peer_err (env : fetch_env) (cache : shardcache_t) (obj : cached_object_t)
    (hg : ¬ piggybacks obj) (ho : env.owner = 0)
    (hd : (arc_ops_fetch_remote env (inc_cache_misses cache)
      (COBJ_UNSET_FLAG obj COBJ_FLAG_EVICTED)).done = true)
    (hr : (arc_ops_fetch_remote env (inc_cache_misses cache)
      (COBJ_UNSET_FLAG obj COBJ_FLAG_EVICTED)).ret ≠ 0) :
    (arc_ops_fetch env cache obj).rc = -1 ∧
    (arc_ops_fetch env cache obj).cache.cnt.errors = cache.cnt.errors + 1 ∧
    Event.ht_get_deep_copy ∉ (arc_ops_fetch env cache obj).trace := by
  rw [fetch_remote_err env cache obj hg ho hd hr]
  refine ⟨rfl, rfl, ?_⟩
  intro hm
  simp only [List.mem_append, List.mem_cons, List.mem_singleton, List.not_mem_nil,
    or_false] at hm
  rcases hm with (hm | hm) | hm
  · rcases hm with hm | hm <;> exact absurd hm (by decide)
  · exact absurd (remote_events _ _ _ _ hm) (by decide)
  · exact absurd hm (by decide)

/-! ## C1: the piggyback test of `arc_ops_fetch` -/

/-- C1: when the entry already has data, or ASYNC and FETCHING are both set,
`arc_ops_fetch` returns 0 with the size set to the current `dlen`; it only
takes and drops the lock (no ownership test, peer fetch, lookup in either store
or listener call), the entry is returned as it was, and the only counter that
changes is `cache_misses`, by one. -/
theorem arc_ops_fetch_piggyback (env : fetch_env) (cache : shardcache_t) (obj : cached_object_t)
    (h : obj.data.isSome = true ∨ (obj.flags.async = true ∧ obj.flags.fetching = true)) :
    (arc_ops_fetch env cache obj).rc = 0 ∧
    (arc_ops_fetch env cache obj).size = some obj.dlen ∧
    (arc_ops_fetch env cache obj).trace = [Event.mutex_lock, Event.mutex_unlock] ∧
    (arc_ops_fetch env cache obj).obj = obj ∧
    (arc_ops_fetch env cache obj).cache =
      { cache with cnt := { cache.cnt with cache_misses := cache.cnt.cache_misses + 1 } } := by
  rw [fetch_piggy env cache obj h]
  exact ⟨rfl, rfl, rfl, rfl, rfl⟩

theorem arc_ops_fetch_piggyback_witness :
    (arc_ops_fetch env_local_missing cache_plain
      { arc_ops_create [1] false true with data := some [4, 2] }).size = some 2 :=
  (arc_ops_fetch_piggyback env_local_missing cache_plain
    { arc_ops_create [1] false true with data := some [4, 2] } (Or.inl rfl)).2.1

/-! ## C2: single-flight -/

/-- C2, counterexample: on an asynchronous entry without listeners, a fetch
issues the peer request, `arc_ops_evict` then resets the flags word to EVICTED
while the request is still in flight, and the next `arc_ops_fetch` invokes
`arc_ops_fetch_from_peer` again. -/
theorem single_flight_broken_by_evict :
    (run enabled (sys_create cache_plain [1] true true)
        [action.fetch (env_remote []), action.evict]).map
      (fun s => (s.inflight, s.obj.flags.fetching,
        peer_fetches (arc_ops_fetch (env_remote []) s.cache s.obj).trace)) =
      some (1, false, 1) := by
  decide

/-- C2, amended: along every sequence of fetch, evict, callback and listener
registration steps from a created entry that holds its resource, in which
`arc_ops_evict` is not applied to an entry with an empty listener list while a
peer fetch is in flight, at most one peer fetch is in flight, and while one is
in flight `arc_ops_fetch` does not invoke `arc_ops_fetch_from_peer`. -/
theorem single_flight_deferred (cache : shardcache_t) (key : List Nat) (async : Bool)
    (acts : List action) (s : sys)
    (h : run enabled_deferred (sys_create cache key async true) acts = some s) :
    s.inflight ≤ 1 ∧
    (s.inflight = 1 → ∀ env : fetch_env,
      peer_fetches (arc_ops_fetch env s.cache s.obj).trace = 0 ∧
      async_issued (arc_ops_fetch env s.cache s.obj).trace = 0) := by
  have hs := single_flight_run acts _ s (single_flight_create cache key async) h
  refine ⟨hs.1, fun h1 env => ?_⟩
  have hp : piggybacks s.obj := Or.inr (hs.2.2.2 h1)
  have hi := (fetch_issued env s.cache s.obj).2.2 hp
  exact ⟨hi.2.1, hi.1⟩

theorem single_flight_deferred_witness :
    (step (sys_create cache_plain [1] true true) (action.fetch (env_remote []))).inflight ≤ 1 :=
  (single_flight_deferred cache_plain [1] true [action.fetch (env_remote [])]
    (step (sys_create cache_plain [1] true true) (action.fetch (env_remote []))) rfl).1

/-! ## C3: streaming delivery -/

/-- C3: for an entry with its resource and no data, whose listeners `ls` have
distinct identities, and non-empty chunks `cs` followed by one terminator: a
listener of `ls` whose callback always reports success receives the chunks,
each once and in order, then one completion whose total size is the sum of the
chunk lengths (the `dlen` of the entry) when the terminator is the end of the
stream, or one error signal when the terminator is an error; in both cases the
listener list is empty afterwards. In each chunk invocation every listener
still registered is called, in list order, and exactly those that report
failure are removed. -/
theorem streaming_delivery (cache : shardcache_t) (obj : cached_object_t) (fd : Int)
    (cs : List (List Nat)) (ls : List shardcache_get_listener_t)
    (l : shardcache_get_listener_t) (d : List Nat) (e : Int)
    (hres : obj.res = true) (hl : obj.listeners = some ls) (hdata : obj.data = none)
    (hcs : ∀ c ∈ cs, c ≠ []) (hnd : (ls.map (fun x => x.id)).Nodup)
    (hmem : l ∈ ls) (hok : always_ok l) (he : e ≠ 0) :
    received l.id (cb_run fd obj.key cache obj (chunk_calls cs ++ [([], 0)])).2.2 =
      cs.map (chunk_args obj.key) ++ [complete_args obj.key (chunks_len cs) obj.ts] ∧
    (cb_run fd obj.key cache obj (chunk_calls cs ++ [([], 0)])).2.1.listeners = some [] ∧
    received l.id (cb_run fd obj.key cache obj (chunk_calls cs ++ [(d, e)])).2.2 =
      cs.map (chunk_args obj.key) ++ [error_args obj.key] ∧
    (cb_run fd obj.key cache obj (chunk_calls cs ++ [(d, e)])).2.1.listeners = some [] ∧
    (cb_run fd obj.key cache obj (chunk_calls cs)).2.1.dlen = chunks_len cs ∧
    (∀ c : List Nat, c ≠ [] →
      listener_calls (arc_ops_fetch_from_peer_async_cb cache obj fd obj.key c 0).trace =
        ls.map (fun x => (x.id, chunk_args obj.key c)) ∧
      (arc_ops_fetch_from_peer_async_cb cache obj fd obj.key c 0).obj.listeners =
        some (ls.filterMap (after_chunk (chunk_args obj.key c)))) := by
  have hs := survivors_mem obj.key l.id cs ls ⟨l, hmem, rfl, hok⟩
  have hs2 : ∃ l1, l1 ∈ survivors obj.key cs ls ∧ l1.id = l.id := by
    obtain ⟨l2, h1, h2, _⟩ := hs
    exact ⟨l2, h1, h2⟩
  have hn := survivors_nodup obj.key cs ls hnd
  have hc := received_chunks_trace obj.key l.id cs ls hnd ⟨l, hmem, rfl, hok⟩
  have hd : ({ obj with data := append_chunks obj.data cs
                        listeners := some (survivors obj.key cs ls) } :
      cached_object_t).dlen = chunks_len cs := by
    rw [stream_dlen, dlen_getD, hdata]
    simp
  refine ⟨?_, ?_, ?_, ?_, ?_, ?_⟩
  · rw [cb_run_stream fd cache obj cs ls [] 0 hres hl hcs]
    dsimp only
    rw [received_append, hc,
      received_eos cache
        ({ obj with
          data := append_chunks obj.data cs,
          listeners := some (survivors obj.key cs ls) } : cached_object_t)
        fd obj.key (survivors obj.key cs ls) l.id hres rfl hn hs2, hd]
  · rw [cb_run_stream fd cache obj cs ls [] 0 hres hl hcs]
    exact eos_listeners cache
      ({ obj with
          data := append_chunks obj.data cs,
          listeners := some (survivors obj.key cs ls) } : cached_object_t)
      fd obj.key (survivors obj.key cs ls) hres rfl
  · rw [cb_run_stream fd cache obj cs ls d e hres hl hcs]
    dsimp only
    rw [received_append, hc,
      received_error cache
        ({ obj with
          data := append_chunks obj.data cs,
          listeners := some (survivors obj.key cs ls) } : cached_object_t)
        fd obj.key d e (survivors obj.key cs ls) l.id hres rfl he hn hs2]
  · rw [cb_run_stream fd cache obj cs ls d e hres hl hcs]
    exact error_listeners cache
      ({ obj with
          data := append_chunks obj.data cs,
          listeners := some (survivors obj.key cs ls) } : cached_object_t)
      fd obj.key d e (survivors obj.key cs ls) hres rfl he
  · rw [cb_run_chunks fd obj.key cache cs hcs obj ls hres hl]
    exact hd
  · intro c hc0
    rw [cb_chunk cache obj fd obj.key c ls hres hl hc0]
    refine ⟨?_, rfl⟩
    simp only [listener_calls_append, listener_calls_cons, listener_calls_nil,
      listener_calls_map, List.nil_append, List.append_nil]

theorem streaming_delivery_witness :
    received 2 (cb_run 5 [1] cache_plain
      { arc_ops_create [1] true true with listeners := some [listener_bad 1, listener_ok 2] }
      (chunk_calls [[7], [8, 9]] ++ [([], 0)])).2.2 =
      [chunk_args [1] [7], chunk_args [1] [8, 9], complete_args [1] 3 0] :=
  (streaming_delivery cache_plain
    { arc_ops_create [1] true true with listeners := some [listener_bad 1, listener_ok 2] }
    5 [[7], [8, 9]] [listener_bad 1, listener_ok 2] (listener_ok 2) [] (-1)
    rfl rfl rfl (by decide) (by decide) (by simp) (fun _ _ => rfl) (by decide)).1

/-! ## C4: the size reported to Arc -/

/-- C4: take an entry with its resource and its listener list, not marked
DROP, and non-empty chunks `cs` such that the data accumulated after them is
non-empty and shorter than 2^31. The chunk invocations report no size; the
end-of-stream invocation calls `arc_update_size` exactly once, with the key and
with the length that every completion callback receives as total size, which
is the `dlen` of the entry: its length before plus the sum of the lengths of
the chunks. -/
theorem size_reported_once (cache : shardcache_t) (obj : cached_object_t) (fd : Int)
    (cs : List (List Nat)) (ls : List shardcache_get_listener_t)
    (hres : obj.res = true) (hl : obj.listeners = some ls) (hdrop : obj.flags.drop = false)
    (hcs : ∀ c ∈ cs, c ≠ []) (hpos : 0 < obj.dlen + chunks_len cs)
    (hlt : obj.dlen + chunks_len cs < 2 ^ 31) :
    (cb_run fd obj.key cache obj (chunk_calls cs)).2.1.dlen = obj.dlen + chunks_len cs ∧
    size_updates (cb_run fd obj.key cache obj (chunk_calls cs)).2.2 = [] ∧
    size_updates (arc_ops_fetch_from_peer_async_cb cache
        (cb_run fd obj.key cache obj (chunk_calls cs)).2.1 fd obj.key [] 0).trace =
      [(obj.key, ((obj.dlen + chunks_len cs : Nat) : Int))] ∧
    listener_calls (arc_ops_fetch_from_peer_async_cb cache
        (cb_run fd obj.key cache obj (chunk_calls cs)).2.1 fd obj.key [] 0).trace =
      (survivors obj.key cs ls).map
        (fun x => (x.id, complete_args obj.key (obj.dlen + chunks_len cs) obj.ts)) := by
  have hd := stream_dlen obj cs (survivors obj.key cs ls)
  rw [cb_run_chunks fd obj.key cache cs hcs obj ls hres hl]
  dsimp only
  refine ⟨hd, size_updates_chunks_trace _ _ _, ?_, ?_⟩
  · rw [size_updates_eos cache
      ({ obj with
          data := append_chunks obj.data cs,
          listeners := some (survivors obj.key cs ls) } : cached_object_t)
      fd obj.key (survivors obj.key cs ls) hres rfl hdrop (by rw [hd]; exact hpos)
      (by rw [hd]; exact hlt), hd]
  · rw [listener_calls_eos cache
      ({ obj with
          data := append_chunks obj.data cs,
          listeners := some (survivors obj.key cs ls) } : cached_object_t)
      fd obj.key (survivors obj.key cs ls) hres rfl, hd, List.map_map]
    rfl

theorem size_reported_once_witness :
    size_updates (arc_ops_fetch_from_peer_async_cb cache_plain
        (cb_run 5 [1] cache_plain
          { arc_ops_create [1] true true with listeners := some [listener_ok 2] }
          (chunk_calls [[7], [8, 9]])).2.1 5 [1] [] 0).trace = [([1], 3)] :=
  (size_reported_once cache_plain
    { arc_ops_create [1] true true with listeners := some [listener_ok 2] }
    5 [[7], [8, 9]] [listener_ok 2] rfl rfl rfl (by decide) (by decide) (by decide)).2.2.1

/-! ## C5: `arc_ops_evict_object` -/

/-- C5: `arc_ops_evict_object` with a non-empty listener list only sets EVICT
(the cache and the rest of the entry are unchanged); otherwise the data is
gone, `dlen` is 0, the listener list is empty, the flags are exactly EVICTED,
and `evicts` grows by one exactly when the entry had data. -/
theorem arc_ops_evict_object_spec (cache : shardcache_t) (obj : cached_object_t) :
    if list_count obj.listeners ≠ 0 then
      arc_ops_evict_object cache obj =
        (cache, { obj with flags := { obj.flags with evict := true } })
    else
      (arc_ops_evict_object cache obj).2.data = none ∧
      (arc_ops_evict_object cache obj).2.dlen = 0 ∧
      list_count (arc_ops_evict_object cache obj).2.listeners = 0 ∧
      (arc_ops_evict_object cache obj).2.flags = ⟨false, false, false, false, true, false⟩ ∧
      (arc_ops_evict_object cache obj).1.cnt.evicts =
        (if obj.data.isSome then cache.cnt.evicts + 1 else cache.cnt.evicts) := by
  by_cases h : list_count obj.listeners ≠ 0
  · simp only [if_pos h, arc_ops_evict_object, set_evict]
  · rw [if_neg h]
    unfold arc_ops_evict_object
    rw [if_neg h]
    refine ⟨rfl, rfl, ?_, rfl, ?_⟩
    · cases hl : obj.listeners <;> simp [list_clear, list_count]
    · cases hd : obj.data <;> simp

/-! ## C6: eviction while a download is in flight -/

/-- C6: on an entry with its resource and at least one listener, all of whose
callbacks report success, `arc_ops_evict` only sets EVICT and keeps the data.
The chunk invocations that follow append every chunk to the data and hand it to
every listener. The end-of-stream invocation gives every listener the
completion with the full length, and on its return the listener list is empty,
the data is absent with `dlen` 0 and the flags are exactly EVICTED. -/
theorem deferred_eviction (cache : shardcache_t) (obj : cached_object_t) (fd : Int)
    (cs : List (List Nat)) (ls : List shardcache_get_listener_t)
    (hres : obj.res = true) (hl : obj.listeners = some ls) (hne : ls ≠ [])
    (hok : ∀ l ∈ ls, always_ok l) (hcs : ∀ c ∈ cs, c ≠ []) :
    (arc_ops_evict cache obj).1 = cache ∧
    (arc_ops_evict cache obj).2.1 = { obj with flags := { obj.flags with evict := true } } ∧
    (cb_run fd obj.key cache (arc_ops_evict cache obj).2.1 (chunk_calls cs)).2.1.data =
      append_chunks obj.data cs ∧
    listener_calls
        (cb_run fd obj.key cache (arc_ops_evict cache obj).2.1 (chunk_calls cs)).2.2 =
      (cs.map (fun c => ls.map (fun x => (x.id, chunk_args obj.key c)))).flatten ∧
    listener_calls (arc_ops_fetch_from_peer_async_cb cache
        (cb_run fd obj.key cache (arc_ops_evict cache obj).2.1 (chunk_calls cs)).2.1
        fd obj.key [] 0).trace =
      ls.map (fun x => (x.id, complete_args obj.key (obj.dlen + chunks_len cs) obj.ts)) ∧
    (arc_ops_fetch_from_peer_async_cb cache
        (cb_run fd obj.key cache (arc_ops_evict cache obj).2.1 (chunk_calls cs)).2.1
        fd obj.key [] 0).obj.listeners = some [] ∧
    (arc_ops_fetch_from_peer_async_cb cache
        (cb_run fd obj.key cache (arc_ops_evict cache obj).2.1 (chunk_calls cs)).2.1
        fd obj.key [] 0).obj.data = none ∧
    (arc_ops_fetch_from_peer_async_cb cache
        (cb_run fd obj.key cache (arc_ops_evict cache obj).2.1 (chunk_calls cs)).2.1
        fd obj.key [] 0).obj.dlen = 0 ∧
    (arc_ops_fetch_from_peer_async_cb cache
        (cb_run fd obj.key cache (arc_ops_evict cache obj).2.1 (chunk_calls cs)).2.1
        fd obj.key [] 0).obj.flags = COBJ_FLAG_EVICTED := by
  have hcount : list_count obj.listeners ≠ 0 := by
    rw [hl]
    exact fun h => hne (List.eq_nil_of_length_eq_zero h)
  have hev : arc_ops_evict cache obj =
      (cache, { obj with flags := { obj.flags with evict := true } },
        [Event.mutex_lock] ++
        (if !cache.lazy_expiration then [Event.unschedule_expiration obj.key] else []) ++
        [Event.mutex_unlock]) := by
    unfold arc_ops_evict
    rw [evict_object_deferred cache obj hcount]
  have hs := survivors_all_ok obj.key cs ls hok
  have hrun := cb_run_chunks fd obj.key cache cs hcs
    ({ obj with flags := { obj.flags with evict := true } } : cached_object_t) ls hres hl
  have hd := stream_dlen
    ({ obj with flags := { obj.flags with evict := true } } : cached_object_t) cs
    (survivors obj.key cs ls)
  have hd0 : ({ obj with flags := { obj.flags with evict := true } } : cached_object_t).dlen =
      obj.dlen := rfl
  rw [hd0] at hd
  rw [hev]
  dsimp only
  rw [hrun]
  dsimp only
  have heos := cb_eos cache
    ({ obj with
        data := append_chunks obj.data cs,
        flags := { obj.flags with evict := true },
        listeners := some (survivors obj.key cs ls) } : cached_object_t)
    fd obj.key (survivors obj.key cs ls) hres rfl
  have hobj := async_cb_evict_obj cache
    ({ obj with
        data := append_chunks obj.data cs,
        flags := { obj.flags with evict := true, complete := true, fetching := false },
        listeners := some [] } : cached_object_t) rfl
  rw [if_pos rfl] at hobj
  refine ⟨rfl, rfl, rfl, ?_, ?_, ?_, ?_, ?_, ?_⟩
  · rw [listener_calls_chunks_trace obj.key cs ls hok]
    simp only [List.map_map]
    rfl
  · rw [listener_calls_eos cache
      ({ obj with
          data := append_chunks obj.data cs,
          flags := { obj.flags with evict := true },
          listeners := some (survivors obj.key cs ls) } : cached_object_t)
      fd obj.key (survivors obj.key cs ls) hres rfl, hs.1, hd, List.map_map]
    rfl
  · rw [heos]
    dsimp only
    rw [hobj]
  · rw [heos]
    dsimp only
    rw [hobj]
  · rw [heos]
    dsimp only
    rw [hobj]
    rfl
  · rw [heos]
    dsimp only
    rw [hobj]

theorem deferred_eviction_witness :
    (arc_ops_fetch_from_peer_async_cb cache_plain
        (cb_run 5 [1] cache_plain
          (arc_ops_evict cache_plain
            { arc_ops_create [1] true true with listeners := some [listener_ok 2] }).2.1
          (chunk_calls [[7], [8, 9]])).2.1
        5 [1] [] 0).obj.flags = COBJ_FLAG_EVICTED :=
  (deferred_eviction cache_plain
    { arc_ops_create [1] true true with listeners := some [listener_ok 2] }
    5 [[7], [8, 9]] [listener_ok 2] rfl rfl (by simp)
    (fun l hl p a => by
      rw [List.mem_singleton] at hl
      subst hl
      rfl)
    (by decide)).2.2.2.2.2.2.2.2

/-! ## C7: FETCHING and COMPLETE -/

/-- C7: the invariant is not preserved by `arc_ops_fetch`. An asynchronous
entry whose download ended without any chunk has COMPLETE set, FETCHING clear
and no data; the next `arc_ops_fetch` issues a new request, which sets FETCHING
and leaves COMPLETE set. When the admission filter marks that request DROP, the
call returns 1 although the value was only requested. -/
theorem fetching_and_complete_after_refetch :
    (run enabled (sys_create cache_plain [1] true true)
        [action.fetch (env_remote []), action.callback 5 [] 0]).map
      (fun s => (s.obj.flags.fetching, s.obj.flags.complete, s.obj.data, s.inflight)) =
      some (false, true, none, 0) ∧
    (run enabled (sys_create cache_plain [1] true true)
        [action.fetch (env_remote []), action.callback 5 [] 0,
          action.fetch (env_remote [])]).map
      (fun s => (s.obj.flags.fetching, s.obj.flags.complete, s.inflight)) =
      some (true, true, 1) ∧
    (run enabled (sys_create { cache_plain with force_caching := false } [1] true true)
        [action.fetch (env_remote []), action.callback 5 [] 0]).map
      (fun s => (arc_ops_fetch { env_remote [] with peer1 := { reply_ok [] with rnd := 1 } }
        s.cache s.obj).rc) = some 1 := by
  decide

/-! ## C8: EVICTED implies no data and no listeners -/

/-- C8, counterexample: a fetch issues the peer request, `arc_ops_evict`
evicts the entry at once because it has no listener, and the data chunk that
arrives afterwards is stored in the entry: EVICTED is set and the data is not
empty. -/
theorem evicted_with_data_after_chunk :
    (run enabled (sys_create cache_plain [1] true true)
        [action.fetch (env_remote []), action.evict, action.callback 5 [1, 2] 0]).map
      (fun s => (s.obj.flags.evicted, s.obj.data)) = some (true, some [1, 2]) := by
  decide

/-- C8, amended: in every state reached from a created entry by fetch, evict,
callback and listener registration steps in which no data chunk is delivered to
an entry that has EVICTED set, EVICTED implies that the data is absent and the
listener list is empty. -/
theorem evicted_invariant_live (cache : shardcache_t) (key : List Nat) (async res : Bool)
    (acts : List action) (s : sys)
    (h : run enabled_live (sys_create cache key async res) acts = some s) :
    s.obj.flags.evicted = true → s.obj.data = none ∧ list_count s.obj.listeners = 0 :=
  inv_evicted_run acts _ s (inv_evicted_create key async res) h

theorem evicted_invariant_live_witness :
    (step (step (sys_create cache_plain [1] true true) (action.fetch (env_remote [])))
        action.evict).obj.data = none ∧
      list_count (step (step (sys_create cache_plain [1] true true)
        (action.fetch (env_remote []))) action.evict).obj.listeners = 0 :=
  evicted_invariant_live cache_plain [1] true true
    [action.fetch (env_remote []), action.evict]
    (step (step (sys_create cache_plain [1] true true) (action.fetch (env_remote [])))
      action.evict) rfl (by decide)

/-! ## C9: NotFound on the local path -/

/-- C9, counterexample: the key is owned locally, the volatile store has no
copy and the storage answers without error with a buffer of length zero: the
call returns 0, `dlen` is 0 and `not_found` is unchanged. On an entry with
ASYNC and FETCHING set and no data the call piggybacks: it returns 0 without
looking the key up. -/
theorem zero_length_storage_value_is_resident :
    (arc_ops_fetch { env_local_missing with storage_data := some [] }
      { cache_plain with use_persistent_storage := true, storage_fetch := true }
      (arc_ops_create [1] false true)).rc = 0 ∧
    (arc_ops_fetch { env_local_missing with storage_data := some [] }
      { cache_plain with use_persistent_storage := true, storage_fetch := true }
      (arc_ops_create [1] false true)).obj.dlen = 0 ∧
    (arc_ops_fetch { env_local_missing with storage_data := some [] }
      { cache_plain with use_persistent_storage := true, storage_fetch := true }
      (arc_ops_create [1] false true)).cache.cnt.not_found = 0 ∧
    (arc_ops_fetch env_local_missing cache_plain
      { arc_ops_create [1] true true with
        flags := { COBJ_FLAG_ASYNC with fetching := true } }).rc = 0 ∧
    (arc_ops_fetch env_local_missing cache_plain
      { arc_ops_create [1] true true with
        flags := { COBJ_FLAG_ASYNC with fetching := true } }).cache.cnt.not_found = 0 := by
  decide

/-- C9, amended: for an entry whose data pointer is NULL and that does not
piggyback (ASYNC and FETCHING are not both set), whose key is owned locally,
when the volatile store has no copy and the storage, if one is consulted,
answers without error and leaves the data pointer NULL, `arc_ops_fetch` returns
1 and adds one to `not_found`; on return COMPLETE is set, FETCHING is clear, the
data is absent, no size is reported to Arc, and on an asynchronous entry each
listener got exactly one completion with total length 0 and the list is
empty. -/
theorem arc_ops_fetch_not_found_local (env : fetch_env) (cache : shardcache_t)
    (obj : cached_object_t)
    (hdata : obj.data = none)
    (hguard : ¬ (obj.flags.async = true ∧ obj.flags.fetching = true))
    (hown : env.owner ≠ 0)
    (hvol : env.vobj = none)
    (hsto : cache.use_persistent_storage = true ∧ cache.storage_fetch = true →
      env.storage_rc ≠ -1 ∧ env.storage_data = none) :
    (arc_ops_fetch env cache obj).rc = 1 ∧
    (arc_ops_fetch env cache obj).cache.cnt.not_found = cache.cnt.not_found + 1 ∧
    (arc_ops_fetch env cache obj).obj.flags.complete = true ∧
    (arc_ops_fetch env cache obj).obj.flags.fetching = false ∧
    (arc_ops_fetch env cache obj).obj.data = none ∧
    (arc_ops_fetch env cache obj).obj.dlen = 0 ∧
    size_updates (arc_ops_fetch env cache obj).trace = [] ∧
    (obj.flags.async = true → ∀ ls, obj.listeners = some ls →
      listener_calls (arc_ops_fetch env cache obj).trace =
        ls.map (fun l => (l.id, complete_args obj.key 0 env.now)) ∧
      (arc_ops_fetch env cache obj).obj.listeners = some []) := by
  have hg : ¬ piggybacks obj := by
    intro hp
    rcases hp with hp | hp
    · simp [hdata] at hp
    · exact hguard hp
  rw [fetch_owner env cache obj hg hown]
  have hfin : arc_ops_fetch_local env (inc_cache_misses cache)
      (COBJ_UNSET_FLAG obj COBJ_FLAG_EVICTED) [Event.mutex_lock, Event.test_ownership] =
      arc_ops_fetch_finish env (inc_fetch_local (inc_cache_misses cache))
        (COBJ_UNSET_FLAG obj COBJ_FLAG_EVICTED)
        ([Event.mutex_lock, Event.test_ownership] ++
          (Event.ht_get_deep_copy ::
            (if cache.use_persistent_storage = true ∧ cache.storage_fetch = true then
              [Event.storage_fetch] else []))) := by
    by_cases hs : cache.use_persistent_storage = true ∧ cache.storage_fetch = true
    · obtain ⟨h1, h2⟩ := hsto hs
      rw [local_storage_ok env (inc_cache_misses cache) _ _ hvol hs h1, if_pos hs, h2]
      simp only [unset_evicted, hdata]
    · rw [local_no_storage env (inc_cache_misses cache) _ _ hvol hs, if_neg hs]
  rw [hfin, finish_none _ _ _ _ (by simp only [unset_evicted, hdata])]
  refine ⟨rfl, rfl, rfl, rfl, ?_, ?_, ?_, ?_⟩
  · simp only [unset_evicted, hdata]
  · simp only [unset_evicted, cached_object_t.dlen, hdata, Option.map_none, Option.getD_none,
      List.length_nil]
  · simp only [unset_evicted]
    split_ifs <;>
      simp [size_updates_append, size_updates_cons, size_updates_nil, size_updates_map]
  · intro ha ls hls
    simp only [unset_evicted, ha, hls, if_true, Option.map_some, Option.getD_some]
    refine ⟨?_, rfl⟩
    split_ifs <;>
      simp [listener_calls_append, listener_calls_cons, listener_calls_nil,
        listener_calls_map]

theorem arc_ops_fetch_not_found_local_witness :
    (arc_ops_fetch env_local_missing cache_plain
      { arc_ops_create [1] true true with listeners := some [listener_ok 3] }).rc = 1 :=
  (arc_ops_fetch_not_found_local env_local_missing cache_plain
    { arc_ops_create [1] true true with listeners := some [listener_ok 3] }
    rfl (by decide) (by decide) rfl (by decide)).1

/-! ## C10: empty results -/

/-- C10, counterexample: a synchronous entry whose owning peer answers the GET
successfully with an empty value. `arc_ops_fetch` returns 0 with the data still
absent, and `not_found` is not incremented. -/
theorem empty_remote_answer_not_counted :
    (arc_ops_fetch (env_remote []) cache_plain (arc_ops_create [1] false true)).rc = 0 ∧
    (arc_ops_fetch (env_remote []) cache_plain (arc_ops_create [1] false true)).obj.data = none ∧
    (arc_ops_fetch (env_remote []) cache_plain (arc_ops_create [1] false true)).size = some 0 ∧
    (arc_ops_fetch (env_remote []) cache_plain
      (arc_ops_create [1] false true)).cache.cnt.not_found = 0 ∧
    peer_fetches (arc_ops_fetch (env_remote []) cache_plain
      (arc_ops_create [1] false true)).trace = 1 := by
  decide

/-- C10, amended: for a synchronous entry without data, when `arc_ops_fetch`
looks the key up locally (in the volatile store, then the storage) and returns
without error, it returns 1 exactly when the data pointer of the entry is
still NULL on return, and then `not_found` has grown by one; when the lookup
left a buffer, also one of length zero, it returns 0 and `not_found` is
unchanged. When instead the owning peer answers the synchronous GET
successfully with an empty value, the call returns from the peer branch with
the size set to 0, the code 1 only if DROP and COMPLETE were both set already
and 0 otherwise, and `not_found` unchanged. -/
theorem arc_ops_fetch_empty_result (env : fetch_env) (cache : shardcache_t)
    (obj : cached_object_t) (hdata : obj.data = none) (hsync : obj.flags.async = false) :
    (Event.ht_get_deep_copy ∈ (arc_ops_fetch env cache obj).trace →
      (arc_ops_fetch env cache obj).rc ≠ -1 →
      ((arc_ops_fetch env cache obj).rc = 1 ↔ (arc_ops_fetch env cache obj).obj.data = none) ∧
      ((arc_ops_fetch env cache obj).obj.data = none →
        (arc_ops_fetch env cache obj).cache.cnt.not_found = cache.cnt.not_found + 1) ∧
      ((arc_ops_fetch env cache obj).obj.data ≠ none →
        (arc_ops_fetch env cache obj).rc = 0 ∧
        (arc_ops_fetch env cache obj).cache.cnt.not_found = cache.cnt.not_found)) ∧
    (env.owner = 0 → env.peer1.rc = 0 → env.peer1.value = [] →
      (arc_ops_fetch env cache obj).rc =
        (if obj.flags.drop = true ∧ obj.flags.complete = true then 1 else 0) ∧
      (arc_ops_fetch env cache obj).size = some 0 ∧
      (arc_ops_fetch env cache obj).obj.data = none ∧
      (arc_ops_fetch env cache obj).cache.cnt.not_found = cache.cnt.not_found ∧
      Event.ht_get_deep_copy ∉ (arc_ops_fetch env cache obj).trace) := by
  have hg : ¬ piggybacks obj := by
    intro hp
    rcases hp with hp | hp
    · simp [hdata] at hp
    · simp [hsync] at hp
  refine ⟨fun hm hrc => ?_, fun ho hrc hv => ?_⟩
  · obtain ⟨o, pre, he, hf, _⟩ := fetch_lookup env cache obj hg hm
    have ha : o.flags.async = false := by
      cases hx : o.flags.async
      · rfl
      · rw [hf.2.2.2 hx] at hsync
        exact absurd hsync (by decide)
    rw [he] at hrc ⊢
    have h1 := local_sync_empty env (inc_cache_misses cache) o pre ha hrc
    have h2 := local_sync_found env (inc_cache_misses cache) o pre ha hrc
    refine ⟨⟨fun hone => ?_, fun hd => (h1 hd).1⟩, fun hd => (h1 hd).2, h2⟩
    by_contra hd
    rw [(h2 hd).1] at hone
    exact absurd hone (by decide)
  · have hs := fetch_from_peer_sync (inc_cache_misses cache)
      (COBJ_UNSET_FLAG obj COBJ_FLAG_EVICTED) [] env.peer1
      (by simp only [unset_evicted, hsync])
    have h1 : (arc_ops_fetch_from_peer (inc_cache_misses cache)
        (COBJ_UNSET_FLAG obj COBJ_FLAG_EVICTED) (some []) env.peer1).1 ≠ -1 := by
      rw [hs]; simp [hrc]
    have hr := remote_first_ok env (inc_cache_misses cache)
      (COBJ_UNSET_FLAG obj COBJ_FLAG_EVICTED) h1
    rw [hs] at hr
    have hd : (arc_ops_fetch_remote env (inc_cache_misses cache)
        (COBJ_UNSET_FLAG obj COBJ_FLAG_EVICTED)).done = true := by rw [hr]
    have hret : (arc_ops_fetch_remote env (inc_cache_misses cache)
        (COBJ_UNSET_FLAG obj COBJ_FLAG_EVICTED)).ret = 0 := by rw [hr]; exact hrc
    rw [fetch_remote_ok env cache obj hg ho hd hret, hr]
    simp [hrc, hv, unset_evicted, hdata, cached_object_t.dlen, inc_fetch_remote,
      inc_cache_misses]

theorem arc_ops_fetch_empty_result_witness :
    (arc_ops_fetch env_local_missing cache_plain
      (arc_ops_create [1] false true)).cache.cnt.not_found = cache_plain.cnt.not_found + 1 :=
  ((arc_ops_fetch_empty_result env_local_missing cache_plain (arc_ops_create [1] false true)
    rfl rfl).1 (by decide) (by decide)).2.1 (by decide)

/-! ## C11: migration fallback -/

/-- C11: for an entry that does not piggyback and whose key is owned by a peer,
when the peer fetch against the owner returns -1 and the migration ownership
test names the current node, `arc_ops_fetch` is the local path run on the entry
left by that one peer fetch with EVICTED cleared: exactly one peer fetch is
made, the volatile store is looked up, `fetch_local` grows by one,
`fetch_remote` is unchanged and `errors` grows only if the storage fails. -/
theorem arc_ops_fetch_migration_fallback (env : fetch_env) (cache : shardcache_t)
    (obj : cached_object_t) (hg : ¬ piggybacks obj) (ho : env.owner = 0)
    (hp : env.peer1.rc = -1) (hc : env.check = 1) :
    arc_ops_fetch env cache obj =
      arc_ops_fetch_local env (inc_cache_misses cache)
        (COBJ_UNSET_FLAG (arc_ops_fetch_from_peer (inc_cache_misses cache)
          (COBJ_UNSET_FLAG obj COBJ_FLAG_EVICTED) (some []) env.peer1).2.1 COBJ_FLAG_EVICTED)
        ([Event.mutex_lock, Event.test_ownership] ++
          ((arc_ops_fetch_from_peer (inc_cache_misses cache)
            (COBJ_UNSET_FLAG obj COBJ_FLAG_EVICTED) (some []) env.peer1).2.2 ++
            [Event.test_migration_ownership])) ∧
    (COBJ_UNSET_FLAG (arc_ops_fetch_from_peer (inc_cache_misses cache)
      (COBJ_UNSET_FLAG obj COBJ_FLAG_EVICTED) (some []) env.peer1).2.1
      COBJ_FLAG_EVICTED).flags.evicted = false ∧
    peer_fetches (arc_ops_fetch env cache obj).trace = 1 ∧
    Event.ht_get_deep_copy ∈ (arc_ops_fetch env cache obj).trace ∧
    (arc_ops_fetch env cache obj).cache.cnt.fetch_local = cache.cnt.fetch_local + 1 ∧
    (arc_ops_fetch env cache obj).cache.cnt.fetch_remote = cache.cnt.fetch_remote ∧
    (arc_ops_fetch env cache obj).cache.cnt.errors =
      cache.cnt.errors + (if storage_fails env cache then 1 else 0) := by
  have h1 : (arc_ops_fetch_from_peer (inc_cache_misses cache)
      (COBJ_UNSET_FLAG obj COBJ_FLAG_EVICTED) (some []) env.peer1).1 = -1 := by
    rw [fetch_from_peer_rc, hp]
  have hr := remote_migrated env (inc_cache_misses cache)
    (COBJ_UNSET_FLAG obj COBJ_FLAG_EVICTED) h1 hc
  have hd : (arc_ops_fetch_remote env (inc_cache_misses cache)
      (COBJ_UNSET_FLAG obj COBJ_FLAG_EVICTED)).done = false := by rw [hr]
  have he := fetch_remote_local env cache obj hg ho hd
  rw [hr] at he
  rw [he]
  have hcnt := local_counters env (inc_cache_misses cache)
    (COBJ_UNSET_FLAG (arc_ops_fetch_from_peer (inc_cache_misses cache)
      (COBJ_UNSET_FLAG obj COBJ_FLAG_EVICTED) (some []) env.peer1).2.1 COBJ_FLAG_EVICTED)
    ([Event.mutex_lock, Event.test_ownership] ++
      ((arc_ops_fetch_from_peer (inc_cache_misses cache)
        (COBJ_UNSET_FLAG obj COBJ_FLAG_EVICTED) (some []) env.peer1).2.2 ++
        [Event.test_migration_ownership]))
  refine ⟨rfl, ?_, ?_, local_lookup_mem _ _ _ _, hcnt.2.1, hcnt.2.2.1, hcnt.2.2.2.2⟩
  · simp only [unset_evicted]
  · rw [local_peer_fetches]
    simp [peer_fetches_append, peer_fetches_cons, peer_fetches_nil, fetch_from_peer_once]

theorem arc_ops_fetch_migration_fallback_witness :
    peer_fetches (arc_ops_fetch
      { env_local_missing with owner := 0, check := 1 } cache_plain
      (arc_ops_create [1] true true)).trace = 1 :=
  (arc_ops_fetch_migration_fallback { env_local_missing with owner := 0, check := 1 }
    cache_plain (arc_ops_create [1] true true) (by decide) rfl rfl rfl).2.2.1

/-! ## C12: the admission filter -/

/-- C12: after a successful `arc_ops_fetch_from_peer` (synchronous entry: the
peer returned 0 and a non-empty value; asynchronous entry: the request was
issued), DROP is set exactly when `force_caching` is false and the number drawn
from `rand()` is not a multiple of 10. With `force_caching` false, 9 of the 10
residues of the draw set DROP; with `force_caching` true DROP is clear. -/
theorem admission_policy (cache : shardcache_t) (obj : cached_object_t) (p : List Nat)
    (reply : peer_reply) (hrc : reply.rc = 0)
    (hval : obj.flags.async = false → reply.value ≠ []) :
    ((arc_ops_fetch_from_peer cache obj (some p) reply).2.1.flags.drop = true ↔
      (cache.force_caching = false ∧ reply.rnd % 10 ≠ 0)) ∧
    ((List.range 10).filter (fun r =>
      (arc_ops_fetch_from_peer { cache with force_caching := false } obj (some p)
        { reply with rnd := r }).2.1.flags.drop)).length = 9 ∧
    (∀ r : Nat, (arc_ops_fetch_from_peer { cache with force_caching := true } obj (some p)
        { reply with rnd := r }).2.1.flags.drop = false) := by
  have key : ∀ (c : shardcache_t) (r : Nat),
      (arc_ops_fetch_from_peer c obj (some p) { reply with rnd := r }).2.1.flags.drop =
        decide (c.force_caching = false ∧ r % 10 ≠ 0) := by
    intro c r
    cases ha : obj.flags.async
    · have hv : reply.value.length ≠ 0 := by
        intro h0
        exact hval ha (List.eq_nil_of_length_eq_zero h0)
      rw [fetch_from_peer_sync c obj p _ ha]
      simp only [hrc, true_and]
      rw [if_pos hv]
    · rw [fetch_from_peer_async_ok c obj p { reply with rnd := r } ha hrc]
  refine ⟨?_, ?_, ?_⟩
  · have h := key cache reply.rnd
    rw [show ({ reply with rnd := reply.rnd } : peer_reply) = reply from rfl] at h
    rw [h, decide_eq_true_iff]
  · simp only [key]
    decide
  · intro r
    rw [key]
    simp

theorem admission_policy_witness :
    (arc_ops_fetch_from_peer { cache_plain with force_caching := false }
      (arc_ops_create [1] true true) (some [])
      { reply_ok [] with rnd := 13 }).2.1.flags.drop = true :=
  ((admission_policy { cache_plain with force_caching := false }
    (arc_ops_create [1] true true) [] { reply_ok [] with rnd := 13 } rfl
    (by decide)).1).2 (by decide)

/-! ## C13: end of stream on an entry marked DROP -/

/-- C13, counterexample: with the admission filter on, a fetch marks the entry
DROP, a chunk of two bytes arrives, and the end-of-stream callback then calls
`arc_remove` without reporting any size to Arc. -/
theorem drop_removes_without_size_update :
    (run enabled (sys_create { cache_plain with force_caching := false } [1] true true)
        [action.fetch { env_remote [] with peer1 := { reply_ok [] with rnd := 1 } },
          action.callback 5 [1, 2] 0]).map
      (fun s => (s.obj.flags.drop, s.obj.flags.evict, s.obj.data,
        (arc_ops_fetch_from_peer_async_cb s.cache s.obj 5 [1] [] 0).trace)) =
      some (true, false, some [1, 2],
        [Event.mutex_lock, Event.arc_retain_resource, Event.iomux_remove 5,
          Event.release_connection 5, Event.arc_remove [1], Event.mutex_unlock,
          Event.arc_release_resource]) := by
  decide

/-- C13, amended: the end-of-stream callback on an entry marked DROP and not
EVICT, whatever the length of the payload, notifies the listeners of the
completion, hands the descriptor back and then calls `arc_remove` with the key;
`arc_update_size` is not called and the expirer is not armed. -/
theorem async_cb_drop_removes (cache : shardcache_t) (obj : cached_object_t) (fd : Int)
    (key : List Nat) (ls : List shardcache_get_listener_t)
    (hres : obj.res = true) (hl : obj.listeners = some ls)
    (hdrop : obj.flags.drop = true) (hev : obj.flags.evict = false) :
    (arc_ops_fetch_from_peer_async_cb cache obj fd key [] 0).trace =
      [Event.mutex_lock, Event.arc_retain_resource] ++
      ls.map (fun l => Event.listener_cb l.id (complete_args obj.key obj.dlen obj.ts)) ++
      ((if fd > 0 then [Event.iomux_remove fd] else []) ++ [Event.release_connection fd]) ++
      [Event.arc_remove key] ++ [Event.mutex_unlock, Event.arc_release_resource] ∧
    size_updates (arc_ops_fetch_from_peer_async_cb cache obj fd key [] 0).trace = [] := by
  have ht : (arc_ops_fetch_from_peer_async_cb cache obj fd key [] 0).trace =
      [Event.mutex_lock, Event.arc_retain_resource] ++
      ls.map (fun l => Event.listener_cb l.id (complete_args obj.key obj.dlen obj.ts)) ++
      ((if fd > 0 then [Event.iomux_remove fd] else []) ++ [Event.release_connection fd]) ++
      [Event.arc_remove key] ++ [Event.mutex_unlock, Event.arc_release_resource] := by
    rw [cb_eos cache obj fd key ls hres hl]
    simp only [hev, hdrop, Bool.not_false, Bool.true_and, async_cb_complete_drop]
  refine ⟨ht, ?_⟩
  rw [ht]
  split_ifs <;>
    simp [size_updates_append, size_updates_cons, size_updates_nil, size_updates_map]

theorem async_cb_drop_removes_witness :
    size_updates (arc_ops_fetch_from_peer_async_cb cache_plain
      { arc_ops_create [1] true true with
        data := some [1, 2], flags := { COBJ_FLAG_ASYNC with drop := true } }
      5 [1] [] 0).trace = [] :=
  (async_cb_drop_removes cache_plain
    { arc_ops_create [1] true true with
      data := some [1, 2], flags := { COBJ_FLAG_ASYNC with drop := true } }
    5 [1] [] rfl rfl rfl rfl).2

/-! ## C14: the callback with an error indication -/

/-- C14: the callback invoked with an error on an entry that has its resource
and its listener list returns -1 with FETCHING clear, but never calls
`arc_remove` (nor `arc_update_size`): the variable `complete` is still 0, so
the final block, which holds the removal, is skipped. -/
theorem async_cb_error_no_remove (cache : shardcache_t) (obj : cached_object_t) (fd : Int)
    (key data : List Nat) (error : Int) (ls : List shardcache_get_listener_t)
    (hres : obj.res = true) (hl : obj.listeners = some ls) (he : error ≠ 0) :
    (arc_ops_fetch_from_peer_async_cb cache obj fd key data error).rc = -1 ∧
    (arc_ops_fetch_from_peer_async_cb cache obj fd key data error).obj.flags.fetching = false ∧
    (arc_ops_fetch_from_peer_async_cb cache obj fd key data error).trace =
      [Event.mutex_lock, Event.arc_retain_resource] ++
      ls.map (fun l => Event.listener_cb l.id (error_args obj.key)) ++
      [Event.close fd, Event.mutex_unlock, Event.arc_release_resource] ∧
    Event.arc_remove key ∉
      (arc_ops_fetch_from_peer_async_cb cache obj fd key data error).trace := by
  rw [cb_error cache obj fd key data error ls hres hl he]
  refine ⟨rfl, ?_, rfl, ?_⟩
  · rw [async_cb_evict_obj cache _ rfl]
    split_ifs <;> rfl
  · simp

theorem async_cb_error_no_remove_witness :
    Event.arc_remove [1] ∉ (arc_ops_fetch_from_peer_async_cb cache_plain
      { arc_ops_create [1] true true with listeners := some [listener_ok 3] }
      5 [1] [] (-1)).trace :=
  (async_cb_error_no_remove cache_plain
    { arc_ops_create [1] true true with listeners := some [listener_ok 3] }
    5 [1] [] (-1) [listener_ok 3] rfl rfl (by decide)).2.2.2

/-! ## C15: arming of the expirer by `arc_ops_fetch` -/

/-- C15: when `arc_ops_fetch` goes through the local path, the expirer is armed
once, for the key of the entry and with `expire_time`, exactly when the call
returns 0 with `expire_time > 0`, `lazy_expiration` false and neither EVICT nor
EVICTED set on return. When it returns from the peer branch the expirer is
never armed: a synchronous peer fetch that brings a value of two bytes into a
cache with `expire_time` 10 returns 0 without arming it. -/
theorem arc_ops_fetch_expiration (env : fetch_env) (cache : shardcache_t)
    (obj : cached_object_t) :
    (Event.ht_get_deep_copy ∈ (arc_ops_fetch env cache obj).trace →
      expirations (arc_ops_fetch env cache obj).trace =
        (if (arc_ops_fetch env cache obj).rc = 0 ∧ cache.expire_time > 0 ∧
            cache.lazy_expiration = false ∧
            (arc_ops_fetch env cache obj).obj.flags.evict = false ∧
            (arc_ops_fetch env cache obj).obj.flags.evicted = false then
          [(obj.key, cache.expire_time)] else [])) ∧
    (Event.ht_get_deep_copy ∉ (arc_ops_fetch env cache obj).trace →
      expirations (arc_ops_fetch env cache obj).trace = []) ∧
    ((arc_ops_fetch (env_remote [1, 2]) { cache_plain with expire_time := 10 }
        (arc_ops_create [1] false true)).rc = 0 ∧
      (arc_ops_fetch (env_remote [1, 2]) { cache_plain with expire_time := 10 }
        (arc_ops_create [1] false true)).obj.data = some [1, 2] ∧
      (arc_ops_fetch (env_remote [1, 2]) { cache_plain with expire_time := 10 }
        (arc_ops_create [1] false true)).obj.flags =
        { cobj_flags.zero with complete := true } ∧
      expirations (arc_ops_fetch (env_remote [1, 2]) { cache_plain with expire_time := 10 }
        (arc_ops_create [1] false true)).trace = []) := by
  refine ⟨fun hm => ?_, fun hm => ?_, by decide⟩
  · have hg : ¬ piggybacks obj := by
      intro hg
      rw [fetch_piggy env cache obj hg] at hm
      simp at hm
    obtain ⟨o, pre, he, hf, hpre⟩ := fetch_lookup env cache obj hg hm
    have hp : expirations pre = [] := by
      apply expirations_none
      intro e hx
      rcases hpre e hx with h | h | h
      · exact Or.inl h
      · exact Or.inr (Or.inl h)
      · exact Or.inr (Or.inr (Or.inr h))
    rw [he, local_expirations env (inc_cache_misses cache) o pre hp, hf.1]
    rfl
  · exact expirations_none _ (fetch_no_lookup env cache obj hm)

/-! ## C16: counter accounting -/

/-- C16: every call of `arc_ops_fetch` adds one to `cache_misses`; a call that
piggybacks changes neither `fetch_local` nor `fetch_remote`; any other call
adds one to exactly one of them: to `fetch_local` when the local path is
entered, to `fetch_remote` when it returns from the peer branch. Hence `N ≥ 1`
successive calls on a fresh asynchronous entry of a remotely owned key, the
request being issued successfully, make one peer fetch, issue one request, add
`N` to `cache_misses` and 1 to `fetch_remote`, and leave `fetch_local`. -/
theorem arc_ops_fetch_counters (env : fetch_env) (cache : shardcache_t)
    (obj : cached_object_t) (key : List Nat) (res : Bool) (N : Nat) :
    (arc_ops_fetch env cache obj).cache.cnt.cache_misses = cache.cnt.cache_misses + 1 ∧
    (piggybacks obj →
      (arc_ops_fetch env cache obj).cache.cnt.fetch_local = cache.cnt.fetch_local ∧
      (arc_ops_fetch env cache obj).cache.cnt.fetch_remote = cache.cnt.fetch_remote) ∧
    (¬ piggybacks obj →
      (Event.ht_get_deep_copy ∈ (arc_ops_fetch env cache obj).trace ∧
        (arc_ops_fetch env cache obj).cache.cnt.fetch_local = cache.cnt.fetch_local + 1 ∧
        (arc_ops_fetch env cache obj).cache.cnt.fetch_remote = cache.cnt.fetch_remote) ∨
      (Event.ht_get_deep_copy ∉ (arc_ops_fetch env cache obj).trace ∧
        (arc_ops_fetch env cache obj).cache.cnt.fetch_local = cache.cnt.fetch_local ∧
        (arc_ops_fetch env cache obj).cache.cnt.fetch_remote =
          cache.cnt.fetch_remote + 1)) ∧
    (1 ≤ N → env.owner = 0 → env.peer1.rc = 0 →
      peer_fetches (fetch_times env N (cache, arc_ops_create key true res, [])).2.2 = 1 ∧
      async_issued (fetch_times env N (cache, arc_ops_create key true res, [])).2.2 = 1 ∧
      (fetch_times env N (cache, arc_ops_create key true res, [])).1.cnt.cache_misses =
        cache.cnt.cache_misses + N ∧
      (fetch_times env N (cache, arc_ops_create key true res, [])).1.cnt.fetch_remote =
        cache.cnt.fetch_remote + 1 ∧
      (fetch_times env N (cache, arc_ops_create key true res, [])).1.cnt.fetch_local =
        cache.cnt.fetch_local) := by
  have hc := fetch_counters env cache obj
  refine ⟨hc.1, hc.2.1, hc.2.2, ?_⟩
  intro hN ho hrc
  obtain ⟨n, rfl⟩ : ∃ n, N = n + 1 := ⟨N - 1, by omega⟩
  obtain ⟨f1, f2, f3, f4⟩ := fetch_first_async env cache key res ho hrc
  have e : fetch_times env (n + 1) (cache, arc_ops_create key true res, []) =
      fetch_times env n
        ((arc_ops_fetch env cache (arc_ops_create key true res)).cache,
          (arc_ops_fetch env cache (arc_ops_create key true res)).obj,
          [] ++ (arc_ops_fetch env cache (arc_ops_create key true res)).trace) := by
    rw [fetch_times]
  rw [e]
  obtain ⟨-, h2, h3, h4, h5, h6⟩ := fetch_times_piggy env _ f1 n
    (arc_ops_fetch env cache (arc_ops_create key true res)).cache
    ([] ++ (arc_ops_fetch env cache (arc_ops_create key true res)).trace)
  rw [h2, h3, h4, h5, h6, f2, List.nil_append, f3, f4]
  refine ⟨rfl, rfl, ?_, rfl, rfl⟩
  simp only [inc_fetch_remote, inc_cache_misses]
  omega

theorem arc_ops_fetch_counters_witness :
    (fetch_times (env_remote []) 3
      (cache_plain, arc_ops_create [1] true true, [])).1.cnt.cache_misses =
      cache_plain.cnt.cache_misses + 3 :=
  ((arc_ops_fetch_counters (env_remote []) cache_plain (arc_ops_create [1] true true)
    [1] true 3).2.2.2 (by decide) rfl rfl).2.2.1

/-! ## C17: lock and resource in the callback -/

/-- C17, counterexample: the first event of the callback is the lock, and the
resource is retained after it; on an entry without resource the callback
returns without retaining or releasing anything. -/
theorem retain_follows_lock :
    (arc_ops_fetch_from_peer_async_cb cache_plain (arc_ops_create [1] true true)
      5 [1] [] 0).trace.take 2 = [Event.mutex_lock, Event.arc_retain_resource] ∧
    (arc_ops_fetch_from_peer_async_cb cache_plain (arc_ops_create [1] true false)
      5 [1] [] 0).trace = [Event.mutex_lock, Event.mutex_unlock] := by
  decide

/-- C17, amended: every invocation of the callback takes the entry lock first.
When the entry has its resource, the resource is retained next, while the lock
is held, and it is released last, after the lock was released; when the entry
has no resource the callback only locks and unlocks. In between there is no
other lock, unlock, retain or release. -/
theorem async_cb_lock_order (cache : shardcache_t) (obj : cached_object_t) (fd : Int)
    (key data : List Nat) (error : Int) :
    ∃ mid : List Event,
      (∀ e ∈ mid, e ≠ Event.mutex_lock ∧ e ≠ Event.mutex_unlock ∧
        e ≠ Event.arc_retain_resource ∧ e ≠ Event.arc_release_resource) ∧
      (arc_ops_fetch_from_peer_async_cb cache obj fd key data error).trace =
        (if obj.res = true then
          [Event.mutex_lock, Event.arc_retain_resource] ++ mid ++
            [Event.mutex_unlock, Event.arc_release_resource]
         else [Event.mutex_lock] ++ mid ++ [Event.mutex_unlock]) := by
  have hmap : ∀ (ls : List shardcache_get_listener_t) (a : cb_args),
      ∀ e ∈ ls.map (fun l => Event.listener_cb l.id a),
        e ≠ Event.mutex_lock ∧ e ≠ Event.mutex_unlock ∧
        e ≠ Event.arc_retain_resource ∧ e ≠ Event.arc_release_resource := by
    intro ls a e he
    obtain ⟨l, -, rfl⟩ := List.mem_map.1 he
    exact ⟨Event.noConfusion, Event.noConfusion, Event.noConfusion, Event.noConfusion⟩
  have hfd : ∀ e ∈ (if fd > 0 then [Event.iomux_remove fd] else []) ++
      [Event.release_connection fd],
      e ≠ Event.mutex_lock ∧ e ≠ Event.mutex_unlock ∧
      e ≠ Event.arc_retain_resource ∧ e ≠ Event.arc_release_resource := by
    intro e hm
    rw [List.mem_append, List.mem_singleton] at hm
    rcases hm with hm | rfl
    · split_ifs at hm
      · rw [List.mem_singleton] at hm
        subst hm
        exact ⟨Event.noConfusion, Event.noConfusion, Event.noConfusion, Event.noConfusion⟩
      · exact absurd hm (List.not_mem_nil _)
    · exact ⟨Event.noConfusion, Event.noConfusion, Event.noConfusion, Event.noConfusion⟩
  cases hres : obj.res
  · rw [cb_no_res cache obj fd key data error hres]
    refine ⟨(obj.listeners.getD []).map
      (fun l => Event.listener_cb l.id (error_args obj.key)), hmap _ _, ?_⟩
    simp only [Bool.false_eq_true, if_false]
  · cases hl : obj.listeners with
    | none =>
      rw [cb_no_listeners cache obj fd key data error hres hl]
      refine ⟨[], fun e hm => absurd hm (List.not_mem_nil _), ?_⟩
      simp only [if_true, List.append_nil, List.cons_append, List.nil_append]
    | some ls =>
      by_cases he : error = 0
      · subst he
        by_cases hd : data = []
        · subst hd
          rw [cb_eos cache obj fd key ls hres hl]
          refine ⟨ls.map (fun l => Event.listener_cb l.id
              (complete_args obj.key obj.dlen obj.ts)) ++
            ((if fd > 0 then [Event.iomux_remove fd] else []) ++
              [Event.release_connection fd]) ++
            async_cb_complete cache
              (async_cb_evict cache
                { obj with listeners := some []
                           flags := { obj.flags with complete := true, fetching := false } }).2
              key 0 (size_to_int obj.dlen)
              (!obj.flags.evict && obj.flags.drop), ?_, ?_⟩
          · intro e hm
            rw [List.mem_append, List.mem_append] at hm
            rcases hm with (hm | hm) | hm
            · exact hmap _ _ e hm
            · exact hfd e hm
            · rcases async_cb_complete_events _ _ _ _ _ _ e hm with h | h | h <;>
                subst h <;>
                exact ⟨Event.noConfusion, Event.noConfusion, Event.noConfusion,
                  Event.noConfusion⟩
          · simp only [if_true, List.append_assoc]
        · rw [cb_chunk cache obj fd key data ls hres hl hd]
          refine ⟨ls.map (fun l => Event.listener_cb l.id (chunk_args obj.key data)),
            hmap _ _, ?_⟩
          simp only [if_true]
      · rw [cb_error cache obj fd key data error ls hres hl he]
        refine ⟨ls.map (fun l => Event.listener_cb l.id (error_args obj.key)) ++
          [Event.close fd], ?_, ?_⟩
        · intro e hm
          rw [List.mem_append, List.mem_singleton] at hm
          rcases hm with hm | hm
          · exact hmap _ _ e hm
          · subst hm
            exact ⟨Event.noConfusion, Event.noConfusion, Event.noConfusion,
              Event.noConfusion⟩
        · simp only [if_true, List.append_assoc, List.singleton_append, List.cons_append,
            List.nil_append]

/-! ## C18: handing the descriptor back -/

/-- C18: in the end-of-stream branch the descriptor is always handed to the
connection pool, but it is detached from the multiplexer first only when it is
greater than 0; the descriptor 0 is released without having been detached. -/
theorem async_cb_fd_handoff (cache : shardcache_t) (obj : cached_object_t) (fd : Int)
    (key : List Nat) (ls : List shardcache_get_listener_t)
    (hres : obj.res = true) (hl : obj.listeners = some ls) :
    Event.release_connection fd ∈
      (arc_ops_fetch_from_peer_async_cb cache obj fd key [] 0).trace ∧
    (Event.iomux_remove fd ∈
      (arc_ops_fetch_from_peer_async_cb cache obj fd key [] 0).trace ↔ fd > 0) ∧
    (arc_ops_fetch_from_peer_async_cb cache_plain (arc_ops_create [1] true true)
      0 [1] [] 0).trace =
      [Event.mutex_lock, Event.arc_retain_resource, Event.release_connection 0,
        Event.mutex_unlock, Event.arc_release_resource] := by
  refine ⟨?_, ?_, by decide⟩
  · rw [cb_eos cache obj fd key ls hres hl]
    exact List.mem_append_left _ (List.mem_append_left _ (List.mem_append_right _
      (List.mem_append_right _ (List.mem_singleton_self _))))
  · rw [cb_eos cache obj fd key ls hres hl]
    constructor
    · intro hm
      simp only [List.mem_append, List.mem_cons, List.mem_singleton, List.mem_map,
        List.not_mem_nil, or_false] at hm
      rcases hm with ((((hm | hm) | ⟨l, -, hm⟩) | (hm | hm)) | hm) | (hm | hm)
      · exact Event.noConfusion hm
      · exact Event.noConfusion hm
      · exact Event.noConfusion hm
      · by_contra hfd
        rw [if_neg hfd] at hm
        exact absurd hm (List.not_mem_nil _)
      · exact Event.noConfusion hm
      · rcases async_cb_complete_events _ _ _ _ _ _ _ hm with h | h | h <;>
          exact Event.noConfusion h
      · exact Event.noConfusion hm
      · exact Event.noConfusion hm
    · intro hfd
      refine List.mem_append_left _ (List.mem_append_left _ (List.mem_append_right _
        (List.mem_append_left _ ?_)))
      rw [if_pos hfd]
      exact List.mem_singleton_self _

theorem async_cb_fd_handoff_witness :
    Event.release_connection 0 ∈
      (arc_ops_fetch_from_peer_async_cb cache_plain (arc_ops_create [1] true true)
        0 [1] [] 0).trace :=
  (async_cb_fd_handoff cache_plain (arc_ops_create [1] true true) 0 [1] [] rfl rfl).1

/-! ## C19: routing of a key by the client -/

/-- C19: with more than one shard and the sharded routing on, `select_node`
returns the address of the first shard whose label begins with the owner label
found by the ring lookup, not of the shard whose label is equal to it. With the
shards labelled `[1, 2]` and `[1]` and the owner `[1]` it returns the address
of the first shard, whereas `shardcache_get_node` finds the second. -/
theorem select_node_first_match (c : shardcache_client_t) (node_name : List Nat)
    (conn : Nat → Option (List Nat) → Int) (rs : List Nat)
    (hn : 1 < c.shards.length) (hr : c.use_random_node = false)
    (h0 : ∀ x ∈ node_name, x ≠ 0) :
    (select_node c node_name node_name.length false conn rs).map (fun r => r.addr) =
      some ((c.shards.find? (fun s => decide (node_name <+: s.label))).map
        (fun s => s.address)) ∧
    (select_node client_two [1] 1 false conn_refused []).map (fun r => r.addr) =
      some (some [10]) ∧
    shardcache_get_node client_two [1] = some 1 ∧
    node_address client_two (shardcache_get_node client_two [1]) = some [11] := by
  refine ⟨?_, by decide, by decide, by decide⟩
  have h1 : ¬ c.shards.length = 1 := by omega
  have hp : (fun s : shardcache_node_t =>
      decide (strncmp node_name s.label node_name.length = 0)) =
      (fun s : shardcache_node_t => decide (node_name <+: s.label)) := by
    funext s
    rw [decide_eq_decide]
    exact strncmp_begins node_name h0 s.label
  unfold select_node
  simp only [if_neg h1, hr, Bool.false_eq_true, if_false, Option.map_some']
  rw [scan_address, hp]

theorem select_node_first_match_witness :
    (select_node client_two [1] 1 false conn_refused []).map (fun r => r.addr) =
      some ((client_two.shards.find? (fun s => decide ([1] <+: s.label))).map
        (fun s => s.address)) :=
  (select_node_first_match client_two [1] conn_refused [] (by decide) rfl
    (by decide)).1

/-! ## C20: failover in the pinned-random mode -/

/-- C20: in the pinned-random mode with more than one shard, a call of
`select_node` that asks for a descriptor makes at least one and at most four
connection attempts; every attempt but the last failed, so it stops at the
first success, and it stops after a failure only when four attempts were made;
the node of each attempt differs from the node of the attempt before; the
nodes of the retries are, in order, the nodes written to `current_node`, whose
final value is the last node chosen. The call returns whenever the draws of
`random()` supply a node other than the previous one each time. -/
theorem select_node_failover (c : shardcache_client_t) (node_name : List Nat)
    (name_len : Nat) (conn : Nat → Option (List Nat) → Int) (rs : List Nat)
    (r : select_result)
    (hr : c.use_random_node = true) (hn : 1 < c.shards.length)
    (h : select_node c node_name name_len true conn rs = some r) :
    1 ≤ r.attempts.length ∧ r.attempts.length ≤ 4 ∧
    (∀ a ∈ r.attempts.dropLast, a.2 < 0) ∧
    r.fd = r.attempts.getLast?.map (fun a => a.2) ∧
    ((∃ f, r.fd = some f ∧ 0 ≤ f) ∨ r.attempts.length = 4) ∧
    List.Chain' (fun a b => a.1 ≠ b.1) r.attempts ∧
    r.attempts.tail.map (fun a => a.1) <+: r.chosen.map some ∧
    (r.chosen ≠ [] → r.current_node = r.chosen.getLast?) ∧
    ((∃ f, r.fd = some f ∧ f < 0) → r.chosen.length = r.attempts.length) ∧
    (∀ rs2 : List Nat,
      List.Chain (fun a b => a ≠ b) c.current_node
        (rs2.map (fun x => some (x % c.shards.length))) →
      5 ≤ rs2.length →
      (select_node c node_name name_len true conn rs2).isSome = true) := by
  have h1 : ¬ c.shards.length = 1 := by omega
  have key : ∀ (node cur : Option Nat) (rs1 : List Nat),
      select_node_connect c conn 3 0 node cur rs1 = some r →
      1 ≤ r.attempts.length ∧ r.attempts.length ≤ 4 ∧
      (∀ a ∈ r.attempts.dropLast, a.2 < 0) ∧
      r.fd = r.attempts.getLast?.map (fun a => a.2) ∧
      ((∃ f, r.fd = some f ∧ 0 ≤ f) ∨ r.attempts.length = 4) ∧
      List.Chain' (fun a b => a.1 ≠ b.1) r.attempts ∧
      r.attempts.tail.map (fun a => a.1) <+: r.chosen.map some ∧
      (r.chosen ≠ [] → r.current_node = r.chosen.getLast?) ∧
      ((∃ f, r.fd = some f ∧ f < 0) → r.chosen.length = r.attempts.length) := by
    intro node cur rs1 hc
    obtain ⟨i1, i2, i3, i4, i5, i6, i7, i8, i9⟩ :=
      select_node_connect_spec c conn hr hn 3 0 node cur rs1 r hc
    refine ⟨?_, i1, i4, i5, i6, i3, i7, ?_, i9⟩
    · cases ha : r.attempts with
      | nil => rw [ha] at i2; exact absurd i2 (by simp)
      | cons a t => simp
    · intro hne
      rw [i8]
      have hy : r.chosen.getLast? = some (r.chosen.getLast hne) :=
        List.getLast?_eq_getLast _ _
      rw [hy]
  have hp := by
    unfold select_node at h
    simp only [if_neg h1, hr, if_true] at h
    cases hcur : c.current_node with
    | some i =>
      rw [hcur] at h
      exact key _ _ _ h
    | none =>
      rw [hcur] at h
      cases rs with
      | nil => exact absurd h (by simp)
      | cons x xs => exact key _ _ _ h
  have ht : ∀ rs2 : List Nat,
      List.Chain (fun a b => a ≠ b) c.current_node
        (rs2.map (fun x => some (x % c.shards.length))) →
      5 ≤ rs2.length →
      (select_node c node_name name_len true conn rs2).isSome = true := by
    intro rs2 hch hlen
    unfold select_node
    simp only [if_neg h1, hr, if_true]
    cases hcur : c.current_node with
    | some i =>
      rw [hcur] at hch
      exact select_node_connect_total c conn 3 0 _ _ rs2 hch (by omega)
    | none =>
      cases rs2 with
      | nil => simp at hlen
      | cons x xs =>
        simp only [List.map_cons, List.chain_cons] at hch
        simp only [List.length_cons] at hlen
        exact select_node_connect_total c conn 3 0 _ _ xs hch.2 (by omega)
  exact ⟨hp.1, hp.2.1, hp.2.2.1, hp.2.2.2.1, hp.2.2.2.2.1, hp.2.2.2.2.2.1,
    hp.2.2.2.2.2.2.1, hp.2.2.2.2.2.2.2.1, hp.2.2.2.2.2.2.2.2, ht⟩

theorem select_node_failover_witness :
    ((select_node client_random [1] 1 true conn_refused [0, 1, 0, 1, 0]).get
      (by decide)).attempts.length ≤ 4 :=
  (select_node_failover client_random [1] 1 conn_refused [0, 1, 0, 1, 0]
    ((select_node client_random [1] 1 true conn_refused [0, 1, 0, 1, 0]).get (by decide))
    rfl (by decide) (Option.some_get _).symm).2.1

/-! ## C21: grouping of a request on several keys -/

/-- C21: the buckets returned by `shc_split_buckets` carry distinct tags, none
is empty, and the bucket of a tag holds exactly the items whose owner name is
that tag, in the order of the request array, each as many times as it occurs
there; the owner name of every item is the tag of a bucket. The name used is
the owner label itself when the ring lookup gives the label with its length.
`shc_multi_context_create`, when it returns a context, stores the items of the
bucket in `ctx->items` and their commands in the buffer in that same order, so
that the response number `i` goes to the item number `i` of the owner; it
returns a context whenever every message can be built. -/
theorem shc_split_buckets_partition (chash_lookup : List Nat → List Nat × Nat)
    (build_message : shc_multi_item_t → Option (List Nat)) (items : List shc_multi_item_t) :
    ((shc_split_buckets chash_lookup items).map (fun b => b.1)).Nodup ∧
    (∀ b ∈ shc_split_buckets chash_lookup items,
      b.2 ≠ [] ∧ b.2 = items.filter (fun it =>
        decide (name_string (chash_lookup it.key).1 (chash_lookup it.key).2 = b.1))) ∧
    (∀ it ∈ items, name_string (chash_lookup it.key).1 (chash_lookup it.key).2 ∈
      (shc_split_buckets chash_lookup items).map (fun b => b.1)) ∧
    (∀ b ∈ shc_split_buckets chash_lookup items, ∀ it : shc_multi_item_t,
      b.2.count it =
        (if name_string (chash_lookup it.key).1 (chash_lookup it.key).2 = b.1
         then items.count it else 0)) ∧
    (∀ k : List Nat, (∀ x ∈ (chash_lookup k).1, x ≠ 0) →
      (chash_lookup k).2 = (chash_lookup k).1.length →
      name_string (chash_lookup k).1 (chash_lookup k).2 = (chash_lookup k).1) ∧
    (∀ b ∈ shc_split_buckets chash_lookup items, ∀ ctx : shc_multi_ctx_t,
      shc_multi_context_create build_message b.1 b.2 = some ctx →
      ctx.items = b.2.map some ∧ ctx.commands.map some = b.2.map build_message ∧
      ctx.response_index = 0 ∧ ctx.num_requests = b.2.length ∧
      ∀ i : Nat, shc_multi_collect_data { ctx with response_index := i } =
        (items.filter (fun it =>
          decide (name_string (chash_lookup it.key).1 (chash_lookup it.key).2 = b.1))).get? i) ∧
    (∀ b ∈ shc_split_buckets chash_lookup items,
      (∀ it ∈ b.2, (build_message it).isSome = true) →
      (shc_multi_context_create build_message b.1 b.2).isSome = true) := by
  have hinv := split_loop_inv chash_lookup items [] [] (by simp) (by simp) (by simp)
  simp only [List.nil_append] at hinv
  obtain ⟨h1, h2, h3⟩ := hinv
  refine ⟨h1, h2, h3, ?_, ?_, ?_, ?_⟩
  · intro b hb it
    have hf := (h2 b hb).2
    by_cases hp : name_string (chash_lookup it.key).1 (chash_lookup it.key).2 = b.1
    · rw [if_pos hp, hf]
      exact List.count_filter (decide_eq_true hp)
    · rw [if_neg hp, hf]
      apply List.count_eq_zero_of_not_mem
      intro hm
      rw [List.mem_filter, decide_eq_true_eq] at hm
      exact hp hm.2
  · intro k h0 hlen
    rw [hlen]
    exact name_string_label _ h0
  · intro b hb ctx hc
    obtain ⟨c1, c2, c3, c4, c5⟩ := context_create_spec build_message b.1 b.2 ctx hc
    refine ⟨c1, c5, c3, c2, fun i => ?_⟩
    rw [← (h2 b hb).2]
    unfold shc_multi_collect_data
    simp only [c1, List.get?_eq_getElem?, List.getElem?_map]
    cases b.2[i]? <;> rfl
  · intro b _ hall
    exact context_create_total build_message b.1 b.2 hall

/-! ## C22: the return code of `arc_ops_fetch` -/

/-- C22, counterexample: the entry has COMPLETE clear, the key is owned
locally and the volatile store holds a buffer of length zero for it: the local
path ends with empty data, and the call returns 0, not 1, with the size
written (0) and `not_found` unchanged. -/
theorem zero_length_volatile_value_returns_zero :
    (arc_ops_create [1] false true).flags.complete = false ∧
    Event.ht_get_deep_copy ∈
      (arc_ops_fetch { env_local_missing with vobj := some (some []) } cache_plain
        (arc_ops_create [1] false true)).trace ∧
    (arc_ops_fetch { env_local_missing with vobj := some (some []) } cache_plain
      (arc_ops_create [1] false true)).obj.dlen = 0 ∧
    (arc_ops_fetch { env_local_missing with vobj := some (some []) } cache_plain
      (arc_ops_create [1] false true)).rc = 0 ∧
    (arc_ops_fetch { env_local_missing with vobj := some (some []) } cache_plain
      (arc_ops_create [1] false true)).size = some 0 ∧
    (arc_ops_fetch { env_local_missing with vobj := some (some []) } cache_plain
      (arc_ops_create [1] false true)).cache.cnt.not_found = 0 := by
  decide

/-- C22, amended: for an entry with COMPLETE clear, `arc_ops_fetch` returns -1,
0 or 1. It returns -1 exactly when it returns from the peer block after the
last peer fetch failed, or when it takes the local path and the storage fetch
returns -1; `errors` grows by one in exactly those cases. It returns 1 exactly
when the local path ends with the data pointer NULL (a buffer of length zero
does not count), or when it returns from the peer block after a synchronous
fetch that brought a non-empty value which the admission filter marked DROP. On
the first of these the size is not written and `not_found` grows by one; on the
second the size is the length of the value and `not_found` is unchanged. The
local path is taken exactly when the volatile store is looked up. -/
theorem arc_ops_fetch_return_code (env : fetch_env) (cache : shardcache_t)
    (obj : cached_object_t) (hc : obj.flags.complete = false) :
    ((arc_ops_fetch env cache obj).rc = -1 ∨ (arc_ops_fetch env cache obj).rc = 0 ∨
      (arc_ops_fetch env cache obj).rc = 1) ∧
    ((arc_ops_fetch env cache obj).rc = -1 ↔
      (returns_from_peer env cache obj ∧ (final_reply env).rc ≠ 0) ∨
      (takes_local env cache obj ∧ storage_fails env cache)) ∧
    (arc_ops_fetch env cache obj).cache.cnt.errors =
      cache.cnt.errors + (if (arc_ops_fetch env cache obj).rc = -1 then 1 else 0) ∧
    ((arc_ops_fetch env cache obj).rc = 1 ↔
      (takes_local env cache obj ∧ ¬ storage_fails env cache ∧ local_data env cache = none) ∨
      (returns_from_peer env cache obj ∧ obj.flags.async = false ∧
        (final_reply env).rc = 0 ∧ (final_reply env).value ≠ [] ∧
        cache.force_caching = false ∧ (final_reply env).rnd % 10 ≠ 0)) ∧
    (takes_local env cache obj → (arc_ops_fetch env cache obj).rc = 1 →
      (arc_ops_fetch env cache obj).size = none ∧
      (arc_ops_fetch env cache obj).cache.cnt.not_found = cache.cnt.not_found + 1) ∧
    (returns_from_peer env cache obj → (arc_ops_fetch env cache obj).rc = 1 →
      (arc_ops_fetch env cache obj).size = some (final_reply env).value.length ∧
      (arc_ops_fetch env cache obj).cache.cnt.not_found = cache.cnt.not_found) ∧
    (takes_local env cache obj ↔
      Event.ht_get_deep_copy ∈ (arc_ops_fetch env cache obj).trace) := by
  by_cases hg : piggybacks obj
  · have hl : ¬ takes_local env cache obj := fun h => h.1 hg
    have hp : ¬ returns_from_peer env cache obj := fun h => h.1 hg
    rw [fetch_piggy env cache obj hg]
    refine ⟨Or.inr (Or.inl rfl), ?_, ?_, ?_, fun h => absurd h hl, fun h => absurd h hp, ?_⟩
    · exact ⟨fun h => absurd (show (0 : Int) = -1 from h) (by decide),
        fun h => h.elim (fun h1 => absurd h1.1 hp) (fun h1 => absurd h1.1 hl)⟩
    · rw [if_neg (fun h => absurd (show (0 : Int) = -1 from h) (by decide))]
      rfl
    · exact ⟨fun h => absurd (show (0 : Int) = 1 from h) (by decide),
        fun h => h.elim (fun h1 => absurd h1.1 hl) (fun h1 => absurd h1.1 hp)⟩
    · exact ⟨fun h => absurd h hl, fun h => by simp at h⟩
  · have hd : (COBJ_UNSET_FLAG obj COBJ_FLAG_EVICTED).data = none := by
      simp only [unset_evicted]
      exact not_piggybacks_data hg
    have hc0 : (COBJ_UNSET_FLAG obj COBJ_FLAG_EVICTED).flags.complete = false := by
      simp only [unset_evicted]
      exact hc
    have ha0 : (COBJ_UNSET_FLAG obj COBJ_FLAG_EVICTED).flags.async = obj.flags.async := by
      simp only [unset_evicted]
    have hlocal : ∀ (o : cached_object_t) (pre : List Event), o.data = none →
        takes_local env cache obj →
        arc_ops_fetch env cache obj = arc_ops_fetch_local env (inc_cache_misses cache) o pre →
        ((arc_ops_fetch env cache obj).rc = -1 ∨ (arc_ops_fetch env cache obj).rc = 0 ∨
          (arc_ops_fetch env cache obj).rc = 1) ∧
        ((arc_ops_fetch env cache obj).rc = -1 ↔
          (returns_from_peer env cache obj ∧ (final_reply env).rc ≠ 0) ∨
          (takes_local env cache obj ∧ storage_fails env cache)) ∧
        (arc_ops_fetch env cache obj).cache.cnt.errors =
          cache.cnt.errors + (if (arc_ops_fetch env cache obj).rc = -1 then 1 else 0) ∧
        ((arc_ops_fetch env cache obj).rc = 1 ↔
          (takes_local env cache obj ∧ ¬ storage_fails env cache ∧
            local_data env cache = none) ∨
          (returns_from_peer env cache obj ∧ obj.flags.async = false ∧
            (final_reply env).rc = 0 ∧ (final_reply env).value ≠ [] ∧
            cache.force_caching = false ∧ (final_reply env).rnd % 10 ≠ 0)) ∧
        (takes_local env cache obj → (arc_ops_fetch env cache obj).rc = 1 →
          (arc_ops_fetch env cache obj).size = none ∧
          (arc_ops_fetch env cache obj).cache.cnt.not_found = cache.cnt.not_found + 1) ∧
        (returns_from_peer env cache obj → (arc_ops_fetch env cache obj).rc = 1 →
          (arc_ops_fetch env cache obj).size = some (final_reply env).value.length ∧
          (arc_ops_fetch env cache obj).cache.cnt.not_found = cache.cnt.not_found) ∧
        (takes_local env cache obj ↔
          Event.ht_get_deep_copy ∈ (arc_ops_fetch env cache obj).trace) := by
      intro o pre hod hl he
      have hp : ¬ returns_from_peer env cache obj := by
        intro h
        rcases hl.2 with h1 | h1
        · exact h1 h.2.1
        · exact h.2.2 h1
      have hcnt := local_counters env (inc_cache_misses cache) o pre
      have hrc := local_rc env (inc_cache_misses cache) o pre hod
      have hsf : storage_fails env (inc_cache_misses cache) ↔ storage_fails env cache :=
        Iff.rfl
      have hld : local_data env (inc_cache_misses cache) = local_data env cache := rfl
      rw [hld] at hrc
      rw [he]
      refine ⟨hrc.2.1, ?_, ?_, ?_, fun _ => hrc.2.2, fun h => absurd h hp,
        ⟨fun _ => local_lookup_mem _ _ _ _, fun _ => hl⟩⟩
      · rw [hcnt.2.2.2.1]
        exact ⟨fun h => Or.inr ⟨hl, hsf.1 h⟩,
          fun h => h.elim (fun h1 => absurd h1.1 hp) (fun h1 => hsf.2 h1.2)⟩
      · rw [hcnt.2.2.2.2]
        by_cases hf : storage_fails env (inc_cache_misses cache)
        · rw [if_pos hf, if_pos (hcnt.2.2.2.1.2 hf)]
          rfl
        · rw [if_neg hf, if_neg (fun h => hf (hcnt.2.2.2.1.1 h))]
          rfl
      · rw [hrc.1]
        exact ⟨fun h => Or.inl ⟨hl, fun h2 => h.1 (hsf.2 h2), h.2⟩,
          fun h => h.elim (fun h1 => ⟨fun h2 => h1.2.1 (hsf.1 h2), h1.2.2⟩)
            (fun h1 => absurd h1.1 hp)⟩
    by_cases ho : env.owner = 0
    · have hs := remote_state env (inc_cache_misses cache)
        (COBJ_UNSET_FLAG obj COBJ_FLAG_EVICTED) hd hc0
      have hft : falls_through env (inc_cache_misses cache) ↔ falls_through env cache :=
        Iff.rfl
      rw [ha0] at hs
      by_cases hfall : falls_through env cache
      · have hdone : (arc_ops_fetch_remote env (inc_cache_misses cache)
            (COBJ_UNSET_FLAG obj COBJ_FLAG_EVICTED)).done = false := by
          cases hx : (arc_ops_fetch_remote env (inc_cache_misses cache)
            (COBJ_UNSET_FLAG obj COBJ_FLAG_EVICTED)).done
          · rfl
          · exact absurd (hft.2 hfall) (hs.2.1.1 hx)
        have hfr : (final_reply env).rc = -1 := by
          rcases hfall.2 with h1 | h1
          · have hn0 : ¬ (env.peer1.rc = -1 ∧ env.check = 0) := by
              intro h
              rw [h1] at h
              exact absurd h.2 (by decide)
            have hfin : final_reply env = env.peer1 := by
              unfold final_reply
              rw [if_neg hn0]
            rw [hfin]
            exact hfall.1
          · exact h1.1
        have hneg : ¬ (obj.flags.async = false ∧ (final_reply env).rc = 0 ∧
            (final_reply env).value ≠ []) := by
          intro h
          rw [hfr] at h
          exact absurd h.2.1 (by decide)
        have hnone := (hs.2.2.2.2 hneg).1
        exact hlocal _ _ hnone ⟨hg, Or.inr hfall⟩ (fetch_remote_local env cache obj hg ho hdone)
      · have hdone : (arc_ops_fetch_remote env (inc_cache_misses cache)
            (COBJ_UNSET_FLAG obj COBJ_FLAG_EVICTED)).done = true :=
          hs.2.1.2 (fun h => hfall (hft.1 h))
        have hl : ¬ takes_local env cache obj := by
          intro h
          rcases h.2 with h1 | h1
          · exact h1 ho
          · exact hfall h1
        have hp : returns_from_peer env cache obj := ⟨hg, ho, hfall⟩
        by_cases hret : (final_reply env).rc = 0
        · have hr0 : (arc_ops_fetch_remote env (inc_cache_misses cache)
              (COBJ_UNSET_FLAG obj COBJ_FLAG_EVICTED)).ret = 0 := by rw [hs.1, hret]
          obtain ⟨f1, f2, f3, f4, f5⟩ := fetch_peer_ok env cache obj hg ho hdone hr0
          by_cases hv : obj.flags.async = false ∧ (final_reply env).rc = 0 ∧
              (final_reply env).value ≠ []
          · obtain ⟨v1, v2, v3⟩ := hs.2.2.2.1 hv
            have hdl : (arc_ops_fetch_remote env (inc_cache_misses cache)
                (COBJ_UNSET_FLAG obj COBJ_FLAG_EVICTED)).obj.dlen =
                (final_reply env).value.length := by
              unfold cached_object_t.dlen
              rw [v1]
            rw [hdl] at f2
            by_cases hadm : cache.force_caching = false ∧ (final_reply env).rnd % 10 ≠ 0
            · have hadm2 : (inc_cache_misses cache).force_caching = false ∧
                  (final_reply env).rnd % 10 ≠ 0 := hadm
              rw [v2, v3, decide_eq_true hadm2, if_pos ⟨rfl, rfl⟩] at f1
              rw [f1, f2, f3, f4]
              refine ⟨Or.inr (Or.inr rfl), ?_, ?_, ?_, fun h => absurd h hl,
                fun _ _ => ⟨rfl, rfl⟩, ⟨fun h => absurd h hl, fun h => absurd h f5⟩⟩
              · exact ⟨fun h => absurd h (by decide),
                  fun h => h.elim (fun h1 => absurd hret h1.2) (fun h1 => absurd h1.1 hl)⟩
              · rw [if_neg (by decide)]
                rfl
              · exact ⟨fun _ => Or.inr ⟨hp, hv.1, hv.2.1, hv.2.2, hadm.1, hadm.2⟩,
                  fun _ => rfl⟩
            · have hadm2 : ¬ ((inc_cache_misses cache).force_caching = false ∧
                  (final_reply env).rnd % 10 ≠ 0) := hadm
              rw [v2, v3, decide_eq_false hadm2] at f1
              simp only [Bool.false_eq_true, false_and, if_false] at f1
              rw [f1, f3]
              refine ⟨Or.inr (Or.inl rfl), ?_, ?_, ?_, fun h => absurd h hl,
                fun _ h => absurd h (by decide),
                ⟨fun h => absurd h hl, fun h => absurd h f5⟩⟩
              · exact ⟨fun h => absurd h (by decide),
                  fun h => h.elim (fun h1 => absurd hret h1.2) (fun h1 => absurd h1.1 hl)⟩
              · rw [if_neg (by decide)]
                rfl
              · exact ⟨fun h => absurd h (by decide),
                  fun h => h.elim (fun h1 => absurd h1.1 hl)
                    (fun h1 => absurd ⟨h1.2.2.2.2.1, h1.2.2.2.2.2⟩ hadm)⟩
          · obtain ⟨_, v2⟩ := hs.2.2.2.2 hv
            rw [v2] at f1
            simp only [Bool.false_eq_true, and_false, if_false] at f1
            rw [f1, f3]
            refine ⟨Or.inr (Or.inl rfl), ?_, ?_, ?_, fun h => absurd h hl,
              fun _ h => absurd h (by decide),
              ⟨fun h => absurd h hl, fun h => absurd h f5⟩⟩
            · exact ⟨fun h => absurd h (by decide),
                fun h => h.elim (fun h1 => absurd hret h1.2) (fun h1 => absurd h1.1 hl)⟩
            · rw [if_neg (by decide)]
              rfl
            · exact ⟨fun h => absurd h (by decide),
                fun h => h.elim (fun h1 => absurd h1.1 hl)
                  (fun h1 => absurd ⟨h1.2.1, h1.2.2.1, h1.2.2.2.1⟩ hv)⟩
        · have hr0 : (arc_ops_fetch_remote env (inc_cache_misses cache)
              (COBJ_UNSET_FLAG obj COBJ_FLAG_EVICTED)).ret ≠ 0 := by rw [hs.1]; exact hret
          obtain ⟨f1, f3, f5⟩ := fetch_peer_err env cache obj hg ho hdone hr0
          rw [f1, f3]
          refine ⟨Or.inl rfl, ?_, ?_, ?_, fun h => absurd h hl,
            fun _ h => absurd h (by decide),
            ⟨fun h => absurd h hl, fun h => absurd h f5⟩⟩
          · exact ⟨fun _ => Or.inl ⟨hp, hret⟩, fun _ => rfl⟩
          · rw [if_pos rfl]
          · exact ⟨fun h => absurd h (by decide),
              fun h => h.elim (fun h1 => absurd h1.1 hl) (fun h1 => absurd h1.2.2.1 hret)⟩
    · exact hlocal _ _ hd ⟨hg, Or.inl ho⟩ (fetch_owner env cache obj hg ho)

theorem arc_ops_fetch_return_code_witness :
    (arc_ops_fetch { env_remote [1, 2] with peer1 := { reply_ok [1, 2] with rnd := 1 } }
        { cache_plain with force_caching := false } (arc_ops_create [1] false true)).rc = 1 :=
  ((arc_ops_fetch_return_code
      { env_remote [1, 2] with peer1 := { reply_ok [1, 2] with rnd := 1 } }
      { cache_plain with force_caching := false } (arc_ops_create [1] false true)
      rfl).2.2.2.1).2 (Or.inr (by decide))

end Shardcache
